import Mathlib

/-!
# tlog: sink (record framer) and line reader

A shallow embedding of `tlog_sink.c` (the functions `tlog_sink_window_write`,
`tlog_sink_io_write`, `tlog_sink_io_cut`, `tlog_sink_io_flush`) and of the reader that
`lib/fd_reader_test.c` exercises.

Conventions of the embedding:

* C integers are `Nat`/`Int`; `size_t` arithmetic is taken modulo `2^64`, `unsigned int`
  modulo `2^32`, `unsigned short` modulo `2^16`.
* Character buffers are `List Char`.
* The IO accumulator (`tlog_io.c`) and the writer are collaborators of the sink whose code is
  not part of `tlog_sink.c`: their functions are the fields of `tlog_env`, and every property
  they need is an explicit hypothesis of the theorem that uses it.
-/

namespace Tlog

/-! ## Return codes, time -/

/-- The return code `tlog_rc` of the sink functions. -/
inductive tlog_rc where
  | TLOG_RC_OK
  | TLOG_RC_FAILURE
  deriving DecidableEq, Repr

open tlog_rc

/-- The C `struct timespec`: seconds and nanoseconds, both `long`. -/
structure timespec where
  tv_sec : Int
  tv_nsec : Int
  deriving DecidableEq, Repr

/-- Modelled from the spec: `tlog_timespec_sub` of `tlog_misc.h`, which is not among the
sources; the sink "computes `pos` relative to session start": the difference `a - b` with a
borrow from the seconds when the nanosecond difference is negative. -/
def tlog_timespec_sub (a b : timespec) : timespec :=
  let sec := a.tv_sec - b.tv_sec
  let nsec := a.tv_nsec - b.tv_nsec
  if nsec < 0 then { tv_sec := sec - 1, tv_nsec := nsec + 1000000000 }
  else { tv_sec := sec, tv_nsec := nsec }

/-- The value of `errno` for "out of memory". -/
def ENOMEM : Nat := 12

/-- The value of `errno` for "value too large to be stored in data type". -/
def EOVERFLOW : Nat := 75

/-- The largest `int`. -/
def INT_MAX : Nat := 2147483647

/-- The number of values of a `size_t` (64 bits). -/
def SIZE_MOD : Nat := 2 ^ 64

/-! ## printf conversions -/

/-- The conversion of an unsigned value without flags: its decimal digits, most
significant first. -/
def fmt_dec (n : Nat) : List Char := Nat.toDigits 10 n

/-- The conversion `%u` of an `unsigned int`. -/
def fmt_u (n : Nat) : List Char := fmt_dec (n % 2 ^ 32)

/-- The conversion `%zu` of a `size_t`. -/
def fmt_zu (n : Nat) : List Char := fmt_dec (n % SIZE_MOD)

/-- The conversion `%hu` of an `unsigned short`. -/
def fmt_hu (n : Nat) : List Char := fmt_dec (n % 2 ^ 16)

/-- The conversion `%ld`: a minus sign for a negative value, then the digits. -/
def fmt_ld (v : Int) : List Char :=
  if v < 0 then '-' :: fmt_dec v.natAbs else fmt_dec v.natAbs

/-- The conversion `%03ld`: as `%ld`, padded with zeros after the sign to a field of at
least three characters. -/
def fmt_03ld (v : Int) : List Char :=
  let d := fmt_dec v.natAbs
  if v < 0 then '-' :: (List.replicate (2 - d.length) '0' ++ d)
  else List.replicate (3 - d.length) '0' ++ d

/-- The conversion `%s`: the characters of the string up to its terminating NUL. -/
def fmt_s (s : List Char) : List Char := s.takeWhile (fun c => c != Char.ofNat 0)

/-- The conversion `%.*s`: at most `prec` characters of the buffer, stopping at a NUL. -/
def fmt_s_prec (prec : Nat) (buf : List Char) : List Char := fmt_s (buf.take prec)

/-- The two conversions `%ld.%03ld` applied to `pos.tv_sec, pos.tv_nsec / 1000000`
(C division truncates towards zero). -/
def fmt_pos (pos : timespec) : List Char :=
  fmt_ld pos.tv_sec ++ '.' :: fmt_03ld (pos.tv_nsec.tdiv 1000000)

/-- The result of `snprintf(buf, size, ...)` whose complete output would be `out`: the
buffer holds at most `size - 1` characters of it (and a NUL), and the return value is the
length of the complete output, or negative when that length is not an `int`. -/
def snprintf (size : Nat) (out : List Char) : List Char × Int :=
  (out.take (size - 1), if out.length ≤ INT_MAX then (out.length : Int) else -1)

/-- The value of `errno` after that call of `snprintf`: as before the call when the call
returns the length, `EOVERFLOW` when it fails because the length is not an `int`. -/
def snprintf_errno (errno : Nat) (out : List Char) : Nat :=
  if out.length ≤ INT_MAX then errno else EOVERFLOW

/-! ## The IO accumulator and the writer, as seen from the sink -/

/-- One direction of the accumulator (`sink->io.input`, `sink->io.output`): the text and
binary buffers and their lengths. -/
structure tlog_stream where
  txt_buf : List Char
  txt_len : Nat
  bin_buf : List Char
  bin_len : Nat

/-- The accumulator `struct tlog_io`: the fields `tlog_sink.c` reads, and `priv` for
everything else the accumulator keeps. `timing_ptr` is the offset of the C pointer of that
name from `timing_buf`. -/
structure tlog_io (ρ : Type) where
  first : timespec
  timing_buf : List Char
  timing_ptr : Nat
  input : tlog_stream
  output : tlog_stream
  priv : ρ

/-- The writer `struct tlog_writer`, with the history of the calls made to it:
`log` lists, oldest first, every buffer passed to `tlog_writer_write` and the code the
writer returned for it. -/
structure tlog_writer (ω : Type) where
  obj : ω
  log : List (List Char × tlog_rc)

/-- The functions of the collaborators that `tlog_sink.c` calls.
`io_write io timestamp output buf` returns the accumulator and the number of bytes it took
from the front of `buf` (the C function advances `*pbuf` and lowers `*plen` by that number).
`io_cut` returns the accumulator and the C function's boolean result.
`writer_write` is the writer's `write` method. -/
structure tlog_env (ρ ω : Type) where
  io_is_valid : tlog_io ρ → Bool
  io_is_empty : tlog_io ρ → Bool
  io_flush : tlog_io ρ → tlog_io ρ
  io_empty : tlog_io ρ → tlog_io ρ
  io_write : tlog_io ρ → timespec → Bool → List UInt8 → tlog_io ρ × Nat
  io_cut : tlog_io ρ → tlog_io ρ × Bool
  writer_write : ω → List Char → tlog_rc × ω

/-- The call `tlog_writer_write(writer, buf, len)`, with `buf` the `len` bytes passed. -/
def tlog_writer_write {ρ ω : Type} (env : tlog_env ρ ω) (w : tlog_writer ω)
    (buf : List Char) : tlog_rc × tlog_writer ω :=
  let r := env.writer_write w.obj buf
  (r.1, { obj := r.2, log := w.log ++ [(buf, r.1)] })

/-! ## The sink -/

/-- The sink `struct tlog_sink`. `message_buf` is the content of the framing buffer,
`errno` the C variable of that name. -/
structure tlog_sink (ρ ω : Type) where
  writer : tlog_writer ω
  hostname : List Char
  username : List Char
  session_id : Nat
  message_id : Nat
  start : timespec
  io : tlog_io ρ
  message_buf : List Char
  message_len : Nat
  errno : Nat

/-- The function `tlog_sink_is_valid`: the pointers of the C structure are never NULL in
the embedding, which leaves the validity of the accumulator. -/
def tlog_sink_is_valid {ρ ω : Type} (env : tlog_env ρ ω) (sink : tlog_sink ρ ω) : Bool :=
  env.io_is_valid sink.io

/-- The complete output of the format of `tlog_sink_window_write`. -/
def window_fmt (hostname username : List Char) (session_id message_id : Nat)
    (pos : timespec) (width height : Nat) : List Char :=
  "\x7b\"type\":\"window\",\"host\":\"".toList ++ fmt_s hostname ++
  "\",\"user\":\"".toList ++ fmt_s username ++
  "\",\"session\":".toList ++ fmt_u session_id ++
  ",\"id\":".toList ++ fmt_zu message_id ++
  ",\"pos\":".toList ++ fmt_pos pos ++
  ",\"width\":".toList ++ fmt_hu width ++
  ",\"height\":".toList ++ fmt_hu height ++
  "\x7d\n".toList

/-- The complete output of the format of `tlog_sink_io_flush`. The precisions of the five
`%.*s` conversions are the lengths of the regions cast to `int`; the lengths are bounded by
the capacity of the accumulator and the cast is taken to preserve them. -/
def io_fmt {ρ : Type} (hostname username : List Char) (session_id message_id : Nat)
    (pos : timespec) (io : tlog_io ρ) : List Char :=
  "\x7b\"type\":\"io\",\"host\":\"".toList ++ fmt_s hostname ++
  "\",\"user\":\"".toList ++ fmt_s username ++
  "\",\"session\":".toList ++ fmt_u session_id ++
  ",\"id\":".toList ++ fmt_zu message_id ++
  ",\"pos\":".toList ++ fmt_pos pos ++
  ",\"timing\":\"".toList ++ fmt_s_prec io.timing_ptr io.timing_buf ++
  "\",\"in_txt\":\"".toList ++ fmt_s_prec io.input.txt_len io.input.txt_buf ++
  "\",\"in_bin\":[".toList ++ fmt_s_prec io.input.bin_len io.input.bin_buf ++
  "],\"out_txt\":\"".toList ++ fmt_s_prec io.output.txt_len io.output.txt_buf ++
  "\",\"out_bin\":[".toList ++ fmt_s_prec io.output.bin_len io.output.bin_buf ++
  "]\x7d\n".toList

/-- The function `tlog_sink_io_flush`. -/
def tlog_sink_io_flush {ρ ω : Type} (env : tlog_env ρ ω) (sink : tlog_sink ρ ω) :
    tlog_rc × tlog_sink ρ ω :=
  if env.io_is_empty sink.io then (TLOG_RC_OK, sink)
  else
    let sink := { sink with io := env.io_flush sink.io }
    let pos := tlog_timespec_sub sink.io.first sink.start
    let out := io_fmt sink.hostname sink.username sink.session_id sink.message_id pos sink.io
    let r := snprintf sink.message_len out
    let sink := { sink with message_buf := r.1, errno := snprintf_errno sink.errno out }
    let len := r.2
    if len < 0 then (TLOG_RC_FAILURE, sink)
    else if len.toNat ≥ sink.message_len then
      (TLOG_RC_FAILURE, { sink with errno := ENOMEM })
    else
      let w := tlog_writer_write env sink.writer (sink.message_buf.take len.toNat)
      let sink := { sink with writer := w.2 }
      if w.1 ≠ TLOG_RC_OK then (TLOG_RC_FAILURE, sink)
      else
        let sink := { sink with message_id := (sink.message_id + 1) % SIZE_MOD }
        let sink := { sink with io := env.io_empty sink.io }
        (TLOG_RC_OK, sink)

/-- The function `tlog_sink_window_write`; `width` and `height` are `unsigned short`. -/
def tlog_sink_window_write {ρ ω : Type} (env : tlog_env ρ ω) (sink : tlog_sink ρ ω)
    (timestamp : timespec) (width height : Nat) : tlog_rc × tlog_sink ρ ω :=
  let pos := tlog_timespec_sub timestamp sink.start
  let sink := (tlog_sink_io_flush env sink).2
  let out :=
    window_fmt sink.hostname sink.username sink.session_id sink.message_id pos width height
  let r := snprintf sink.message_len out
  let sink := { sink with message_buf := r.1, errno := snprintf_errno sink.errno out }
  let len := r.2
  if len < 0 then (TLOG_RC_FAILURE, sink)
  else if len.toNat ≥ sink.message_len then
    (TLOG_RC_FAILURE, { sink with errno := ENOMEM })
  else
    let sink := { sink with message_id := (sink.message_id + 1) % SIZE_MOD }
    let w := tlog_writer_write env sink.writer (sink.message_buf.take len.toNat)
    (w.1, { sink with writer := w.2 })

/-- What a run of the loop of `tlog_sink_io_write` did. `rc` is the value returned, or
`none` when the loop has not been left after the number of iterations allowed; `sink` is the
sink at that point and `rest` the bytes not yet taken (the C variables `buf`, `len`).
`taken` lists the bytes each call of `tlog_io_write` took and `flushes` the result of each
call of `tlog_sink_io_flush`, both in call order. -/
structure io_write_run (ρ ω : Type) where
  rc : Option tlog_rc
  sink : tlog_sink ρ ω
  rest : List UInt8
  taken : List (List UInt8)
  flushes : List tlog_rc

/-- The function `tlog_sink_io_write`; the first argument bounds the number of iterations
of its `while (true)` loop. -/
def tlog_sink_io_write {ρ ω : Type} (env : tlog_env ρ ω) :
    Nat → tlog_sink ρ ω → timespec → Bool → List UInt8 → io_write_run ρ ω
  | 0, sink, _, _, buf =>
    { rc := none, sink := sink, rest := buf, taken := [], flushes := [] }
  | fuel + 1, sink, timestamp, output, buf =>
    let r := env.io_write sink.io timestamp output buf
    let sink := { sink with io := r.1 }
    let took := buf.take r.2
    let buf := buf.drop r.2
    if buf.length = 0 then
      { rc := some TLOG_RC_OK, sink := sink, rest := buf, taken := [took], flushes := [] }
    else
      let f := tlog_sink_io_flush env sink
      if f.1 ≠ TLOG_RC_OK then
        { rc := some TLOG_RC_FAILURE, sink := f.2, rest := buf, taken := [took],
          flushes := [f.1] }
      else
        let run := tlog_sink_io_write env fuel f.2 timestamp output buf
        { run with taken := took :: run.taken, flushes := f.1 :: run.flushes }

/-- The sink and the bytes left after `i` complete iterations of the loop of
`tlog_sink_io_write` on `sink` and `buf`: each a call of `tlog_io_write` followed by a call
of `tlog_sink_io_flush`. -/
def io_write_iter {ρ ω : Type} (env : tlog_env ρ ω) (timestamp : timespec) (output : Bool) :
    Nat → tlog_sink ρ ω → List UInt8 → tlog_sink ρ ω × List UInt8
  | 0, sink, buf => (sink, buf)
  | i + 1, sink, buf =>
    io_write_iter env timestamp output i
      (tlog_sink_io_flush env
        { sink with io := (env.io_write sink.io timestamp output buf).1 }).2
      (buf.drop (env.io_write sink.io timestamp output buf).2)

/-- The sink right after the call of `tlog_io_write` of iteration `i` (counted from 0) of
the loop of `tlog_sink_io_write` on `sink` and `buf`, `i` complete iterations having gone
before: the accumulator is the one that call returned. -/
def io_write_written {ρ ω : Type} (env : tlog_env ρ ω) (timestamp : timespec) (output : Bool)
    (sink : tlog_sink ρ ω) (buf : List UInt8) (i : Nat) : tlog_sink ρ ω :=
  { (io_write_iter env timestamp output i sink buf).1 with
    io := (env.io_write (io_write_iter env timestamp output i sink buf).1.io timestamp output
      (io_write_iter env timestamp output i sink buf).2).1 }

/-- The bytes that the call of `tlog_io_write` of iteration `i` took from the front of the
bytes left. -/
def io_write_took {ρ ω : Type} (env : tlog_env ρ ω) (timestamp : timespec) (output : Bool)
    (sink : tlog_sink ρ ω) (buf : List UInt8) (i : Nat) : List UInt8 :=
  (io_write_iter env timestamp output i sink buf).2.take
    (env.io_write (io_write_iter env timestamp output i sink buf).1.io timestamp output
      (io_write_iter env timestamp output i sink buf).2).2

/-- The bytes that the call of `tlog_io_write` of iteration `i` left. -/
def io_write_left {ρ ω : Type} (env : tlog_env ρ ω) (timestamp : timespec) (output : Bool)
    (sink : tlog_sink ρ ω) (buf : List UInt8) (i : Nat) : List UInt8 :=
  (io_write_iter env timestamp output i sink buf).2.drop
    (env.io_write (io_write_iter env timestamp output i sink buf).1.io timestamp output
      (io_write_iter env timestamp output i sink buf).2).2

/-- The function `tlog_sink_io_cut`; the first argument bounds the number of iterations of
its loop, and the code is `none` when the loop has not been left by then. -/
def tlog_sink_io_cut {ρ ω : Type} (env : tlog_env ρ ω) :
    Nat → tlog_sink ρ ω → Option tlog_rc × tlog_sink ρ ω
  | 0, sink => (none, sink)
  | fuel + 1, sink =>
    let c := env.io_cut sink.io
    let sink := { sink with io := c.1 }
    if c.2 then (some TLOG_RC_OK, sink)
    else
      let f := tlog_sink_io_flush env sink
      if f.1 ≠ TLOG_RC_OK then (some TLOG_RC_FAILURE, f.2)
      else tlog_sink_io_cut env fuel f.2

/-- A call of one of the four operations of the sink, with its arguments. -/
inductive sink_op where
  | window_write (timestamp : timespec) (width height : Nat)
  | io_write (timestamp : timespec) (output : Bool) (buf : List UInt8)
  | io_cut
  | io_flush

/-- The sink after one operation, each loop being followed for at most `fuel` iterations. -/
def sink_apply {ρ ω : Type} (env : tlog_env ρ ω) (fuel : Nat) (sink : tlog_sink ρ ω) :
    sink_op → tlog_sink ρ ω
  | .window_write timestamp width height =>
    (tlog_sink_window_write env sink timestamp width height).2
  | .io_write timestamp output buf =>
    (tlog_sink_io_write env fuel sink timestamp output buf).sink
  | .io_cut => (tlog_sink_io_cut env fuel sink).2
  | .io_flush => (tlog_sink_io_flush env sink).2

/-- The sink after a sequence of operations. -/
def sink_run {ρ ω : Type} (env : tlog_env ρ ω) (fuel : Nat) (sink : tlog_sink ρ ω)
    (ops : List sink_op) : tlog_sink ρ ω :=
  ops.foldl (sink_apply env fuel) sink

/-- A `timespec` in normal form: the nanoseconds are in `[0, 10^9)`. -/
def timespec_ok (t : timespec) : Bool :=
  decide (0 ≤ t.tv_nsec) && decide (t.tv_nsec < 1000000000)

/-- The timestamp of an operation, when it has one, is in normal form. -/
def sink_op_ok : sink_op → Bool
  | .window_write timestamp _ _ => timespec_ok timestamp
  | .io_write timestamp _ _ => timespec_ok timestamp
  | .io_cut => true
  | .io_flush => true

/-! ## A small accumulator and a scripted writer, for concrete runs -/

/-- A small accumulator of capacity `cap` bytes that only counts the input and output bytes
it holds (`priv`), and on `io_flush` writes one letter per byte into the text buffers and
one `+` per byte into the timing buffer. -/
def demo_env (cap : Nat) : tlog_env (Nat × Nat) (List tlog_rc) where
  io_is_valid := fun io => timespec_ok io.first
  io_is_empty := fun io => io.priv.1 + io.priv.2 == 0
  io_flush := fun io =>
    { io with
      timing_buf := List.replicate (io.priv.1 + io.priv.2) '+'
      timing_ptr := io.priv.1 + io.priv.2
      input := { txt_buf := List.replicate io.priv.1 'i', txt_len := io.priv.1,
                 bin_buf := [], bin_len := 0 }
      output := { txt_buf := List.replicate io.priv.2 'o', txt_len := io.priv.2,
                  bin_buf := [], bin_len := 0 } }
  io_empty := fun io => { io with priv := (0, 0) }
  io_write := fun io timestamp output buf =>
    let n := min buf.length (cap - (io.priv.1 + io.priv.2))
    let first := if io.priv.1 + io.priv.2 == 0 then timestamp else io.first
    ({ io with first := first,
               priv := if output then (io.priv.1, io.priv.2 + n)
                       else (io.priv.1 + n, io.priv.2) }, n)
  io_cut := fun io => (io, true)
  writer_write := fun script _ =>
    match script with
    | [] => (TLOG_RC_OK, [])
    | rc :: rest => (rc, rest)

/-- The accumulator of `demo_env` holding `n_in` input and `n_out` output bytes. -/
def demo_io (n_in n_out : Nat) : tlog_io (Nat × Nat) where
  first := { tv_sec := 10, tv_nsec := 250000000 }
  timing_buf := []
  timing_ptr := 0
  input := { txt_buf := [], txt_len := 0, bin_buf := [], bin_len := 0 }
  output := { txt_buf := [], txt_len := 0, bin_buf := [], bin_len := 0 }
  priv := (n_in, n_out)

/-- A sink for `demo_env`: host `h`, user `u`, session 1, started at time 10.0, with a
framing buffer of `message_len` bytes, whose writer answers the calls with the codes of
`script` in turn (and accepts every call after those). -/
def demo_sink (hostname : List Char) (message_len : Nat) (io : tlog_io (Nat × Nat))
    (script : List tlog_rc) : tlog_sink (Nat × Nat) (List tlog_rc) where
  writer := { obj := script, log := [] }
  hostname := hostname
  username := ['u']
  session_id := 1
  message_id := 0
  start := { tv_sec := 10, tv_nsec := 0 }
  io := io
  message_buf := []
  message_len := message_len
  errno := 0

/-! ## JSON text

A scanner for JSON texts (RFC 8259), one character at a time, with the stack of the open
containers: what "a syntactically complete JSON object" means below. -/

/-- What the scanner expects next. `str`, `esc`, `hex` are positions within a string
(`key` tells whether the string is the key of an object member; `hex n` is within a
`\u` escape with `n + 1` hex digits to come); `minus` to `exp_int` are positions within a
number; `lit rest` is within one of the words `true`, `false`, `null`; `done` is after a
complete value. -/
inductive json_mode where
  | value
  | elem_or_end
  | key_or_end
  | key
  | colon
  | str (key : Bool)
  | esc (key : Bool)
  | hex (key : Bool) (n : Nat)
  | minus
  | zero
  | int
  | dot
  | frac
  | exp
  | exp_sign
  | exp_int
  | lit (rest : List Char)
  | done
  deriving DecidableEq, Repr

/-- The state of the scanner: the open containers, innermost first (`true` for an
object, `false` for an array), and the mode. -/
abbrev json_state : Type := List Bool × json_mode

/-- JSON whitespace. -/
def json_ws (c : Char) : Bool :=
  c == ' ' || c == '\t' || c == '\n' || c == '\r'

/-- A decimal digit. -/
def json_digit (c : Char) : Bool := decide (48 ≤ c.toNat) && decide (c.toNat ≤ 57)

/-- A hexadecimal digit. -/
def json_hexdigit (c : Char) : Bool :=
  json_digit c || (decide (97 ≤ c.toNat) && decide (c.toNat ≤ 102)) ||
    (decide (65 ≤ c.toNat) && decide (c.toNat ≤ 70))

/-- A character that may stand for itself within a string: not a control character, not
the double quote, not the backslash. -/
def json_plain (c : Char) : Bool :=
  decide (32 ≤ c.toNat) && c != '\x22' && c != '\x5c'

/-- A character that may follow a backslash, other than `u`. -/
def json_escape (c : Char) : Bool :=
  c == '\x22' || c == '\x5c' || c == '/' || c == 'b' || c == 'f' || c == 'n' ||
    c == 'r' || c == 't'

/-- The first character of a value. -/
def json_begin (stack : List Bool) (c : Char) : Option json_state :=
  if c == '\x7b' then some (true :: stack, .key_or_end)
  else if c == '[' then some (false :: stack, .elem_or_end)
  else if c == '\x22' then some (stack, .str false)
  else if c == '-' then some (stack, .minus)
  else if c == '0' then some (stack, .zero)
  else if json_digit c then some (stack, .int)
  else if c == 't' then some (stack, .lit ['r', 'u', 'e'])
  else if c == 'f' then some (stack, .lit ['a', 'l', 's', 'e'])
  else if c == 'n' then some (stack, .lit ['u', 'l', 'l'])
  else none

/-- A character after a complete value: whitespace, or a comma or the closing bracket of
the innermost open container. -/
def json_after (stack : List Bool) (c : Char) : Option json_state :=
  if json_ws c then some (stack, .done)
  else
    match stack with
    | [] => none
    | true :: rest =>
      if c == ',' then some (stack, .key)
      else if c == '\x7d' then some (rest, .done) else none
    | false :: rest =>
      if c == ',' then some (stack, .value)
      else if c == ']' then some (rest, .done) else none

/-- One character of JSON text; `none` when the character cannot stand there. -/
def json_step : json_state → Char → Option json_state
  | (stack, .value), c => if json_ws c then some (stack, .value) else json_begin stack c
  | (stack, .elem_or_end), c =>
    if json_ws c then some (stack, .elem_or_end)
    else if c == ']' then
      match stack with
      | false :: rest => some (rest, .done)
      | _ => none
    else json_begin stack c
  | (stack, .key_or_end), c =>
    if json_ws c then some (stack, .key_or_end)
    else if c == '\x7d' then
      match stack with
      | true :: rest => some (rest, .done)
      | _ => none
    else if c == '\x22' then some (stack, .str true) else none
  | (stack, .key), c =>
    if json_ws c then some (stack, .key)
    else if c == '\x22' then some (stack, .str true) else none
  | (stack, .colon), c =>
    if json_ws c then some (stack, .colon)
    else if c == ':' then some (stack, .value) else none
  | (stack, .str k), c =>
    if c == '\x22' then some (stack, if k then .colon else .done)
    else if c == '\x5c' then some (stack, .esc k)
    else if json_plain c then some (stack, .str k) else none
  | (stack, .esc k), c =>
    if c == 'u' then some (stack, .hex k 3)
    else if json_escape c then some (stack, .str k) else none
  | (stack, .hex k n), c =>
    if json_hexdigit c then
      match n with
      | 0 => some (stack, .str k)
      | m + 1 => some (stack, .hex k m)
    else none
  | (stack, .minus), c =>
    if c == '0' then some (stack, .zero)
    else if json_digit c then some (stack, .int) else none
  | (stack, .zero), c =>
    if c == '.' then some (stack, .dot)
    else if c == 'e' || c == 'E' then some (stack, .exp)
    else if json_digit c then none
    else json_after stack c
  | (stack, .int), c =>
    if json_digit c then some (stack, .int)
    else if c == '.' then some (stack, .dot)
    else if c == 'e' || c == 'E' then some (stack, .exp)
    else json_after stack c
  | (stack, .dot), c => if json_digit c then some (stack, .frac) else none
  | (stack, .frac), c =>
    if json_digit c then some (stack, .frac)
    else if c == 'e' || c == 'E' then some (stack, .exp)
    else json_after stack c
  | (stack, .exp), c =>
    if c == '+' || c == '-' then some (stack, .exp_sign)
    else if json_digit c then some (stack, .exp_int) else none
  | (stack, .exp_sign), c => if json_digit c then some (stack, .exp_int) else none
  | (stack, .exp_int), c =>
    if json_digit c then some (stack, .exp_int) else json_after stack c
  | (stack, .lit rest), c =>
    match rest with
    | [] => none
    | r :: rest =>
      if c == r then some (stack, if rest.isEmpty then .done else .lit rest) else none
  | (stack, .done), c => json_after stack c

/-- The scanner over a text. -/
def json_run : json_state → List Char → Option json_state
  | st, [] => some st
  | st, c :: cs =>
    match json_step st c with
    | none => none
    | some st' => json_run st' cs

/-- The text is exactly one JSON object: it starts with the opening brace, ends with the
closing brace, and the scanner reads it as one complete value. -/
def json_object (text : List Char) : Bool :=
  text.head? == some '\x7b' && text.getLast? == some '\x7d' &&
    json_run ([], .value) text == some ([], .done)

/-- The buffer is one JSON object followed by a single newline. -/
def json_record (buf : List Char) : Bool :=
  buf.getLast? == some '\n' && json_object buf.dropLast

/-- The content of a JSON string, scanned from between two characters (`pend = none`),
from after a backslash (`some 0`) or from within a `\u` escape with `n` hex digits to come
(`some n`): plain characters and complete escapes. -/
def json_str_body_from : Option Nat → List Char → Bool
  | none, [] => true
  | some _, [] => false
  | none, c :: cs =>
    if c == '\x5c' then json_str_body_from (some 0) cs
    else json_plain c && json_str_body_from none cs
  | some 0, c :: cs =>
    if c == 'u' then json_str_body_from (some 4) cs
    else json_escape c && json_str_body_from none cs
  | some (n + 1), c :: cs =>
    json_hexdigit c && json_str_body_from (if n = 0 then none else some n) cs

/-- The text can stand between the quotes of a JSON string. -/
def json_str_body (text : List Char) : Bool := json_str_body_from none text

/-- Decimal numbers separated by commas, scanned from where a number must start (`0`),
from after a lone `0` (`1`) or from within a number (any other value). -/
def json_nums_from : Nat → List Char → Bool
  | 0, [] => false
  | _ + 1, [] => true
  | 0, c :: cs =>
    if c == '0' then json_nums_from 1 cs else json_digit c && json_nums_from 2 cs
  | 1, c :: cs => c == ',' && json_nums_from 0 cs
  | _ + 2, c :: cs =>
    if c == ',' then json_nums_from 0 cs else json_digit c && json_nums_from 2 cs

/-- The text can stand between the brackets of a JSON array of numbers: nothing, or
decimal numbers separated by commas. -/
def json_num_list (text : List Char) : Bool := text.isEmpty || json_nums_from 0 text

/-- The regions of the accumulator, as `tlog_sink_io_flush` prints them, can stand where the
format puts them (the timing and the text regions within quotes, the binary regions within
brackets), and the time of the first byte is in normal form. -/
def io_regions_ok {ρ : Type} (io : tlog_io ρ) : Bool :=
  timespec_ok io.first &&
  json_str_body (fmt_s_prec io.timing_ptr io.timing_buf) &&
  json_str_body (fmt_s_prec io.input.txt_len io.input.txt_buf) &&
  json_num_list (fmt_s_prec io.input.bin_len io.input.bin_buf) &&
  json_str_body (fmt_s_prec io.output.txt_len io.output.txt_buf) &&
  json_num_list (fmt_s_prec io.output.bin_len io.output.bin_buf)

/-! ## The reader

`tlog_fd_reader` is exercised by `lib/fd_reader_test.c`; its own code is not among the
sources. The definitions of this section follow the state machine of the specification
(section 4.3), and the scenarios of the test file are replayed on them below. -/

/-- Modelled from the spec: the answer of the value parser (the JSON tokener, a collaborator
of the reader whose code is not among the sources) to the text of one line: a complete
value, "the text ends within a value", or a structural error with the parser's code. -/
inductive tok_result (κ : Type) where
  | value (v : κ)
  | incomplete
  | error (code : Nat)
  deriving DecidableEq, Repr

/-- Modelled from the spec: the return code of a read of the reader (whose code is not
among the sources): `ok` is the C value `0` (a value, or end of stream when no
object comes with it), `incomplete_line` is `TLOG_FD_READER_ERROR_INCOMPLETE_LINE`, and
`parser code` is the parser's own code, passed on as it is. -/
inductive reader_rc where
  | ok
  | incomplete_line
  | parser (code : Nat)
  deriving DecidableEq, Repr

/-- Modelled from the spec: the state of `tlog_fd_reader` (its code is not among the
sources). "Reader state: current byte source, a pending-line buffer, the Location Tracker's
line counter (1-based, starts at 1), and a recovery flag": `src` is what the source still
holds, `line` the counter, `skip` the recovery flag; a line is taken from the source whole,
so that no pending buffer outlives a read. -/
structure tlog_fd_reader where
  src : List Char
  line : Nat
  skip : Bool
  deriving DecidableEq, Repr

/-- Modelled from the spec: creation of the reader over an input (the reader's code is not
among the sources); the line counter "starts at 1" and no recovery is pending. -/
def tlog_fd_reader_create (input : List Char) : tlog_fd_reader :=
  { src := input, line := 1, skip := false }

/-- Modelled from the spec: `loc_get` of the reader (the reader's code is not among the
sources): "returns the current line counter (1-based)". -/
def tlog_fd_reader_loc_get (r : tlog_fd_reader) : Nat := r.line

/-- Modelled from the spec: step 1 of a read (the reader's code is not among the sources):
"discard bytes up to and including the next newline (or end-of-stream), advancing the line
counter on a consumed newline". -/
def reader_discard_line : List Char → Nat → List Char × Nat
  | [], line => ([], line)
  | c :: cs, line => if c == '\n' then (cs, line + 1) else reader_discard_line cs line

/-- Modelled from the spec: the "pure whitespace" that step 2 of a read skips (the reader's
code is not among the sources), taken to be the whitespace of the C function `isspace`. -/
def reader_space (c : Char) : Bool :=
  c == ' ' || c == '\t' || c == '\n' || c == '\r' || c == Char.ofNat 11 || c == Char.ofNat 12

/-- Modelled from the spec: step 2 of a read (the reader's code is not among the sources):
"skip pure whitespace, advancing the line counter on each newline skipped". -/
def reader_skip_space : List Char → Nat → List Char × Nat
  | [], line => ([], line)
  | c :: cs, line =>
    if c == '\n' then reader_skip_space cs (line + 1)
    else if reader_space c then reader_skip_space cs line
    else (c :: cs, line)

/-- Modelled from the spec: steps 1 and 2 of a read together (the reader's code is not among
the sources): "if pending recovery is set, discard bytes up to and including the next
newline ...; clear recovery", then "skip pure whitespace". The result is what the source
holds from there on, and the line counter. -/
def reader_seek (r : tlog_fd_reader) : List Char × Nat :=
  let s1 := if r.skip then reader_discard_line r.src r.line else (r.src, r.line)
  reader_skip_space s1.1 s1.2

/-- Modelled from the spec: `read` of the reader (the reader's code is not among the
sources), steps 1 to 6 of section 4.3 in order. The text of a line is "up to the next
newline or end-of-stream"; the newline that ends it is consumed and counted with it, which
is what the test file observes after a value (`"{}\n"`: location 2), after a structural
error (`object_after_err`: location 2, and the next read returns the object of the next
line) and after an incomplete line (`premature_newline`: location 2). Recovery stays
pending only when the line in error has not ended yet. -/
def tlog_fd_reader_read {κ : Type} (tok : List Char → tok_result κ) (r : tlog_fd_reader) :
    reader_rc × Option κ × tlog_fd_reader :=
  let s2 := reader_seek r
  if s2.1.isEmpty then (.ok, none, { src := s2.1, line := s2.2, skip := false })
  else
    let text := s2.1.takeWhile (fun c => c != '\n')
    let rest := s2.1.dropWhile (fun c => c != '\n')
    let ended := !rest.isEmpty
    let r3 : tlog_fd_reader :=
      { src := rest.tail, line := if ended then s2.2 + 1 else s2.2, skip := false }
    match tok text with
    | .value v => (.ok, some v, r3)
    | .incomplete => (.incomplete_line, none, { r3 with skip := !ended })
    | .error code => (.parser code, none, { r3 with skip := !ended })

/-- The reader after `n` reads. -/
def reader_after {κ : Type} (tok : List Char → tok_result κ) :
    Nat → tlog_fd_reader → tlog_fd_reader
  | 0, r => r
  | n + 1, r => reader_after tok n (tlog_fd_reader_read tok r).2.2

/-- The code `json_tokener_error_depth` of the JSON tokener. -/
def json_tokener_error_depth : Nat := 2

/-- The code `json_tokener_error_parse_unexpected` of the JSON tokener. -/
def json_tokener_error_parse_unexpected : Nat := 4

/-- A number is complete in these modes, and any value in `done`. -/
def json_complete : json_mode → Bool
  | .zero => true
  | .int => true
  | .frac => true
  | .exp_int => true
  | .done => true
  | _ => false

/-- A value parser for concrete runs, built on the scanner: a structural error where the
scanner stops or where more than `depth` containers are open, a complete value (here the
text itself) when the text is one value, and "incomplete" otherwise. -/
def demo_tok_from (depth : Nat) (text : List Char) :
    json_state → List Char → tok_result (List Char)
  | st, [] => if st.1.isEmpty && json_complete st.2 then .value text else .incomplete
  | st, c :: cs =>
    match json_step st c with
    | none => .error json_tokener_error_parse_unexpected
    | some st' =>
      if st'.1.length > depth then .error json_tokener_error_depth
      else demo_tok_from depth text st' cs

/-- The value parser of the concrete runs, admitting one level of containers: the test file
reads `{"x": 1}` as a value and `[{"x": 1}]` as too deep. -/
def demo_tok (text : List Char) : tok_result (List Char) :=
  demo_tok_from 1 text ([], .value) text

/-- The codes, values and locations of `n` successive reads, each followed by `loc_get`. -/
def reader_trace {κ : Type} (tok : List Char → tok_result κ) :
    Nat → tlog_fd_reader → List (reader_rc × Option κ × Nat)
  | 0, _ => []
  | n + 1, r =>
    let x := tlog_fd_reader_read tok r
    (x.1, x.2.1, tlog_fd_reader_loc_get x.2.2) :: reader_trace tok n x.2.2

/-- Modelled from the spec: the code and the object with which a read of the reader (whose
code is not among the sources) answers what the parser said about the text of a line,
steps 4 to 6 of section 4.3: the three cases at the end of `tlog_fd_reader_read`. -/
def reader_answer {κ : Type} : tok_result κ → reader_rc × Option κ
  | .value v => (.ok, some v)
  | .incomplete => (.incomplete_line, none)
  | .error code => (.parser code, none)

/-- The codes and values of `n` successive reads, without the locations. -/
def reader_results {κ : Type} (tok : List Char → tok_result κ) (n : Nat)
    (r : tlog_fd_reader) : List (reader_rc × Option κ) :=
  (reader_trace tok n r).map (fun x => (x.1, x.2.1))

/-- The text of an input made of the given lines, each ended by a newline. -/
def text_of_lines : List (List Char) → List Char
  | [] => []
  | l :: ls => l ++ '\n' :: text_of_lines ls

/-- The number of lines that hold something other than whitespace. -/
def content_lines (lines : List (List Char)) : Nat :=
  (lines.filter (fun l => !l.all reader_space)).length

/-! ## Names for what the sink formats -/

/-- The complete record that `tlog_sink_io_flush` formats when the accumulator of `sink` is
not empty: the format applied to the accumulator after `tlog_io_flush`. -/
def io_flush_record {ρ ω : Type} (env : tlog_env ρ ω) (sink : tlog_sink ρ ω) : List Char :=
  io_fmt sink.hostname sink.username sink.session_id sink.message_id
    (tlog_timespec_sub (env.io_flush sink.io).first sink.start) (env.io_flush sink.io)

/-- The complete record that `tlog_sink_window_write` formats, `sink` being the sink as the
flush at the start of the call leaves it. -/
def window_record {ρ ω : Type} (sink : tlog_sink ρ ω) (timestamp : timespec)
    (width height : Nat) : List Char :=
  window_fmt sink.hostname sink.username sink.session_id sink.message_id
    (tlog_timespec_sub timestamp sink.start) width height

/-- The accumulator functions keep the accumulator valid (`tlog_io_write` when it is given
a time in normal form). -/
def io_keeps_valid {ρ ω : Type} (env : tlog_env ρ ω) : Prop :=
  (∀ io, env.io_is_valid io = true → env.io_is_valid (env.io_flush io) = true) ∧
  (∀ io, env.io_is_valid io = true → env.io_is_valid (env.io_empty io) = true) ∧
  (∀ io timestamp output buf, env.io_is_valid io = true → timespec_ok timestamp = true →
    env.io_is_valid (env.io_write io timestamp output buf).1 = true) ∧
  (∀ io, env.io_is_valid io = true → env.io_is_valid (env.io_cut io).1 = true)

/-- What the records need of the sink: host and user names of plain characters, a start
time in normal form, a valid accumulator. -/
def sink_json_ok {ρ ω : Type} (env : tlog_env ρ ω) (sink : tlog_sink ρ ω) : Prop :=
  sink.hostname.all json_plain = true ∧ sink.username.all json_plain = true ∧
  timespec_ok sink.start = true ∧ tlog_sink_is_valid env sink = true

/-- The writer of `sink2` has been given what the writer of `sink1` had been given, and
then only records (one JSON object and a newline each). -/
def log_extends_json {ρ ω : Type} (sink1 sink2 : tlog_sink ρ ω) : Prop :=
  ∃ news, sink2.writer.log = sink1.writer.log ++ news ∧
    ∀ e ∈ news, json_record e.1 = true

/-! # Theorems -/

/-! ## The message id and the order of the records -/

/-- C1, at the input where it fails: the accumulator is empty and the writer refuses the
window record. `tlog_sink_window_write` returns `TLOG_RC_FAILURE`, the writer has been
called once and has accepted nothing, and yet `message_id` has gone from 0 to 1. -/
theorem window_write_counts_refused_record :
    (demo_sink ['h'] 1024 (demo_io 0 0) [TLOG_RC_FAILURE]).message_id = 0 ∧
    (tlog_sink_window_write (demo_env 4)
      (demo_sink ['h'] 1024 (demo_io 0 0) [TLOG_RC_FAILURE])
      { tv_sec := 12, tv_nsec := 5000000 } 80 24).1 = TLOG_RC_FAILURE ∧
    (tlog_sink_window_write (demo_env 4)
      (demo_sink ['h'] 1024 (demo_io 0 0) [TLOG_RC_FAILURE])
      { tv_sec := 12, tv_nsec := 5000000 } 80 24).2.writer.log.map Prod.snd
        = [TLOG_RC_FAILURE] ∧
    (tlog_sink_window_write (demo_env 4)
      (demo_sink ['h'] 1024 (demo_io 0 0) [TLOG_RC_FAILURE])
      { tv_sec := 12, tv_nsec := 5000000 } 80 24).2.message_id = 1 := by
  decide

set_option maxRecDepth 4000 in
/-- C2, at the input where it fails: the accumulator holds three bytes and the writer
refuses the first record it is given. `tlog_sink_window_write` ignores the failure of the
flush: the writer is handed the io record (refused), then the window record (accepted), the
call returns `TLOG_RC_OK`, and the accumulator still holds its bytes. -/
theorem window_write_after_failed_flush :
    (demo_env 4).io_is_empty (demo_io 2 1) = false ∧
    (tlog_sink_window_write (demo_env 4)
      (demo_sink ['h'] 1024 (demo_io 2 1) [TLOG_RC_FAILURE])
      { tv_sec := 12, tv_nsec := 5000000 } 80 24).1 = TLOG_RC_OK ∧
    (tlog_sink_window_write (demo_env 4)
      (demo_sink ['h'] 1024 (demo_io 2 1) [TLOG_RC_FAILURE])
      { tv_sec := 12, tv_nsec := 5000000 } 80 24).2.writer.log =
      [(("\x7b\"type\":\"io\",\"host\":\"h\",\"user\":\"u\",\"session\":1,\"id\":0," ++
          "\"pos\":0.250,\"timing\":\"+++\",\"in_txt\":\"ii\",\"in_bin\":[]," ++
          "\"out_txt\":\"o\",\"out_bin\":[]\x7d\n").toList, TLOG_RC_FAILURE),
       (("\x7b\"type\":\"window\",\"host\":\"h\",\"user\":\"u\",\"session\":1,\"id\":0," ++
          "\"pos\":2.005,\"width\":80,\"height\":24\x7d\n").toList, TLOG_RC_OK)] ∧
    (demo_env 4).io_is_empty (tlog_sink_window_write (demo_env 4)
      (demo_sink ['h'] 1024 (demo_io 2 1) [TLOG_RC_FAILURE])
      { tv_sec := 12, tv_nsec := 5000000 } 80 24).2.io = false := by
  decide

/-! ## What one call of `tlog_sink_io_flush` does -/

theorem snprintf_len (size : Nat) (out : List Char) (h : out.length ≤ INT_MAX) :
    (snprintf size out).2 = (out.length : Int) := by
  simp [snprintf, h]

theorem snprintf_len_neg (size : Nat) (out : List Char) (h : INT_MAX < out.length) :
    (snprintf size out).2 = -1 := by
  simp [snprintf, Nat.not_le.mpr h]

theorem snprintf_errno_same (errno : Nat) (out : List Char) (h : out.length ≤ INT_MAX) :
    snprintf_errno errno out = errno := by
  simp [snprintf_errno, h]

theorem snprintf_errno_overflow (errno : Nat) (out : List Char) (h : INT_MAX < out.length) :
    snprintf_errno errno out = EOVERFLOW := by
  simp [snprintf_errno, Nat.not_le.mpr h]

theorem snprintf_whole (size : Nat) (out : List Char) (h : out.length < size) :
    (snprintf size out).1.take out.length = out := by
  have h1 : out.take (size - 1) = out := List.take_of_length_le (by omega)
  simp [snprintf, h1]

/-- An empty accumulator: `tlog_sink_io_flush` returns at once. -/
theorem io_flush_empty {ρ ω : Type} (env : tlog_env ρ ω) (sink : tlog_sink ρ ω)
    (he : env.io_is_empty sink.io = true) :
    tlog_sink_io_flush env sink = (TLOG_RC_OK, sink) := by
  simp [tlog_sink_io_flush, he]

/-- The length of the record is not an `int`: failure, nothing written. -/
theorem io_flush_overlong {ρ ω : Type} (env : tlog_env ρ ω) (sink : tlog_sink ρ ω)
    (he : env.io_is_empty sink.io = false)
    (hl : INT_MAX < (io_flush_record env sink).length) :
    tlog_sink_io_flush env sink =
      (TLOG_RC_FAILURE,
        { sink with
          io := env.io_flush sink.io
          message_buf := (snprintf sink.message_len (io_flush_record env sink)).1
          errno := EOVERFLOW }) := by
  have h2 := snprintf_len_neg sink.message_len (io_flush_record env sink) hl
  have h4 := snprintf_errno_overflow sink.errno (io_flush_record env sink) hl
  simp only [io_flush_record] at h2 h4
  simp [tlog_sink_io_flush, he, h2, h4, io_flush_record]

/-- The record does not fit the framing buffer: failure with `ENOMEM`, nothing written. -/
theorem io_flush_no_room {ρ ω : Type} (env : tlog_env ρ ω) (sink : tlog_sink ρ ω)
    (he : env.io_is_empty sink.io = false)
    (hl : (io_flush_record env sink).length ≤ INT_MAX)
    (hr : sink.message_len ≤ (io_flush_record env sink).length) :
    tlog_sink_io_flush env sink =
      (TLOG_RC_FAILURE,
        { sink with
          io := env.io_flush sink.io
          message_buf := (snprintf sink.message_len (io_flush_record env sink)).1
          errno := ENOMEM }) := by
  have h2 := snprintf_len sink.message_len (io_flush_record env sink) hl
  have h4 := snprintf_errno_same sink.errno (io_flush_record env sink) hl
  simp only [io_flush_record] at h2 h4 hr
  simp [tlog_sink_io_flush, he, h2, h4, io_flush_record, hr]

/-- The record fits: the writer is given the whole record; when it refuses, failure. -/
theorem io_flush_refused {ρ ω : Type} (env : tlog_env ρ ω) (sink : tlog_sink ρ ω)
    (he : env.io_is_empty sink.io = false)
    (hl : (io_flush_record env sink).length ≤ INT_MAX)
    (hr : (io_flush_record env sink).length < sink.message_len)
    (hw : (env.writer_write sink.writer.obj (io_flush_record env sink)).1 ≠ TLOG_RC_OK) :
    tlog_sink_io_flush env sink =
      (TLOG_RC_FAILURE,
        { sink with
          io := env.io_flush sink.io
          message_buf := (snprintf sink.message_len (io_flush_record env sink)).1
          writer :=
            { obj := (env.writer_write sink.writer.obj (io_flush_record env sink)).2
              log := sink.writer.log ++ [(io_flush_record env sink,
                (env.writer_write sink.writer.obj (io_flush_record env sink)).1)] } }) := by
  have h2 := snprintf_len sink.message_len (io_flush_record env sink) hl
  have h3 := snprintf_whole sink.message_len (io_flush_record env sink) hr
  have h4 := snprintf_errno_same sink.errno (io_flush_record env sink) hl
  simp only [io_flush_record] at h2 h3 h4 hr hw
  simp [tlog_sink_io_flush, he, h2, h3, h4, io_flush_record, hr, Nat.not_le.mpr hr,
    tlog_writer_write, hw]

/-- The record fits and the writer accepts it: the id is incremented and the accumulator
emptied. -/
theorem io_flush_accepted {ρ ω : Type} (env : tlog_env ρ ω) (sink : tlog_sink ρ ω)
    (he : env.io_is_empty sink.io = false)
    (hl : (io_flush_record env sink).length ≤ INT_MAX)
    (hr : (io_flush_record env sink).length < sink.message_len)
    (hw : (env.writer_write sink.writer.obj (io_flush_record env sink)).1 = TLOG_RC_OK) :
    tlog_sink_io_flush env sink =
      (TLOG_RC_OK,
        { sink with
          io := env.io_empty (env.io_flush sink.io)
          message_buf := (snprintf sink.message_len (io_flush_record env sink)).1
          message_id := (sink.message_id + 1) % SIZE_MOD
          writer :=
            { obj := (env.writer_write sink.writer.obj (io_flush_record env sink)).2
              log := sink.writer.log ++ [(io_flush_record env sink, TLOG_RC_OK)] } }) := by
  have h2 := snprintf_len sink.message_len (io_flush_record env sink) hl
  have h3 := snprintf_whole sink.message_len (io_flush_record env sink) hr
  have h4 := snprintf_errno_same sink.errno (io_flush_record env sink) hl
  simp only [io_flush_record] at h2 h3 h4 hr hw
  simp [tlog_sink_io_flush, he, h2, h3, h4, io_flush_record, hr, Nat.not_le.mpr hr,
    tlog_writer_write, hw]

/-- Every call of `tlog_sink_io_flush` is one of the five cases above. -/
theorem io_flush_elim {ρ ω : Type} (env : tlog_env ρ ω) (sink : tlog_sink ρ ω)
    (P : tlog_rc × tlog_sink ρ ω → Prop)
    (h_empty : env.io_is_empty sink.io = true → P (TLOG_RC_OK, sink))
    (h_overlong : env.io_is_empty sink.io = false →
      INT_MAX < (io_flush_record env sink).length →
      P (TLOG_RC_FAILURE,
        { sink with
          io := env.io_flush sink.io
          message_buf := (snprintf sink.message_len (io_flush_record env sink)).1
          errno := EOVERFLOW }))
    (h_no_room : env.io_is_empty sink.io = false →
      (io_flush_record env sink).length ≤ INT_MAX →
      sink.message_len ≤ (io_flush_record env sink).length →
      P (TLOG_RC_FAILURE,
        { sink with
          io := env.io_flush sink.io
          message_buf := (snprintf sink.message_len (io_flush_record env sink)).1
          errno := ENOMEM }))
    (h_refused : env.io_is_empty sink.io = false →
      (io_flush_record env sink).length ≤ INT_MAX →
      (io_flush_record env sink).length < sink.message_len →
      (env.writer_write sink.writer.obj (io_flush_record env sink)).1 ≠ TLOG_RC_OK →
      P (TLOG_RC_FAILURE,
        { sink with
          io := env.io_flush sink.io
          message_buf := (snprintf sink.message_len (io_flush_record env sink)).1
          writer :=
            { obj := (env.writer_write sink.writer.obj (io_flush_record env sink)).2
              log := sink.writer.log ++ [(io_flush_record env sink,
                (env.writer_write sink.writer.obj (io_flush_record env sink)).1)] } }))
    (h_accepted : env.io_is_empty sink.io = false →
      (io_flush_record env sink).length ≤ INT_MAX →
      (io_flush_record env sink).length < sink.message_len →
      (env.writer_write sink.writer.obj (io_flush_record env sink)).1 = TLOG_RC_OK →
      P (TLOG_RC_OK,
        { sink with
          io := env.io_empty (env.io_flush sink.io)
          message_buf := (snprintf sink.message_len (io_flush_record env sink)).1
          message_id := (sink.message_id + 1) % SIZE_MOD
          writer :=
            { obj := (env.writer_write sink.writer.obj (io_flush_record env sink)).2
              log := sink.writer.log ++ [(io_flush_record env sink, TLOG_RC_OK)] } })) :
    P (tlog_sink_io_flush env sink) := by
  by_cases he : env.io_is_empty sink.io = true
  · rw [io_flush_empty env sink he]; exact h_empty he
  · have he : env.io_is_empty sink.io = false := by simpa using he
    by_cases hl : (io_flush_record env sink).length ≤ INT_MAX
    · by_cases hr : (io_flush_record env sink).length < sink.message_len
      · by_cases hw : (env.writer_write sink.writer.obj (io_flush_record env sink)).1
            = TLOG_RC_OK
        · rw [io_flush_accepted env sink he hl hr hw]; exact h_accepted he hl hr hw
        · rw [io_flush_refused env sink he hl hr hw]; exact h_refused he hl hr hw
      · rw [io_flush_no_room env sink he hl (Nat.le_of_not_lt hr)]
        exact h_no_room he hl (Nat.le_of_not_lt hr)
    · rw [io_flush_overlong env sink he (Nat.lt_of_not_le hl)]
      exact h_overlong he (Nat.lt_of_not_le hl)

/-- What `tlog_sink_io_flush` never touches. -/
theorem io_flush_frame {ρ ω : Type} (env : tlog_env ρ ω) (sink : tlog_sink ρ ω) :
    (tlog_sink_io_flush env sink).2.hostname = sink.hostname ∧
    (tlog_sink_io_flush env sink).2.username = sink.username ∧
    (tlog_sink_io_flush env sink).2.session_id = sink.session_id ∧
    (tlog_sink_io_flush env sink).2.start = sink.start ∧
    (tlog_sink_io_flush env sink).2.message_len = sink.message_len := by
  apply io_flush_elim env sink (fun r => r.2.hostname = sink.hostname ∧
    r.2.username = sink.username ∧ r.2.session_id = sink.session_id ∧
    r.2.start = sink.start ∧ r.2.message_len = sink.message_len) <;> intros <;> simp

/-- The other code: `tlog_rc` has two values. -/
theorem rc_ne_ok (rc : tlog_rc) : rc ≠ TLOG_RC_OK ↔ rc = TLOG_RC_FAILURE := by
  cases rc <;> simp

/-! ## What one call of `tlog_sink_window_write` does after its flush -/

/-- The length of the window record is not an `int`: failure, nothing written. -/
theorem window_write_overlong {ρ ω : Type} (env : tlog_env ρ ω) (sink : tlog_sink ρ ω)
    (timestamp : timespec) (width height : Nat)
    (hl : INT_MAX <
      (window_record (tlog_sink_io_flush env sink).2 timestamp width height).length) :
    tlog_sink_window_write env sink timestamp width height =
      (TLOG_RC_FAILURE,
        { (tlog_sink_io_flush env sink).2 with
          message_buf := (snprintf (tlog_sink_io_flush env sink).2.message_len
            (window_record (tlog_sink_io_flush env sink).2 timestamp width height)).1
          errno := EOVERFLOW }) := by
  have hf := io_flush_frame env sink
  have h2 := snprintf_len_neg (tlog_sink_io_flush env sink).2.message_len _ hl
  have h4 := snprintf_errno_overflow (tlog_sink_io_flush env sink).2.errno _ hl
  simp only [window_record, hf.2.2.2.1] at h2 h4
  simp [tlog_sink_window_write, h2, h4, window_record, hf.2.2.2.1]

/-- The window record does not fit the framing buffer: failure with `ENOMEM`, nothing
written. -/
theorem window_write_no_room {ρ ω : Type} (env : tlog_env ρ ω) (sink : tlog_sink ρ ω)
    (timestamp : timespec) (width height : Nat)
    (hl : (window_record (tlog_sink_io_flush env sink).2 timestamp width height).length
      ≤ INT_MAX)
    (hr : (tlog_sink_io_flush env sink).2.message_len ≤
      (window_record (tlog_sink_io_flush env sink).2 timestamp width height).length) :
    tlog_sink_window_write env sink timestamp width height =
      (TLOG_RC_FAILURE,
        { (tlog_sink_io_flush env sink).2 with
          message_buf := (snprintf (tlog_sink_io_flush env sink).2.message_len
            (window_record (tlog_sink_io_flush env sink).2 timestamp width height)).1
          errno := ENOMEM }) := by
  have hf := io_flush_frame env sink
  have h2 := snprintf_len (tlog_sink_io_flush env sink).2.message_len _ hl
  have h4 := snprintf_errno_same (tlog_sink_io_flush env sink).2.errno _ hl
  simp only [window_record, hf.2.2.2.1] at h2 h4 hr
  simp [tlog_sink_window_write, h2, h4, window_record, hf.2.2.2.1, hr]

/-- The window record fits: the id is incremented, the writer is given the whole record,
and the call returns what the writer returns. -/
theorem window_write_written {ρ ω : Type} (env : tlog_env ρ ω) (sink : tlog_sink ρ ω)
    (timestamp : timespec) (width height : Nat)
    (hl : (window_record (tlog_sink_io_flush env sink).2 timestamp width height).length
      ≤ INT_MAX)
    (hr : (window_record (tlog_sink_io_flush env sink).2 timestamp width height).length <
      (tlog_sink_io_flush env sink).2.message_len) :
    tlog_sink_window_write env sink timestamp width height =
      ((env.writer_write (tlog_sink_io_flush env sink).2.writer.obj
          (window_record (tlog_sink_io_flush env sink).2 timestamp width height)).1,
        { (tlog_sink_io_flush env sink).2 with
          message_buf := (snprintf (tlog_sink_io_flush env sink).2.message_len
            (window_record (tlog_sink_io_flush env sink).2 timestamp width height)).1
          message_id := ((tlog_sink_io_flush env sink).2.message_id + 1) % SIZE_MOD
          writer :=
            { obj := (env.writer_write (tlog_sink_io_flush env sink).2.writer.obj
                (window_record (tlog_sink_io_flush env sink).2 timestamp width height)).2
              log := (tlog_sink_io_flush env sink).2.writer.log ++
                [(window_record (tlog_sink_io_flush env sink).2 timestamp width height,
                  (env.writer_write (tlog_sink_io_flush env sink).2.writer.obj
                    (window_record (tlog_sink_io_flush env sink).2 timestamp width
                      height)).1)] } }) := by
  have hf := io_flush_frame env sink
  have h2 := snprintf_len (tlog_sink_io_flush env sink).2.message_len _ hl
  have h3 := snprintf_whole (tlog_sink_io_flush env sink).2.message_len _ hr
  have h4 := snprintf_errno_same (tlog_sink_io_flush env sink).2.errno _ hl
  simp only [window_record, hf.2.2.2.1] at h2 h3 h4 hr
  simp [tlog_sink_window_write, h2, h3, h4, window_record, hf.2.2.2.1, hr,
    Nat.not_le.mpr hr, tlog_writer_write]

/-- A record that fits is handed to the writer whole, and the code of the call tells
whether the writer accepted it. -/
theorem io_flush_fits_log {ρ ω : Type} (env : tlog_env ρ ω) (sink : tlog_sink ρ ω)
    (he : env.io_is_empty sink.io = false)
    (hl : (io_flush_record env sink).length ≤ INT_MAX)
    (hr : (io_flush_record env sink).length < sink.message_len) :
    (tlog_sink_io_flush env sink).2.writer.log =
      sink.writer.log ++ [(io_flush_record env sink, (tlog_sink_io_flush env sink).1)] := by
  by_cases hw : (env.writer_write sink.writer.obj (io_flush_record env sink)).1
      = TLOG_RC_OK
  · rw [io_flush_accepted env sink he hl hr hw]
  · rw [io_flush_refused env sink he hl hr hw]
    simp [(rc_ne_ok _).mp hw]

/-- After a call that returns `TLOG_RC_OK` the accumulator is empty, provided
`tlog_io_is_empty` holds after `tlog_io_empty`. -/
theorem io_flush_ok_is_empty {ρ ω : Type} (env : tlog_env ρ ω) (sink : tlog_sink ρ ω)
    (hempty : ∀ io, env.io_is_empty (env.io_empty io) = true)
    (hok : (tlog_sink_io_flush env sink).1 = TLOG_RC_OK) :
    env.io_is_empty (tlog_sink_io_flush env sink).2.io = true := by
  revert hok
  apply io_flush_elim env sink (fun r => r.1 = TLOG_RC_OK → env.io_is_empty r.2.io = true)
  · intro he _; exact he
  · intro _ _ h; simp at h
  · intro _ _ _ h; simp at h
  · intro _ _ _ _ h; simp at h
  · intro _ _ _ _ _; simp [hempty]

/-- In `tlog_sink_io_flush` the message id follows the writer: it goes up by one when the
writer has accepted the record, and stays as it is on every other path. -/
theorem io_flush_id_follows_writer {ρ ω : Type} (env : tlog_env ρ ω) (sink : tlog_sink ρ ω) :
    ((tlog_sink_io_flush env sink).2.writer.log =
        sink.writer.log ++ [(io_flush_record env sink, TLOG_RC_OK)] ∧
      (tlog_sink_io_flush env sink).2.message_id = (sink.message_id + 1) % SIZE_MOD) ∨
    (((tlog_sink_io_flush env sink).2.writer.log = sink.writer.log ∨
        (tlog_sink_io_flush env sink).2.writer.log =
          sink.writer.log ++ [(io_flush_record env sink, TLOG_RC_FAILURE)]) ∧
      (tlog_sink_io_flush env sink).2.message_id = sink.message_id) := by
  apply io_flush_elim env sink (fun r =>
    (r.2.writer.log = sink.writer.log ++ [(io_flush_record env sink, TLOG_RC_OK)] ∧
      r.2.message_id = (sink.message_id + 1) % SIZE_MOD) ∨
    ((r.2.writer.log = sink.writer.log ∨
        r.2.writer.log = sink.writer.log ++ [(io_flush_record env sink, TLOG_RC_FAILURE)]) ∧
      r.2.message_id = sink.message_id))
  · intro _; exact Or.inr ⟨Or.inl rfl, rfl⟩
  · intro _ _; exact Or.inr ⟨Or.inl rfl, rfl⟩
  · intro _ _ _; exact Or.inr ⟨Or.inl rfl, rfl⟩
  · intro _ _ _ hw
    refine Or.inr ⟨Or.inr ?_, rfl⟩
    simp only [(rc_ne_ok _).mp hw]
  · intro _ _ _ _; exact Or.inl ⟨rfl, rfl⟩

/-- `tlog_sink_window_write` leaves the accumulator as its flush left it: when that flush
returned `TLOG_RC_OK`, the accumulator is empty at the time the window record is written,
provided `tlog_io_is_empty` holds after `tlog_io_empty`. -/
theorem window_write_after_good_flush {ρ ω : Type} (env : tlog_env ρ ω)
    (sink : tlog_sink ρ ω) (timestamp : timespec) (width height : Nat)
    (hempty : ∀ io, env.io_is_empty (env.io_empty io) = true)
    (hok : (tlog_sink_io_flush env sink).1 = TLOG_RC_OK) :
    (tlog_sink_window_write env sink timestamp width height).2.io =
      (tlog_sink_io_flush env sink).2.io ∧
    env.io_is_empty (tlog_sink_window_write env sink timestamp width height).2.io = true := by
  have hio : (tlog_sink_window_write env sink timestamp width height).2.io =
      (tlog_sink_io_flush env sink).2.io := by
    by_cases hl : (window_record (tlog_sink_io_flush env sink).2 timestamp width
        height).length ≤ INT_MAX
    · by_cases hr : (window_record (tlog_sink_io_flush env sink).2 timestamp width
          height).length < (tlog_sink_io_flush env sink).2.message_len
      · rw [window_write_written env sink timestamp width height hl hr]
      · rw [window_write_no_room env sink timestamp width height hl (Nat.le_of_not_lt hr)]
    · rw [window_write_overlong env sink timestamp width height (Nat.lt_of_not_le hl)]
  exact ⟨hio, by rw [hio]; exact io_flush_ok_is_empty env sink hempty hok⟩

/-! ## The length check, the flush that succeeds, the flush that fails -/

/-- C4, as amended: the length check of `tlog_sink_window_write` and of
`tlog_sink_io_flush` on a non-empty accumulator. For a record whose length is at most
`INT_MAX` (the length `snprintf` returns): if the length is at least `message_len`, the call
returns `TLOG_RC_FAILURE` with `errno = ENOMEM` and the writer is not called for the record
(its log is as the flush at the start of `tlog_sink_window_write` left it, resp.
unchanged); if the length is smaller, the writer is called with the complete record, and
the code of the call is the code of the writer. For a longer record `snprintf` fails and
the `len < 0` branch is taken: the call returns `TLOG_RC_FAILURE`, `errno` is the
`EOVERFLOW` of `snprintf`, and the writer is not called for the record. -/
theorem framing_length_check {ρ ω : Type} (env : tlog_env ρ ω) (sink : tlog_sink ρ ω)
    (timestamp : timespec) (width height : Nat) :
    ((window_record (tlog_sink_io_flush env sink).2 timestamp width height).length
        ≤ INT_MAX →
      (sink.message_len ≤
          (window_record (tlog_sink_io_flush env sink).2 timestamp width height).length →
        (tlog_sink_window_write env sink timestamp width height).1 = TLOG_RC_FAILURE ∧
        (tlog_sink_window_write env sink timestamp width height).2.errno = ENOMEM ∧
        (tlog_sink_window_write env sink timestamp width height).2.writer.log =
          (tlog_sink_io_flush env sink).2.writer.log) ∧
      ((window_record (tlog_sink_io_flush env sink).2 timestamp width height).length <
          sink.message_len →
        (tlog_sink_window_write env sink timestamp width height).2.writer.log =
          (tlog_sink_io_flush env sink).2.writer.log ++
            [(window_record (tlog_sink_io_flush env sink).2 timestamp width height,
              (tlog_sink_window_write env sink timestamp width height).1)])) ∧
    (env.io_is_empty sink.io = false → (io_flush_record env sink).length ≤ INT_MAX →
      (sink.message_len ≤ (io_flush_record env sink).length →
        (tlog_sink_io_flush env sink).1 = TLOG_RC_FAILURE ∧
        (tlog_sink_io_flush env sink).2.errno = ENOMEM ∧
        (tlog_sink_io_flush env sink).2.writer.log = sink.writer.log) ∧
      ((io_flush_record env sink).length < sink.message_len →
        (tlog_sink_io_flush env sink).2.writer.log =
          sink.writer.log ++
            [(io_flush_record env sink, (tlog_sink_io_flush env sink).1)])) ∧
    (INT_MAX < (window_record (tlog_sink_io_flush env sink).2 timestamp width height).length →
      (tlog_sink_window_write env sink timestamp width height).1 = TLOG_RC_FAILURE ∧
      (tlog_sink_window_write env sink timestamp width height).2.errno = EOVERFLOW ∧
      (tlog_sink_window_write env sink timestamp width height).2.writer.log =
        (tlog_sink_io_flush env sink).2.writer.log) ∧
    (env.io_is_empty sink.io = false → INT_MAX < (io_flush_record env sink).length →
      (tlog_sink_io_flush env sink).1 = TLOG_RC_FAILURE ∧
      (tlog_sink_io_flush env sink).2.errno = EOVERFLOW ∧
      (tlog_sink_io_flush env sink).2.writer.log = sink.writer.log) := by
  have hlen := (io_flush_frame env sink).2.2.2.2
  refine ⟨fun hl => ⟨fun hr => ?_, fun hr => ?_⟩, fun he hl => ⟨fun hr => ?_, fun hr => ?_⟩,
    fun hl => ?_, fun he hl => ?_⟩
  · rw [window_write_no_room env sink timestamp width height hl (by rw [hlen]; exact hr)]
    simp
  · rw [window_write_written env sink timestamp width height hl (by rw [hlen]; exact hr)]
  · rw [io_flush_no_room env sink he hl hr]
    simp
  · exact io_flush_fits_log env sink he hl hr
  · rw [window_write_overlong env sink timestamp width height hl]
    simp
  · rw [io_flush_overlong env sink he hl]
    simp

set_option maxRecDepth 4000 in
/-- The four cases of `framing_length_check` on the small accumulator: a framing buffer of
16 bytes is too small for either record, one of 1024 bytes takes both. -/
theorem framing_length_check_witness :
    ((tlog_sink_window_write (demo_env 4) (demo_sink ['h'] 16 (demo_io 0 0) [])
        { tv_sec := 12, tv_nsec := 5000000 } 80 24).1 = TLOG_RC_FAILURE ∧
      (tlog_sink_window_write (demo_env 4) (demo_sink ['h'] 16 (demo_io 0 0) [])
        { tv_sec := 12, tv_nsec := 5000000 } 80 24).2.errno = ENOMEM ∧
      (tlog_sink_window_write (demo_env 4) (demo_sink ['h'] 16 (demo_io 0 0) [])
        { tv_sec := 12, tv_nsec := 5000000 } 80 24).2.writer.log =
        (tlog_sink_io_flush (demo_env 4)
          (demo_sink ['h'] 16 (demo_io 0 0) [])).2.writer.log) ∧
    ((tlog_sink_window_write (demo_env 4) (demo_sink ['h'] 1024 (demo_io 0 0) [])
        { tv_sec := 12, tv_nsec := 5000000 } 80 24).2.writer.log =
      (tlog_sink_io_flush (demo_env 4) (demo_sink ['h'] 1024 (demo_io 0 0) [])).2.writer.log
        ++ [(window_record
              (tlog_sink_io_flush (demo_env 4) (demo_sink ['h'] 1024 (demo_io 0 0) [])).2
              { tv_sec := 12, tv_nsec := 5000000 } 80 24,
            (tlog_sink_window_write (demo_env 4) (demo_sink ['h'] 1024 (demo_io 0 0) [])
              { tv_sec := 12, tv_nsec := 5000000 } 80 24).1)]) ∧
    ((tlog_sink_io_flush (demo_env 4) (demo_sink ['h'] 16 (demo_io 2 1) [])).1
        = TLOG_RC_FAILURE ∧
      (tlog_sink_io_flush (demo_env 4) (demo_sink ['h'] 16 (demo_io 2 1) [])).2.errno
        = ENOMEM ∧
      (tlog_sink_io_flush (demo_env 4) (demo_sink ['h'] 16 (demo_io 2 1) [])).2.writer.log
        = (demo_sink ['h'] 16 (demo_io 2 1) []).writer.log) ∧
    ((tlog_sink_io_flush (demo_env 4) (demo_sink ['h'] 1024 (demo_io 2 1) [])).2.writer.log =
      (demo_sink ['h'] 1024 (demo_io 2 1) []).writer.log ++
        [(io_flush_record (demo_env 4) (demo_sink ['h'] 1024 (demo_io 2 1) []),
          (tlog_sink_io_flush (demo_env 4) (demo_sink ['h'] 1024 (demo_io 2 1) [])).1)]) :=
  ⟨((framing_length_check (demo_env 4) (demo_sink ['h'] 16 (demo_io 0 0) [])
      { tv_sec := 12, tv_nsec := 5000000 } 80 24).1 (by decide)).1 (by decide),
   ((framing_length_check (demo_env 4) (demo_sink ['h'] 1024 (demo_io 0 0) [])
      { tv_sec := 12, tv_nsec := 5000000 } 80 24).1 (by decide)).2 (by decide),
   ((framing_length_check (demo_env 4) (demo_sink ['h'] 16 (demo_io 2 1) [])
      { tv_sec := 12, tv_nsec := 5000000 } 80 24).2.1 (by decide) (by decide)).1 (by decide),
   ((framing_length_check (demo_env 4) (demo_sink ['h'] 1024 (demo_io 2 1) [])
      { tv_sec := 12, tv_nsec := 5000000 } 80 24).2.1 (by decide) (by decide)).2 (by decide)⟩

/-- A string of plain characters holds no NUL: `%s` prints all of it. -/
theorem fmt_s_plain : ∀ (text : List Char), text.all json_plain = true → fmt_s text = text
  | [], _ => rfl
  | c :: cs, h => by
    simp only [List.all_cons, Bool.and_eq_true] at h
    have hn : (c != Char.ofNat 0) = true := by
      have := h.1
      simp only [json_plain, Bool.and_eq_true, decide_eq_true_eq] at this
      simp only [bne_iff_ne, ne_eq]
      intro hc
      rw [hc] at this
      exact absurd this.1.1 (by decide)
    have ih := fmt_s_plain cs h.2
    simp only [fmt_s] at ih ⊢
    simp only [List.takeWhile_cons, hn, if_true, ih]

/-- The window record of the sink of the small accumulator, whatever the host name: the
host name between two fixed texts. -/
theorem demo_window_record (hostname : List Char) (message_len : Nat)
    (hh : hostname.all json_plain = true) :
    window_record (demo_sink hostname message_len (demo_io 0 0) [])
        { tv_sec := 12, tv_nsec := 5000000 } 80 24 =
      "\x7b\"type\":\"window\",\"host\":\"".toList ++ (hostname ++
        ("\",\"user\":\"u\",\"session\":1,\"id\":0,\"pos\":2.005," ++
          "\"width\":80,\"height\":24\x7d\n").toList) := by
  have hrest : "\",\"user\":\"".toList ++ (fmt_s ['u'] ++ ("\",\"session\":".toList ++
      (fmt_u 1 ++ (",\"id\":".toList ++ (fmt_zu 0 ++ (",\"pos\":".toList ++
      (fmt_pos (tlog_timespec_sub { tv_sec := 12, tv_nsec := 5000000 }
        { tv_sec := 10, tv_nsec := 0 }) ++ (",\"width\":".toList ++ (fmt_hu 80 ++
      (",\"height\":".toList ++ (fmt_hu 24 ++ "\x7d\n".toList))))))))))) =
      ("\",\"user\":\"u\",\"session\":1,\"id\":0,\"pos\":2.005," ++
        "\"width\":80,\"height\":24\x7d\n").toList := by decide
  simp only [window_record, window_fmt, demo_sink, List.append_assoc, fmt_s_plain hostname hh]
  rw [hrest]

/-- The length of that record: 93 characters around the host name. -/
theorem demo_window_record_length (hostname : List Char) (message_len : Nat)
    (hh : hostname.all json_plain = true) :
    (window_record (demo_sink hostname message_len (demo_io 0 0) [])
        { tv_sec := 12, tv_nsec := 5000000 } 80 24).length = hostname.length + 93 := by
  rw [demo_window_record hostname message_len hh]
  have h1 : "\x7b\"type\":\"window\",\"host\":\"".toList.length = 25 := by decide
  have h2 : ("\",\"user\":\"u\",\"session\":1,\"id\":0,\"pos\":2.005," ++
      "\"width\":80,\"height\":24\x7d\n").toList.length = 68 := by decide
  rw [List.length_append, List.length_append, h1, h2]
  omega

/-- A host name of `n` letters `a`. -/
theorem replicate_a_plain (n : Nat) : (List.replicate n 'a').all json_plain = true := by
  simp only [List.all_eq_true]
  intro x hx
  rw [List.eq_of_mem_replicate hx]
  decide

/-- C4 as stated fails for a record longer than `INT_MAX`, here with a host name of 2^31
letters. With a framing buffer of 1024 bytes the record is longer than the buffer, and
`tlog_sink_window_write` returns `TLOG_RC_FAILURE` through the `len < 0` branch, with
`errno` as `snprintf` left it (`EOVERFLOW`), not `ENOMEM`. With a framing buffer of 2^32
bytes the record is shorter than the buffer, and yet the writer is not called. -/
theorem framing_length_check_counterexample :
    ((demo_sink (List.replicate 2147483648 'a') 1024 (demo_io 0 0) []).message_len ≤
        (window_record (tlog_sink_io_flush (demo_env 4)
            (demo_sink (List.replicate 2147483648 'a') 1024 (demo_io 0 0) [])).2
          { tv_sec := 12, tv_nsec := 5000000 } 80 24).length ∧
      (tlog_sink_window_write (demo_env 4)
        (demo_sink (List.replicate 2147483648 'a') 1024 (demo_io 0 0) [])
        { tv_sec := 12, tv_nsec := 5000000 } 80 24).1 = TLOG_RC_FAILURE ∧
      (tlog_sink_window_write (demo_env 4)
        (demo_sink (List.replicate 2147483648 'a') 1024 (demo_io 0 0) [])
        { tv_sec := 12, tv_nsec := 5000000 } 80 24).2.errno = EOVERFLOW ∧
      (tlog_sink_window_write (demo_env 4)
        (demo_sink (List.replicate 2147483648 'a') 1024 (demo_io 0 0) [])
        { tv_sec := 12, tv_nsec := 5000000 } 80 24).2.errno ≠ ENOMEM) ∧
    ((window_record (tlog_sink_io_flush (demo_env 4)
          (demo_sink (List.replicate 2147483648 'a') 4294967296 (demo_io 0 0) [])).2
        { tv_sec := 12, tv_nsec := 5000000 } 80 24).length <
        (demo_sink (List.replicate 2147483648 'a') 4294967296 (demo_io 0 0) []).message_len ∧
      (tlog_sink_window_write (demo_env 4)
        (demo_sink (List.replicate 2147483648 'a') 4294967296 (demo_io 0 0) [])
        { tv_sec := 12, tv_nsec := 5000000 } 80 24).2.writer.log = []) := by
  have hflush : ∀ m : Nat, tlog_sink_io_flush (demo_env 4)
      (demo_sink (List.replicate 2147483648 'a') m (demo_io 0 0) []) =
      (TLOG_RC_OK, demo_sink (List.replicate 2147483648 'a') m (demo_io 0 0) []) :=
    fun m => io_flush_empty _ _ rfl
  have hlen : ∀ m : Nat, (window_record (tlog_sink_io_flush (demo_env 4)
      (demo_sink (List.replicate 2147483648 'a') m (demo_io 0 0) [])).2
      { tv_sec := 12, tv_nsec := 5000000 } 80 24).length = 2147483648 + 93 := by
    intro m
    rw [hflush m, demo_window_record_length _ _ (replicate_a_plain _), List.length_replicate]
  have hover : ∀ m : Nat, INT_MAX < (window_record (tlog_sink_io_flush (demo_env 4)
      (demo_sink (List.replicate 2147483648 'a') m (demo_io 0 0) [])).2
      { tv_sec := 12, tv_nsec := 5000000 } 80 24).length := by
    intro m
    rw [hlen m]
    decide
  refine ⟨⟨?_, ?_, ?_, ?_⟩, ?_, ?_⟩
  · rw [hlen 1024]
    decide
  · rw [window_write_overlong _ _ _ _ _ (hover 1024)]
  · rw [window_write_overlong _ _ _ _ _ (hover 1024)]
  · rw [window_write_overlong _ _ _ _ _ (hover 1024)]
    decide
  · rw [hlen 4294967296]
    decide
  · rw [window_write_overlong _ _ _ _ _ (hover 4294967296), hflush 4294967296]
    rfl

theorem demo_env_empty_is_empty (cap : Nat) (io : tlog_io (Nat × Nat)) :
    (demo_env cap).io_is_empty ((demo_env cap).io_empty io) = true := by
  simp [demo_env]

/-- C6: when `tlog_sink_io_flush` returns `TLOG_RC_FAILURE`, the accumulator has not been
emptied: it is the accumulator as `tlog_io_flush` finalized it (the very regions that were
formatted), it still reports non-empty, the message id is unchanged, and a later
`tlog_sink_io_flush` formats the same record from it, which it hands to the writer whole
when it fits. The accumulator's own part in this are the two hypotheses: `tlog_io_flush`
does not make a non-empty accumulator empty, and finalizing twice is finalizing once. -/
theorem io_flush_failure_keeps_data {ρ ω : Type} (env : tlog_env ρ ω)
    (sink : tlog_sink ρ ω)
    (hkeep : ∀ io, env.io_is_empty io = false → env.io_is_empty (env.io_flush io) = false)
    (hidem : ∀ io, env.io_flush (env.io_flush io) = env.io_flush io)
    (hfail : (tlog_sink_io_flush env sink).1 = TLOG_RC_FAILURE) :
    (tlog_sink_io_flush env sink).2.io = env.io_flush sink.io ∧
    env.io_is_empty (tlog_sink_io_flush env sink).2.io = false ∧
    (tlog_sink_io_flush env sink).2.message_id = sink.message_id ∧
    io_flush_record env (tlog_sink_io_flush env sink).2 = io_flush_record env sink ∧
    ((io_flush_record env sink).length ≤ INT_MAX →
      (io_flush_record env sink).length < sink.message_len →
      (tlog_sink_io_flush env (tlog_sink_io_flush env sink).2).2.writer.log =
        (tlog_sink_io_flush env sink).2.writer.log ++
          [(io_flush_record env sink,
            (tlog_sink_io_flush env (tlog_sink_io_flush env sink).2).1)]) := by
  have key : (tlog_sink_io_flush env sink).2.io = env.io_flush sink.io ∧
      env.io_is_empty sink.io = false ∧
      (tlog_sink_io_flush env sink).2.message_id = sink.message_id := by
    revert hfail
    apply io_flush_elim env sink (fun r => r.1 = TLOG_RC_FAILURE →
      r.2.io = env.io_flush sink.io ∧ env.io_is_empty sink.io = false ∧
      r.2.message_id = sink.message_id)
    · intro _ h; simp at h
    · intro he _ _; simp [he]
    · intro he _ _ _; simp [he]
    · intro he _ _ _ _; simp [he]
    · intro _ _ _ _ h; simp at h
  obtain ⟨hio, hne, hid⟩ := key
  have hf := io_flush_frame env sink
  have hne2 : env.io_is_empty (tlog_sink_io_flush env sink).2.io = false := by
    rw [hio]; exact hkeep _ hne
  have hrec : io_flush_record env (tlog_sink_io_flush env sink).2
      = io_flush_record env sink := by
    simp only [io_flush_record, hio, hid, hidem, hf.1, hf.2.1, hf.2.2.1, hf.2.2.2.1]
  refine ⟨hio, hne2, hid, hrec, fun hl hr => ?_⟩
  have h5 := io_flush_fits_log env (tlog_sink_io_flush env sink).2 hne2
    (by rw [hrec]; exact hl) (by rw [hrec, hf.2.2.2.2]; exact hr)
  rw [hrec] at h5
  exact h5

theorem demo_env_flush_keeps (cap : Nat) (io : tlog_io (Nat × Nat))
    (h : (demo_env cap).io_is_empty io = false) :
    (demo_env cap).io_is_empty ((demo_env cap).io_flush io) = false := by
  simpa [demo_env] using h

theorem demo_env_flush_twice (cap : Nat) (io : tlog_io (Nat × Nat)) :
    (demo_env cap).io_flush ((demo_env cap).io_flush io) = (demo_env cap).io_flush io := by
  simp [demo_env]

set_option maxRecDepth 4000 in
/-- The statement of `io_flush_failure_keeps_data` on the small accumulator holding three
bytes, with a writer that refuses the first record and accepts the second. -/
theorem io_flush_failure_keeps_data_witness :
    (tlog_sink_io_flush (demo_env 4)
      (demo_sink ['h'] 1024 (demo_io 2 1) [TLOG_RC_FAILURE])).1 = TLOG_RC_FAILURE ∧
    ((tlog_sink_io_flush (demo_env 4)
        (demo_sink ['h'] 1024 (demo_io 2 1) [TLOG_RC_FAILURE])).2.io =
        (demo_env 4).io_flush (demo_sink ['h'] 1024 (demo_io 2 1) [TLOG_RC_FAILURE]).io ∧
      (demo_env 4).io_is_empty (tlog_sink_io_flush (demo_env 4)
        (demo_sink ['h'] 1024 (demo_io 2 1) [TLOG_RC_FAILURE])).2.io = false ∧
      (tlog_sink_io_flush (demo_env 4)
        (demo_sink ['h'] 1024 (demo_io 2 1) [TLOG_RC_FAILURE])).2.message_id =
        (demo_sink ['h'] 1024 (demo_io 2 1) [TLOG_RC_FAILURE]).message_id ∧
      io_flush_record (demo_env 4) (tlog_sink_io_flush (demo_env 4)
        (demo_sink ['h'] 1024 (demo_io 2 1) [TLOG_RC_FAILURE])).2 =
        io_flush_record (demo_env 4)
          (demo_sink ['h'] 1024 (demo_io 2 1) [TLOG_RC_FAILURE]) ∧
      ((io_flush_record (demo_env 4)
          (demo_sink ['h'] 1024 (demo_io 2 1) [TLOG_RC_FAILURE])).length ≤ INT_MAX →
        (io_flush_record (demo_env 4)
          (demo_sink ['h'] 1024 (demo_io 2 1) [TLOG_RC_FAILURE])).length <
          (demo_sink ['h'] 1024 (demo_io 2 1) [TLOG_RC_FAILURE]).message_len →
        (tlog_sink_io_flush (demo_env 4) (tlog_sink_io_flush (demo_env 4)
          (demo_sink ['h'] 1024 (demo_io 2 1) [TLOG_RC_FAILURE])).2).2.writer.log =
          (tlog_sink_io_flush (demo_env 4)
            (demo_sink ['h'] 1024 (demo_io 2 1) [TLOG_RC_FAILURE])).2.writer.log ++
            [(io_flush_record (demo_env 4)
                (demo_sink ['h'] 1024 (demo_io 2 1) [TLOG_RC_FAILURE]),
              (tlog_sink_io_flush (demo_env 4) (tlog_sink_io_flush (demo_env 4)
                (demo_sink ['h'] 1024 (demo_io 2 1) [TLOG_RC_FAILURE])).2).1)])) :=
  ⟨by decide,
   io_flush_failure_keeps_data (demo_env 4)
     (demo_sink ['h'] 1024 (demo_io 2 1) [TLOG_RC_FAILURE])
     (demo_env_flush_keeps 4) (demo_env_flush_twice 4) (by decide)⟩

/-! ## The loop of `tlog_sink_io_write` -/

/-- One iteration that takes the last bytes. -/
theorem io_write_step_done {ρ ω : Type} (env : tlog_env ρ ω) (fuel : Nat)
    (sink : tlog_sink ρ ω) (timestamp : timespec) (output : Bool) (buf : List UInt8)
    (hz : (buf.drop (env.io_write sink.io timestamp output buf).2).length = 0) :
    tlog_sink_io_write env (fuel + 1) sink timestamp output buf =
      { rc := some TLOG_RC_OK
        sink := { sink with io := (env.io_write sink.io timestamp output buf).1 }
        rest := buf.drop (env.io_write sink.io timestamp output buf).2
        taken := [buf.take (env.io_write sink.io timestamp output buf).2]
        flushes := [] } := by
  simp only [tlog_sink_io_write, hz, if_true]

/-- One iteration that leaves bytes, followed by a flush that fails. -/
theorem io_write_step_failed {ρ ω : Type} (env : tlog_env ρ ω) (fuel : Nat)
    (sink : tlog_sink ρ ω) (timestamp : timespec) (output : Bool) (buf : List UInt8)
    (hz : (buf.drop (env.io_write sink.io timestamp output buf).2).length ≠ 0)
    (hf : (tlog_sink_io_flush env
      { sink with io := (env.io_write sink.io timestamp output buf).1 }).1 ≠ TLOG_RC_OK) :
    tlog_sink_io_write env (fuel + 1) sink timestamp output buf =
      { rc := some TLOG_RC_FAILURE
        sink := (tlog_sink_io_flush env
          { sink with io := (env.io_write sink.io timestamp output buf).1 }).2
        rest := buf.drop (env.io_write sink.io timestamp output buf).2
        taken := [buf.take (env.io_write sink.io timestamp output buf).2]
        flushes := [TLOG_RC_FAILURE] } := by
  have hfail := (rc_ne_ok _).mp hf
  simp only [tlog_sink_io_write, hz, if_false, hfail, ne_eq, reduceCtorEq, not_false_eq_true,
    if_true]

/-- One iteration that leaves bytes, followed by a flush that succeeds: the loop goes on
with the bytes left. -/
theorem io_write_step_more {ρ ω : Type} (env : tlog_env ρ ω) (fuel : Nat)
    (sink : tlog_sink ρ ω) (timestamp : timespec) (output : Bool) (buf : List UInt8)
    (hz : (buf.drop (env.io_write sink.io timestamp output buf).2).length ≠ 0)
    (hf : (tlog_sink_io_flush env
      { sink with io := (env.io_write sink.io timestamp output buf).1 }).1 = TLOG_RC_OK) :
    tlog_sink_io_write env (fuel + 1) sink timestamp output buf =
      { tlog_sink_io_write env fuel
          (tlog_sink_io_flush env
            { sink with io := (env.io_write sink.io timestamp output buf).1 }).2
          timestamp output (buf.drop (env.io_write sink.io timestamp output buf).2) with
        taken := buf.take (env.io_write sink.io timestamp output buf).2 ::
          (tlog_sink_io_write env fuel
            (tlog_sink_io_flush env
              { sink with io := (env.io_write sink.io timestamp output buf).1 }).2
            timestamp output (buf.drop (env.io_write sink.io timestamp output buf).2)).taken
        flushes := TLOG_RC_OK ::
          (tlog_sink_io_write env fuel
            (tlog_sink_io_flush env
              { sink with io := (env.io_write sink.io timestamp output buf).1 }).2
            timestamp output
            (buf.drop (env.io_write sink.io timestamp output buf).2)).flushes } := by
  simp only [tlog_sink_io_write, hz, if_false, hf, ne_eq, not_true_eq_false]

/-- The loop ends within `fuel` iterations when either the accumulator is empty at entry
and `fuel` is at least the number of bytes (and at least 1), or `fuel` exceeds the number of
bytes; and the account of the run is as stated. -/
theorem io_write_run_account {ρ ω : Type} (env : tlog_env ρ ω)
    (timestamp : timespec) (output : Bool)
    (hwrite : ∀ io t o b, env.io_is_empty io = true → b ≠ [] →
      1 ≤ (env.io_write io t o b).2)
    (hempty : ∀ io, env.io_is_empty (env.io_empty io) = true) :
    ∀ (fuel : Nat) (sink : tlog_sink ρ ω) (buf : List UInt8),
      ((env.io_is_empty sink.io = true ∧ buf.length ≤ fuel ∧ 1 ≤ fuel) ∨
        buf.length + 1 ≤ fuel) →
      ((tlog_sink_io_write env fuel sink timestamp output buf).rc = some TLOG_RC_OK ∨
        (tlog_sink_io_write env fuel sink timestamp output buf).rc
          = some TLOG_RC_FAILURE) ∧
      1 ≤ (tlog_sink_io_write env fuel sink timestamp output buf).taken.length ∧
      (tlog_sink_io_write env fuel sink timestamp output buf).taken.flatten ++
        (tlog_sink_io_write env fuel sink timestamp output buf).rest = buf ∧
      ((tlog_sink_io_write env fuel sink timestamp output buf).rc = some TLOG_RC_OK →
        (tlog_sink_io_write env fuel sink timestamp output buf).rest = [] ∧
        (tlog_sink_io_write env fuel sink timestamp output buf).flushes =
          List.replicate
            ((tlog_sink_io_write env fuel sink timestamp output buf).taken.length - 1)
            TLOG_RC_OK) ∧
      ((tlog_sink_io_write env fuel sink timestamp output buf).rc
          = some TLOG_RC_FAILURE →
        (tlog_sink_io_write env fuel sink timestamp output buf).rest ≠ [] ∧
        (tlog_sink_io_write env fuel sink timestamp output buf).flushes =
          List.replicate
            ((tlog_sink_io_write env fuel sink timestamp output buf).taken.length - 1)
            TLOG_RC_OK ++ [TLOG_RC_FAILURE]) := by
  intro fuel
  induction fuel with
  | zero =>
    intro sink buf h
    rcases h with ⟨_, _, h⟩ | h <;> omega
  | succ fuel ih =>
    intro sink buf h
    have hrest : (buf.drop (env.io_write sink.io timestamp output buf).2).length ≤ fuel := by
      rcases h with ⟨he, hb, _⟩ | h
      · by_cases hnil : buf = []
        · subst hnil; simp
        · have := hwrite sink.io timestamp output buf he hnil
          have hpos : 0 < buf.length := List.length_pos.mpr hnil
          simp only [List.length_drop]; omega
      · simp only [List.length_drop]; omega
    by_cases hz : (buf.drop (env.io_write sink.io timestamp output buf).2).length = 0
    · have hnil : buf.drop (env.io_write sink.io timestamp output buf).2 = [] :=
        List.length_eq_zero.mp hz
      rw [io_write_step_done env fuel sink timestamp output buf hz]
      refine ⟨Or.inl rfl, by simp, ?_, fun _ => ⟨hnil, by simp⟩, fun h => by simp at h⟩
      simp [List.take_append_drop]
    · by_cases hf : (tlog_sink_io_flush env
          { sink with io := (env.io_write sink.io timestamp output buf).1 }).1 = TLOG_RC_OK
      · have hemp := io_flush_ok_is_empty env _ hempty hf
        have hpos : 1 ≤ fuel := by omega
        obtain ⟨h1, h2, h3, h4, h5⟩ := ih (tlog_sink_io_flush env
          { sink with io := (env.io_write sink.io timestamp output buf).1 }).2
          (buf.drop (env.io_write sink.io timestamp output buf).2)
          (Or.inl ⟨hemp, hrest, hpos⟩)
        rw [io_write_step_more env fuel sink timestamp output buf hz hf]
        obtain ⟨k, hk⟩ := Nat.exists_eq_add_of_le' h2
        refine ⟨h1, by simp, ?_, fun hok => ⟨(h4 hok).1, ?_⟩, fun hfl => ⟨(h5 hfl).1, ?_⟩⟩
        · simp only [List.flatten_cons, List.append_assoc, h3, List.take_append_drop]
        · have e := (h4 hok).2
          rw [hk] at e
          simp only [Nat.add_sub_cancel] at e
          simp only [List.length_cons, Nat.add_sub_cancel, e, hk, List.replicate_succ]
        · have e := (h5 hfl).2
          rw [hk] at e
          simp only [Nat.add_sub_cancel] at e
          simp only [List.length_cons, Nat.add_sub_cancel, e, hk, List.replicate_succ,
            List.cons_append]
      · have hne : buf.drop (env.io_write sink.io timestamp output buf).2 ≠ [] := by
          intro hc; rw [hc] at hz; simp at hz
        rw [io_write_step_failed env fuel sink timestamp output buf hz hf]
        refine ⟨Or.inr rfl, by simp, ?_, fun h => by simp at h, fun _ => ⟨hne, by simp⟩⟩
        simp [List.take_append_drop]

/-- What a run of the loop, however far it is followed, records and returns is what the
calls of `tlog_io_write` and `tlog_sink_io_flush` did, iteration by iteration. -/
theorem io_write_run_calls {ρ ω : Type} (env : tlog_env ρ ω)
    (timestamp : timespec) (output : Bool) :
    ∀ (fuel : Nat) (sink : tlog_sink ρ ω) (buf : List UInt8),
      (∀ i, i < (tlog_sink_io_write env fuel sink timestamp output buf).taken.length →
        (tlog_sink_io_write env fuel sink timestamp output buf).taken[i]? =
          some (io_write_took env timestamp output sink buf i)) ∧
      (∀ i, i < (tlog_sink_io_write env fuel sink timestamp output buf).flushes.length →
        (tlog_sink_io_write env fuel sink timestamp output buf).flushes[i]? =
          some (tlog_sink_io_flush env
            (io_write_written env timestamp output sink buf i)).1 ∧
        io_write_left env timestamp output sink buf i ≠ []) ∧
      ((tlog_sink_io_write env fuel sink timestamp output buf).rc = some TLOG_RC_OK →
        (tlog_sink_io_write env fuel sink timestamp output buf).sink =
          io_write_written env timestamp output sink buf
            (tlog_sink_io_write env fuel sink timestamp output buf).flushes.length ∧
        (tlog_sink_io_write env fuel sink timestamp output buf).rest =
          io_write_left env timestamp output sink buf
            (tlog_sink_io_write env fuel sink timestamp output buf).flushes.length) ∧
      ((tlog_sink_io_write env fuel sink timestamp output buf).rc = some TLOG_RC_FAILURE →
        (tlog_sink_io_write env fuel sink timestamp output buf).sink =
          (io_write_iter env timestamp output
            (tlog_sink_io_write env fuel sink timestamp output buf).flushes.length
            sink buf).1 ∧
        (tlog_sink_io_write env fuel sink timestamp output buf).rest =
          (io_write_iter env timestamp output
            (tlog_sink_io_write env fuel sink timestamp output buf).flushes.length
            sink buf).2) := by
  intro fuel
  induction fuel with
  | zero =>
    intro sink buf
    simp [tlog_sink_io_write]
  | succ fuel ih =>
    intro sink buf
    by_cases hz : (buf.drop (env.io_write sink.io timestamp output buf).2).length = 0
    · rw [io_write_step_done env fuel sink timestamp output buf hz]
      refine ⟨?_, ?_, ?_, ?_⟩
      · intro i hi
        have : i = 0 := by simpa using hi
        subst this
        rfl
      · intro i hi
        simp at hi
      · intro _
        exact ⟨rfl, rfl⟩
      · intro h
        simp at h
    · have hne : buf.drop (env.io_write sink.io timestamp output buf).2 ≠ [] := by
        intro hc; rw [hc] at hz; simp at hz
      by_cases hf : (tlog_sink_io_flush env
          { sink with io := (env.io_write sink.io timestamp output buf).1 }).1 = TLOG_RC_OK
      · obtain ⟨t1, t2, t3, t4⟩ := ih (tlog_sink_io_flush env
          { sink with io := (env.io_write sink.io timestamp output buf).1 }).2
          (buf.drop (env.io_write sink.io timestamp output buf).2)
        rw [io_write_step_more env fuel sink timestamp output buf hz hf]
        simp only []
        refine ⟨?_, ?_, ?_, ?_⟩
        · intro i hi
          cases i with
          | zero =>
            simp only [List.getElem?_cons_zero]
            rfl
          | succ j =>
            simp only [List.length_cons, Nat.add_lt_add_iff_right] at hi
            simp only [List.getElem?_cons_succ]
            exact t1 j hi
        · intro i hi
          cases i with
          | zero =>
            refine ⟨?_, hne⟩
            simp only [List.getElem?_cons_zero, Option.some.injEq]
            exact hf.symm
          | succ j =>
            simp only [List.length_cons, Nat.add_lt_add_iff_right] at hi
            simp only [List.getElem?_cons_succ]
            exact t2 j hi
        · intro hok
          exact t3 hok
        · intro hfl
          exact t4 hfl
      · rw [io_write_step_failed env fuel sink timestamp output buf hz hf]
        refine ⟨?_, ?_, ?_, ?_⟩
        · intro i hi
          have : i = 0 := by simpa using hi
          subst this
          rfl
        · intro i hi
          have : i = 0 := by simpa using hi
          subst this
          refine ⟨?_, hne⟩
          simp only [List.getElem?_cons_zero, Option.some.injEq]
          exact ((rc_ne_ok _).mp hf).symm
        · intro h
          simp at h
        · intro _
          exact ⟨rfl, rfl⟩

/-- C7: `tlog_sink_io_write` terminates, whatever the buffer and the writer: with at least
`buf.length + 1` iterations allowed the loop has returned a code. The writes take the bytes
of the buffer in order (`taken`, then `rest`, make up `buf`). Each write that leaves bytes is
followed by one flush: when the call returns `TLOG_RC_OK` nothing is left, every write but
the last was followed by a flush and all of these succeeded; when it returns
`TLOG_RC_FAILURE` bytes are left, every write was followed by a flush and the last of these
failed; so the call fails exactly when one of its flushes fails.
What the run records is what was done to the sink. Entry `i` of `taken` is what
`tlog_io_write` took from the bytes left, on the accumulator that `i` iterations (write,
then flush) had left; entry `i` of `flushes` is the code of `tlog_sink_io_flush` called on
the sink that write had left, and that write had left bytes. On `TLOG_RC_OK` the sink
returned is the sink after the last write (its accumulator holds what that write put
there, its writer has received the records of all the flushes); on `TLOG_RC_FAILURE` it is
the sink as the failed flush left it.
The accumulator's part are the hypotheses: a write into an empty accumulator takes at least
one byte of a non-empty buffer, and `tlog_io_is_empty` holds after `tlog_io_empty`. -/
theorem io_write_terminates {ρ ω : Type} (env : tlog_env ρ ω) (sink : tlog_sink ρ ω)
    (timestamp : timespec) (output : Bool) (buf : List UInt8) (fuel : Nat)
    (hwrite : ∀ io t o b, env.io_is_empty io = true → b ≠ [] →
      1 ≤ (env.io_write io t o b).2)
    (hempty : ∀ io, env.io_is_empty (env.io_empty io) = true)
    (hfuel : buf.length + 1 ≤ fuel) :
    ((tlog_sink_io_write env fuel sink timestamp output buf).rc = some TLOG_RC_OK ∨
      (tlog_sink_io_write env fuel sink timestamp output buf).rc = some TLOG_RC_FAILURE) ∧
    1 ≤ (tlog_sink_io_write env fuel sink timestamp output buf).taken.length ∧
    (tlog_sink_io_write env fuel sink timestamp output buf).taken.flatten ++
      (tlog_sink_io_write env fuel sink timestamp output buf).rest = buf ∧
    ((tlog_sink_io_write env fuel sink timestamp output buf).rc = some TLOG_RC_OK →
      (tlog_sink_io_write env fuel sink timestamp output buf).rest = [] ∧
      (tlog_sink_io_write env fuel sink timestamp output buf).taken.flatten = buf ∧
      (tlog_sink_io_write env fuel sink timestamp output buf).flushes =
        List.replicate
          ((tlog_sink_io_write env fuel sink timestamp output buf).taken.length - 1)
          TLOG_RC_OK) ∧
    ((tlog_sink_io_write env fuel sink timestamp output buf).rc = some TLOG_RC_FAILURE →
      (tlog_sink_io_write env fuel sink timestamp output buf).rest ≠ [] ∧
      (tlog_sink_io_write env fuel sink timestamp output buf).flushes =
        List.replicate
          ((tlog_sink_io_write env fuel sink timestamp output buf).taken.length - 1)
          TLOG_RC_OK ++ [TLOG_RC_FAILURE]) ∧
    ((tlog_sink_io_write env fuel sink timestamp output buf).rc = some TLOG_RC_FAILURE ↔
      TLOG_RC_FAILURE ∈ (tlog_sink_io_write env fuel sink timestamp output buf).flushes) ∧
    (∀ i, i < (tlog_sink_io_write env fuel sink timestamp output buf).taken.length →
      (tlog_sink_io_write env fuel sink timestamp output buf).taken[i]? =
        some (io_write_took env timestamp output sink buf i)) ∧
    (∀ i, i < (tlog_sink_io_write env fuel sink timestamp output buf).flushes.length →
      (tlog_sink_io_write env fuel sink timestamp output buf).flushes[i]? =
        some (tlog_sink_io_flush env
          (io_write_written env timestamp output sink buf i)).1 ∧
      io_write_left env timestamp output sink buf i ≠ []) ∧
    ((tlog_sink_io_write env fuel sink timestamp output buf).rc = some TLOG_RC_OK →
      (tlog_sink_io_write env fuel sink timestamp output buf).sink =
        io_write_written env timestamp output sink buf
          (tlog_sink_io_write env fuel sink timestamp output buf).flushes.length ∧
      (tlog_sink_io_write env fuel sink timestamp output buf).rest =
        io_write_left env timestamp output sink buf
          (tlog_sink_io_write env fuel sink timestamp output buf).flushes.length) ∧
    ((tlog_sink_io_write env fuel sink timestamp output buf).rc = some TLOG_RC_FAILURE →
      (tlog_sink_io_write env fuel sink timestamp output buf).sink =
        (io_write_iter env timestamp output
          (tlog_sink_io_write env fuel sink timestamp output buf).flushes.length
          sink buf).1 ∧
      (tlog_sink_io_write env fuel sink timestamp output buf).rest =
        (io_write_iter env timestamp output
          (tlog_sink_io_write env fuel sink timestamp output buf).flushes.length
          sink buf).2) := by
  obtain ⟨h1, h2, h3, h4, h5⟩ :=
    io_write_run_account env timestamp output hwrite hempty fuel sink buf (Or.inr hfuel)
  obtain ⟨t1, t2, t3, t4⟩ := io_write_run_calls env timestamp output fuel sink buf
  refine ⟨h1, h2, h3, fun hok => ⟨(h4 hok).1, ?_, (h4 hok).2⟩, h5,
    ⟨fun hfl => ?_, fun hm => ?_⟩, t1, t2, t3, t4⟩
  · have e := h3
    rw [(h4 hok).1, List.append_nil] at e
    exact e
  · rw [(h5 hfl).2]; simp
  · rcases h1 with hok | hfl
    · rw [(h4 hok).2] at hm
      simp [List.mem_replicate] at hm
    · exact hfl

theorem demo_env_write_takes (cap : Nat) (hcap : 1 ≤ cap) (io : tlog_io (Nat × Nat))
    (t : timespec) (o : Bool) (b : List UInt8)
    (he : (demo_env cap).io_is_empty io = true) (hb : b ≠ []) :
    1 ≤ ((demo_env cap).io_write io t o b).2 := by
  have hpos : 0 < b.length := List.length_pos.mpr hb
  simp only [demo_env, beq_iff_eq] at he
  simp only [demo_env, he]
  omega

set_option maxRecDepth 8000 in
/-- The statement of `io_write_terminates` on the accumulator of capacity 2 that holds one
byte, given five bytes: three writes take 1, 2 and 2 bytes, with a flush after the first
and after the second; in the sink returned the writer has received the two records of
those flushes and the accumulator holds the two bytes of the last write. -/
theorem io_write_terminates_witness :
    (tlog_sink_io_write (demo_env 2) 6 (demo_sink ['h'] 1024 (demo_io 1 0) [])
      { tv_sec := 12, tv_nsec := 0 } true [1, 2, 3, 4, 5]).sink.writer.log.length = 2 ∧
    (tlog_sink_io_write (demo_env 2) 6 (demo_sink ['h'] 1024 (demo_io 1 0) [])
      { tv_sec := 12, tv_nsec := 0 } true [1, 2, 3, 4, 5]).sink.io.priv = (0, 2) ∧
    ((tlog_sink_io_write (demo_env 2) 6 (demo_sink ['h'] 1024 (demo_io 1 0) [])
        { tv_sec := 12, tv_nsec := 0 } true [1, 2, 3, 4, 5]).rc = some TLOG_RC_OK →
      (tlog_sink_io_write (demo_env 2) 6 (demo_sink ['h'] 1024 (demo_io 1 0) [])
        { tv_sec := 12, tv_nsec := 0 } true [1, 2, 3, 4, 5]).sink =
        io_write_written (demo_env 2) { tv_sec := 12, tv_nsec := 0 } true
          (demo_sink ['h'] 1024 (demo_io 1 0) []) [1, 2, 3, 4, 5]
          (tlog_sink_io_write (demo_env 2) 6 (demo_sink ['h'] 1024 (demo_io 1 0) [])
            { tv_sec := 12, tv_nsec := 0 } true [1, 2, 3, 4, 5]).flushes.length ∧
      (tlog_sink_io_write (demo_env 2) 6 (demo_sink ['h'] 1024 (demo_io 1 0) [])
        { tv_sec := 12, tv_nsec := 0 } true [1, 2, 3, 4, 5]).rest =
        io_write_left (demo_env 2) { tv_sec := 12, tv_nsec := 0 } true
          (demo_sink ['h'] 1024 (demo_io 1 0) []) [1, 2, 3, 4, 5]
          (tlog_sink_io_write (demo_env 2) 6 (demo_sink ['h'] 1024 (demo_io 1 0) [])
            { tv_sec := 12, tv_nsec := 0 } true [1, 2, 3, 4, 5]).flushes.length) ∧
    (tlog_sink_io_write (demo_env 2) 6 (demo_sink ['h'] 1024 (demo_io 1 0) [])
      { tv_sec := 12, tv_nsec := 0 } true [1, 2, 3, 4, 5]).taken
        = [[1], [2, 3], [4, 5]] ∧
    (tlog_sink_io_write (demo_env 2) 6 (demo_sink ['h'] 1024 (demo_io 1 0) [])
      { tv_sec := 12, tv_nsec := 0 } true [1, 2, 3, 4, 5]).rc = some TLOG_RC_OK ∧
    ((tlog_sink_io_write (demo_env 2) 6 (demo_sink ['h'] 1024 (demo_io 1 0) [])
        { tv_sec := 12, tv_nsec := 0 } true [1, 2, 3, 4, 5]).rc = some TLOG_RC_OK →
      (tlog_sink_io_write (demo_env 2) 6 (demo_sink ['h'] 1024 (demo_io 1 0) [])
        { tv_sec := 12, tv_nsec := 0 } true [1, 2, 3, 4, 5]).rest = [] ∧
      (tlog_sink_io_write (demo_env 2) 6 (demo_sink ['h'] 1024 (demo_io 1 0) [])
        { tv_sec := 12, tv_nsec := 0 } true [1, 2, 3, 4, 5]).taken.flatten
          = [1, 2, 3, 4, 5] ∧
      (tlog_sink_io_write (demo_env 2) 6 (demo_sink ['h'] 1024 (demo_io 1 0) [])
        { tv_sec := 12, tv_nsec := 0 } true [1, 2, 3, 4, 5]).flushes =
        List.replicate
          ((tlog_sink_io_write (demo_env 2) 6 (demo_sink ['h'] 1024 (demo_io 1 0) [])
            { tv_sec := 12, tv_nsec := 0 } true [1, 2, 3, 4, 5]).taken.length - 1)
          TLOG_RC_OK) :=
  ⟨by decide, by decide,
   (io_write_terminates (demo_env 2) (demo_sink ['h'] 1024 (demo_io 1 0) [])
      { tv_sec := 12, tv_nsec := 0 } true [1, 2, 3, 4, 5] 6
      (demo_env_write_takes 2 (by decide)) (demo_env_empty_is_empty 2)
      (by decide)).2.2.2.2.2.2.2.2.1,
   by decide, by decide,
   (io_write_terminates (demo_env 2) (demo_sink ['h'] 1024 (demo_io 1 0) [])
      { tv_sec := 12, tv_nsec := 0 } true [1, 2, 3, 4, 5] 6
      (demo_env_write_takes 2 (by decide)) (demo_env_empty_is_empty 2)
      (by decide)).2.2.2.1⟩

/-! ## Decimal digits and the `pos` field -/

/-- The digits come out in front of the accumulator. -/
theorem toDigitsCore_acc (fuel : Nat) : ∀ (n : Nat) (acc : List Char),
    Nat.toDigitsCore 10 fuel n acc = Nat.toDigitsCore 10 fuel n [] ++ acc := by
  induction fuel with
  | zero => intro n acc; simp [Nat.toDigitsCore]
  | succ fuel ih =>
    intro n acc
    simp only [Nat.toDigitsCore]
    by_cases h : n / 10 = 0
    · simp [h]
    · simp only [h, if_false]
      rw [ih (n / 10) (Nat.digitChar (n % 10) :: acc), ih (n / 10) [Nat.digitChar (n % 10)]]
      simp

/-- Any fuel above the number gives the same digits. -/
theorem toDigitsCore_fuel (fuel1 : Nat) : ∀ (fuel2 n : Nat), n < fuel1 → n < fuel2 →
    Nat.toDigitsCore 10 fuel1 n [] = Nat.toDigitsCore 10 fuel2 n [] := by
  induction fuel1 with
  | zero => intro fuel2 n h; omega
  | succ fuel1 ih =>
    intro fuel2 n h1 h2
    cases fuel2 with
    | zero => omega
    | succ fuel2 =>
      simp only [Nat.toDigitsCore]
      by_cases h : n / 10 = 0
      · simp [h]
      · simp only [h, if_false]
        rw [toDigitsCore_acc fuel1, toDigitsCore_acc fuel2]
        have hlt : n / 10 < n := Nat.div_lt_self (by omega) (by decide)
        rw [ih fuel2 (n / 10) (by omega) (by omega)]

/-- A number below ten has one digit. -/
theorem fmt_dec_lt (n : Nat) (h : n < 10) : fmt_dec n = [Nat.digitChar n] := by
  have h0 : n / 10 = 0 := Nat.div_eq_of_lt h
  simp [fmt_dec, Nat.toDigits, Nat.toDigitsCore, h0, Nat.mod_eq_of_lt h]

/-- The digits of a number from ten on: those of its tenth, then its last digit. -/
theorem fmt_dec_ge (n : Nat) (h : 10 ≤ n) :
    fmt_dec n = fmt_dec (n / 10) ++ [Nat.digitChar (n % 10)] := by
  have h0 : n / 10 ≠ 0 := by omega
  have hlt : n / 10 < n := Nat.div_lt_self (by omega) (by decide)
  have e : fmt_dec n = Nat.toDigitsCore 10 n (n / 10) [Nat.digitChar (n % 10)] := by
    simp only [fmt_dec, Nat.toDigits, Nat.toDigitsCore, h0, if_false]
  rw [e, toDigitsCore_acc, toDigitsCore_fuel n (n / 10 + 1) (n / 10) hlt (by omega)]
  rfl

/-- The conversion `%03ld` of a value below 1000: its three digits. -/
theorem fmt_03ld_small (ms : Nat) (h : ms < 1000) :
    fmt_03ld (ms : Int) =
      [Nat.digitChar (ms / 100), Nat.digitChar (ms / 10 % 10), Nat.digitChar (ms % 10)] := by
  have hneg : ¬ ((ms : Int) < 0) := by omega
  simp only [fmt_03ld, hneg, if_false, Int.natAbs_ofNat]
  by_cases h1 : ms < 10
  · have a : ms / 100 = 0 := by omega
    have b : ms / 10 % 10 = 0 := by omega
    have c : ms % 10 = ms := by omega
    rw [fmt_dec_lt ms h1, a, b, c]; rfl
  · by_cases h2 : ms < 100
    · have a : ms / 100 = 0 := by omega
      have b : ms / 10 % 10 = ms / 10 := by omega
      rw [fmt_dec_ge ms (by omega), fmt_dec_lt (ms / 10) (by omega), a, b]; rfl
    · have a : ms / 10 / 10 = ms / 100 := by omega
      rw [fmt_dec_ge ms (by omega), fmt_dec_ge (ms / 10) (by omega),
        fmt_dec_lt (ms / 10 / 10) (by omega), a]; rfl

/-- C8: the `pos` field of both records. For an elapsed time `pos` with `tv_sec ≥ 0` and
`0 ≤ tv_nsec < 10^9`, the two conversions `%ld.%03ld` give the decimal digits of `tv_sec`,
a dot, and exactly three digits, those of `ms = tv_nsec / 1000000` rounded down (a value
below 1000, with its leading zeros); and this is the text that follows `"pos":` in the
window record and in the io record. -/
theorem pos_field_rendering {ρ : Type} (hostname username : List Char)
    (session_id message_id width height : Nat) (io : tlog_io ρ) (pos : timespec)
    (hsec : 0 ≤ pos.tv_sec) (h0 : 0 ≤ pos.tv_nsec) (h1 : pos.tv_nsec < 1000000000) :
    pos.tv_nsec.toNat / 1000000 < 1000 ∧
    fmt_pos pos =
      Nat.toDigits 10 pos.tv_sec.toNat ++
        ['.', Nat.digitChar (pos.tv_nsec.toNat / 1000000 / 100),
          Nat.digitChar (pos.tv_nsec.toNat / 1000000 / 10 % 10),
          Nat.digitChar (pos.tv_nsec.toNat / 1000000 % 10)] ∧
    window_fmt hostname username session_id message_id pos width height =
      "\x7b\"type\":\"window\",\"host\":\"".toList ++ fmt_s hostname ++
      "\",\"user\":\"".toList ++ fmt_s username ++
      "\",\"session\":".toList ++ fmt_u session_id ++
      ",\"id\":".toList ++ fmt_zu message_id ++
      ",\"pos\":".toList ++
        (Nat.toDigits 10 pos.tv_sec.toNat ++
          ['.', Nat.digitChar (pos.tv_nsec.toNat / 1000000 / 100),
            Nat.digitChar (pos.tv_nsec.toNat / 1000000 / 10 % 10),
            Nat.digitChar (pos.tv_nsec.toNat / 1000000 % 10)]) ++
      ",\"width\":".toList ++ fmt_hu width ++
      ",\"height\":".toList ++ fmt_hu height ++
      "\x7d\n".toList ∧
    io_fmt hostname username session_id message_id pos io =
      "\x7b\"type\":\"io\",\"host\":\"".toList ++ fmt_s hostname ++
      "\",\"user\":\"".toList ++ fmt_s username ++
      "\",\"session\":".toList ++ fmt_u session_id ++
      ",\"id\":".toList ++ fmt_zu message_id ++
      ",\"pos\":".toList ++
        (Nat.toDigits 10 pos.tv_sec.toNat ++
          ['.', Nat.digitChar (pos.tv_nsec.toNat / 1000000 / 100),
            Nat.digitChar (pos.tv_nsec.toNat / 1000000 / 10 % 10),
            Nat.digitChar (pos.tv_nsec.toNat / 1000000 % 10)]) ++
      ",\"timing\":\"".toList ++ fmt_s_prec io.timing_ptr io.timing_buf ++
      "\",\"in_txt\":\"".toList ++ fmt_s_prec io.input.txt_len io.input.txt_buf ++
      "\",\"in_bin\":[".toList ++ fmt_s_prec io.input.bin_len io.input.bin_buf ++
      "],\"out_txt\":\"".toList ++ fmt_s_prec io.output.txt_len io.output.txt_buf ++
      "\",\"out_bin\":[".toList ++ fmt_s_prec io.output.bin_len io.output.bin_buf ++
      "]\x7d\n".toList := by
  have hms : pos.tv_nsec.toNat / 1000000 < 1000 := by omega
  have hdiv : pos.tv_nsec.tdiv 1000000 = ((pos.tv_nsec.toNat / 1000000 : Nat) : Int) := by
    rw [Int.tdiv_eq_ediv h0 (by decide)]
    omega
  have hnn : ¬ (pos.tv_sec < 0) := by omega
  have hpos : fmt_pos pos =
      Nat.toDigits 10 pos.tv_sec.toNat ++
        ['.', Nat.digitChar (pos.tv_nsec.toNat / 1000000 / 100),
          Nat.digitChar (pos.tv_nsec.toNat / 1000000 / 10 % 10),
          Nat.digitChar (pos.tv_nsec.toNat / 1000000 % 10)] := by
    have habs : pos.tv_sec.natAbs = pos.tv_sec.toNat := by omega
    simp only [fmt_pos, fmt_ld, hnn, if_false, hdiv, fmt_03ld_small _ hms, habs, fmt_dec]
  refine ⟨hms, hpos, ?_, ?_⟩
  · simp only [window_fmt, hpos]
  · simp only [io_fmt, hpos]

/-- The statement of `pos_field_rendering` at 2 s and 5999999 ns: the field is `2.005`,
the 999999 ns beyond the fifth millisecond are cut off, not rounded up. -/
theorem pos_field_rendering_witness :
    fmt_pos { tv_sec := 2, tv_nsec := 5999999 } = ['2', '.', '0', '0', '5'] ∧
    fmt_pos { tv_sec := 2, tv_nsec := 5999999 } =
      Nat.toDigits 10 (2 : Int).toNat ++
        ['.', Nat.digitChar ((5999999 : Int).toNat / 1000000 / 100),
          Nat.digitChar ((5999999 : Int).toNat / 1000000 / 10 % 10),
          Nat.digitChar ((5999999 : Int).toNat / 1000000 % 10)] :=
  ⟨by decide,
   (pos_field_rendering ['h'] ['u'] 1 0 80 24 (demo_io 0 0)
      { tv_sec := 2, tv_nsec := 5999999 } (by decide) (by decide) (by decide)).2.1⟩

/-! ## The reader: what a read consumes -/

/-- Step 1 takes a prefix of the source and counts its newlines. -/
theorem reader_discard_line_spec : ∀ (src : List Char) (line : Nat),
    ∃ taken, src = taken ++ (reader_discard_line src line).1 ∧
      (reader_discard_line src line).2 = line + taken.count '\n'
  | [], line => ⟨[], by simp [reader_discard_line]⟩
  | c :: cs, line => by
    by_cases h : c = '\n'
    · subst h
      exact ⟨['\n'], by simp [reader_discard_line]⟩
    · obtain ⟨t, h1, h2⟩ := reader_discard_line_spec cs line
      refine ⟨c :: t, ?_, ?_⟩
      · simp only [reader_discard_line, beq_iff_eq, h, if_false, List.cons_append]
        rw [← h1]
      · simp only [reader_discard_line, beq_iff_eq, h, if_false]
        rw [h2, List.count_cons_of_ne (Ne.symm h)]

/-- Step 2 takes a prefix of the source and counts its newlines. -/
theorem reader_skip_space_spec : ∀ (src : List Char) (line : Nat),
    ∃ taken, src = taken ++ (reader_skip_space src line).1 ∧
      (reader_skip_space src line).2 = line + taken.count '\n'
  | [], line => ⟨[], by simp [reader_skip_space]⟩
  | c :: cs, line => by
    by_cases h : c = '\n'
    · subst h
      obtain ⟨t, h1, h2⟩ := reader_skip_space_spec cs (line + 1)
      refine ⟨'\n' :: t, ?_, ?_⟩
      · simp only [reader_skip_space, beq_self_eq_true, if_true, List.cons_append]
        rw [← h1]
      · simp only [reader_skip_space, beq_self_eq_true, if_true]
        rw [h2, List.count_cons_self]; omega
    · by_cases hs : reader_space c = true
      · obtain ⟨t, h1, h2⟩ := reader_skip_space_spec cs line
        refine ⟨c :: t, ?_, ?_⟩
        · simp only [reader_skip_space, beq_iff_eq, h, if_false, hs, if_true,
            List.cons_append]
          rw [← h1]
        · simp only [reader_skip_space, beq_iff_eq, h, if_false, hs, if_true]
          rw [h2, List.count_cons_of_ne (Ne.symm h)]
      · exact ⟨[], by simp [reader_skip_space, h, hs]⟩

/-- The text of a line holds no newline. -/
theorem line_text_count (src : List Char) :
    (src.takeWhile (fun c => c != '\n')).count '\n' = 0 := by
  induction src with
  | nil => simp
  | cons c cs ih =>
    by_cases h : c = '\n'
    · subst h; simp [List.takeWhile]
    · have hb : (c != '\n') = true := by simpa using h
      simp only [List.takeWhile_cons, hb, if_true]
      rw [List.count_cons_of_ne (Ne.symm h)]
      exact ih

/-- What follows the text of a line is nothing, or starts with the newline. -/
theorem line_rest_cases (src : List Char) :
    src.dropWhile (fun c => c != '\n') = [] ∨
    src.dropWhile (fun c => c != '\n') = '\n' :: (src.dropWhile (fun c => c != '\n')).tail := by
  induction src with
  | nil => simp
  | cons c cs ih =>
    by_cases h : c = '\n'
    · subst h; right; simp [List.dropWhile]
    · have hb : (c != '\n') = true := by simpa using h
      simp only [List.dropWhile_cons, hb, if_true]
      exact ih

/-- Steps 1 and 2 take a prefix of the source and count its newlines. -/
theorem reader_seek_spec (r : tlog_fd_reader) :
    ∃ taken, r.src = taken ++ (reader_seek r).1 ∧
      (reader_seek r).2 = r.line + taken.count '\n' := by
  unfold reader_seek
  by_cases hs : r.skip = true
  · obtain ⟨t1, e1, l1⟩ := reader_discard_line_spec r.src r.line
    obtain ⟨t2, e2, l2⟩ := reader_skip_space_spec (reader_discard_line r.src r.line).1
      (reader_discard_line r.src r.line).2
    refine ⟨t1 ++ t2, ?_, ?_⟩
    · simp only [hs, if_true, List.append_assoc, ← e2, ← e1]
    · simp only [hs, if_true, List.count_append]
      rw [l2, l1]; omega
  · obtain ⟨t2, e2, l2⟩ := reader_skip_space_spec r.src r.line
    exact ⟨t2, by simp only [hs]; exact e2, by simp only [hs]; exact l2⟩

/-- One read takes a prefix of the source and adds the number of its newlines to the line
counter. -/
theorem reader_read_spec {κ : Type} (tok : List Char → tok_result κ) (r : tlog_fd_reader) :
    ∃ taken, r.src = taken ++ (tlog_fd_reader_read tok r).2.2.src ∧
      (tlog_fd_reader_read tok r).2.2.line = r.line + taken.count '\n' := by
  obtain ⟨t, e, l⟩ := reader_seek_spec r
  unfold tlog_fd_reader_read
  simp only []
  by_cases hz : (reader_seek r).1.isEmpty = true
  · simp only [hz, if_true]
    exact ⟨t, e, l⟩
  · simp only [hz]
    have hsplit : (reader_seek r).1 =
        (reader_seek r).1.takeWhile (fun c => c != '\n') ++
          (reader_seek r).1.dropWhile (fun c => c != '\n') :=
      (List.takeWhile_append_dropWhile _ _).symm
    have hcount := line_text_count (reader_seek r).1
    have key : ∃ taken, r.src = taken ++
        ((reader_seek r).1.dropWhile (fun c => c != '\n')).tail ∧
        (if (!((reader_seek r).1.dropWhile (fun c => c != '\n')).isEmpty) = true
          then (reader_seek r).2 + 1 else (reader_seek r).2) = r.line + taken.count '\n' := by
      rcases line_rest_cases (reader_seek r).1 with h0 | h1
      · refine ⟨t ++ (reader_seek r).1.takeWhile (fun c => c != '\n'), ?_, ?_⟩
        · rw [h0] at hsplit
          simp only [h0, List.tail_nil, List.append_nil, List.append_assoc]
          rw [List.append_nil] at hsplit
          rw [← hsplit]; exact e
        · simp only [h0, List.isEmpty_nil, Bool.not_true, Bool.false_eq_true, if_false,
            List.count_append, hcount, l]
          omega
      · refine ⟨t ++ (reader_seek r).1.takeWhile (fun c => c != '\n') ++ ['\n'], ?_, ?_⟩
        · have e2 : r.src = t ++ ((reader_seek r).1.takeWhile (fun c => c != '\n') ++
              (reader_seek r).1.dropWhile (fun c => c != '\n')) := by
            rw [← hsplit]; exact e
          rw [h1] at e2
          simp only [List.append_assoc, List.singleton_append]
          exact e2
        · have hne : ((reader_seek r).1.dropWhile (fun c => c != '\n')).isEmpty = false := by
            rw [h1]; rfl
          simp only [hne, Bool.not_false, if_true, List.count_append, hcount, l,
            List.count_singleton_self]
          omega
    cases tok ((reader_seek r).1.takeWhile (fun c => c != '\n')) with
    | value v => exact key
    | incomplete => exact key
    | error code => exact key

/-- The reader after `n + 1` reads is the reader after `n` reads, and one more. -/
theorem reader_after_succ {κ : Type} (tok : List Char → tok_result κ) :
    ∀ (n : Nat) (r : tlog_fd_reader),
      reader_after tok (n + 1) r = (tlog_fd_reader_read tok (reader_after tok n r)).2.2
  | 0, _ => rfl
  | n + 1, r => by
    rw [reader_after, reader_after_succ tok n]
    rfl

/-- After any number of reads, the reader has taken a prefix of the source and has added
the number of its newlines to the line counter. -/
theorem reader_after_spec {κ : Type} (tok : List Char → tok_result κ) :
    ∀ (n : Nat) (r : tlog_fd_reader),
      ∃ taken, r.src = taken ++ (reader_after tok n r).src ∧
        (reader_after tok n r).line = r.line + taken.count '\n'
  | 0, r => ⟨[], by simp [reader_after]⟩
  | n + 1, r => by
    obtain ⟨t1, e1, l1⟩ := reader_read_spec tok r
    obtain ⟨t2, e2, l2⟩ := reader_after_spec tok n (tlog_fd_reader_read tok r).2.2
    refine ⟨t1 ++ t2, ?_, ?_⟩
    · simp only [reader_after, List.append_assoc, ← e2, ← e1]
    · simp only [reader_after, l2, l1, List.count_append]; omega

/-- A reader at the end of its source with no recovery pending: a read returns end of
stream and leaves the reader as it is. -/
theorem reader_read_at_end {κ : Type} (tok : List Char → tok_result κ) (r : tlog_fd_reader)
    (hsrc : r.src = []) (hskip : r.skip = false) :
    tlog_fd_reader_read tok r = (.ok, none, r) := by
  cases r with
  | mk src line skip =>
    simp only at hsrc hskip
    subst hsrc hskip
    simp [tlog_fd_reader_read, reader_seek, reader_skip_space]

/-- A read that returns `ok` and no object has reached the end of the source with no
recovery pending. -/
theorem reader_read_eof_state {κ : Type} (tok : List Char → tok_result κ)
    (r : tlog_fd_reader)
    (hrc : (tlog_fd_reader_read tok r).1 = .ok)
    (hobj : (tlog_fd_reader_read tok r).2.1 = none) :
    (tlog_fd_reader_read tok r).2.2.src = [] ∧ (tlog_fd_reader_read tok r).2.2.skip = false := by
  unfold tlog_fd_reader_read at hrc hobj ⊢
  simp only [] at hrc hobj ⊢
  by_cases hz : (reader_seek r).1.isEmpty = true
  · simp only [hz, if_true]
    exact ⟨List.isEmpty_iff.mp hz, trivial⟩
  · simp only [hz] at hrc hobj
    cases ht : tok ((reader_seek r).1.takeWhile (fun c => c != '\n')) with
    | value v => simp [ht] at hobj
    | incomplete => simp [ht] at hrc
    | error code => simp [ht] at hrc

/-- The reader does not move once it is at the end of its source with no recovery
pending. -/
theorem reader_after_at_end {κ : Type} (tok : List Char → tok_result κ) (r : tlog_fd_reader)
    (hsrc : r.src = []) (hskip : r.skip = false) :
    ∀ n : Nat, reader_after tok n r = r
  | 0 => rfl
  | n + 1 => by
    rw [reader_after, reader_read_at_end tok r hsrc hskip]
    exact reader_after_at_end tok r hsrc hskip n

/-- C9: once a read has returned end of stream (code `ok`, no object), every later read
returns end of stream as well, and `loc_get` is the same before and after each of them:
for every number `n` of reads made since, the next read returns `ok` and no object, the
location after it is the location before it, and that is the location at the first end of
stream. -/
theorem eof_is_stable {κ : Type} (tok : List Char → tok_result κ) (r : tlog_fd_reader)
    (hrc : (tlog_fd_reader_read tok r).1 = reader_rc.ok)
    (hobj : (tlog_fd_reader_read tok r).2.1 = none) (n : Nat) :
    (tlog_fd_reader_read tok
      (reader_after tok n (tlog_fd_reader_read tok r).2.2)).1 = reader_rc.ok ∧
    (tlog_fd_reader_read tok
      (reader_after tok n (tlog_fd_reader_read tok r).2.2)).2.1 = none ∧
    tlog_fd_reader_loc_get (tlog_fd_reader_read tok
      (reader_after tok n (tlog_fd_reader_read tok r).2.2)).2.2 =
      tlog_fd_reader_loc_get (reader_after tok n (tlog_fd_reader_read tok r).2.2) ∧
    tlog_fd_reader_loc_get (reader_after tok n (tlog_fd_reader_read tok r).2.2) =
      tlog_fd_reader_loc_get (tlog_fd_reader_read tok r).2.2 := by
  obtain ⟨hsrc, hskip⟩ := reader_read_eof_state tok r hrc hobj
  rw [reader_after_at_end tok _ hsrc hskip n, reader_read_at_end tok _ hsrc hskip]
  exact ⟨rfl, rfl, rfl, rfl⟩

/-- The statement of `eof_is_stable` on the input of one blank line: the first read
returns end of stream at location 2, and so does the read after three more reads. -/
theorem eof_is_stable_witness :
    tlog_fd_reader_loc_get
      (tlog_fd_reader_read demo_tok (tlog_fd_reader_create [' ', '\n'])).2.2 = 2 ∧
    ((tlog_fd_reader_read demo_tok (reader_after demo_tok 3
        (tlog_fd_reader_read demo_tok (tlog_fd_reader_create [' ', '\n'])).2.2)).1
        = reader_rc.ok ∧
      (tlog_fd_reader_read demo_tok (reader_after demo_tok 3
        (tlog_fd_reader_read demo_tok (tlog_fd_reader_create [' ', '\n'])).2.2)).2.1
        = none ∧
      tlog_fd_reader_loc_get (tlog_fd_reader_read demo_tok (reader_after demo_tok 3
        (tlog_fd_reader_read demo_tok (tlog_fd_reader_create [' ', '\n'])).2.2)).2.2 =
        tlog_fd_reader_loc_get (reader_after demo_tok 3
          (tlog_fd_reader_read demo_tok (tlog_fd_reader_create [' ', '\n'])).2.2) ∧
      tlog_fd_reader_loc_get (reader_after demo_tok 3
        (tlog_fd_reader_read demo_tok (tlog_fd_reader_create [' ', '\n'])).2.2) =
        tlog_fd_reader_loc_get
          (tlog_fd_reader_read demo_tok (tlog_fd_reader_create [' ', '\n'])).2.2) :=
  ⟨by decide,
   eof_is_stable demo_tok (tlog_fd_reader_create [' ', '\n']) (by decide) (by decide) 3⟩

/-- C10: `loc_get` starts at 1; it does not decrease from one read to the next; after any
number of reads it is 1 plus the number of newlines among the bytes the reader has consumed
(the input is those bytes followed by what the source still holds), whatever those newlines
belonged to; and on an input without a newline it stays 1. -/
theorem loc_counts_newlines {κ : Type} (tok : List Char → tok_result κ) (input : List Char)
    (n : Nat) :
    tlog_fd_reader_loc_get (tlog_fd_reader_create input) = 1 ∧
    tlog_fd_reader_loc_get (reader_after tok n (tlog_fd_reader_create input)) ≤
      tlog_fd_reader_loc_get (reader_after tok (n + 1) (tlog_fd_reader_create input)) ∧
    (∃ consumed,
      input = consumed ++ (reader_after tok n (tlog_fd_reader_create input)).src ∧
      tlog_fd_reader_loc_get (reader_after tok n (tlog_fd_reader_create input)) =
        1 + consumed.count '\n') ∧
    ('\n' ∉ input →
      tlog_fd_reader_loc_get (reader_after tok n (tlog_fd_reader_create input)) = 1) := by
  obtain ⟨t, e, l⟩ := reader_after_spec tok n (tlog_fd_reader_create input)
  refine ⟨rfl, ?_, ⟨t, e, l⟩, fun hno => ?_⟩
  · rw [reader_after_succ]
    obtain ⟨t1, _, l1⟩ := reader_read_spec tok (reader_after tok n (tlog_fd_reader_create input))
    simp only [tlog_fd_reader_loc_get, l1]
    omega
  · have hin : input = t ++ (reader_after tok n (tlog_fd_reader_create input)).src := e
    have hnot : '\n' ∉ t := fun hm => hno (by rw [hin]; exact List.mem_append_left _ hm)
    have hz : t.count '\n' = 0 := List.count_eq_zero_of_not_mem hnot
    rw [hz] at l
    exact l

/-- The last part of `loc_counts_newlines` on the input `{"x": 1` of the test
`premature_eof`, which has no newline: the location is 1 after two reads. -/
theorem loc_counts_newlines_witness :
    tlog_fd_reader_loc_get (reader_after demo_tok 2
      (tlog_fd_reader_create ['\x7b', '\x22', 'x', '\x22', ':', ' ', '1'])) = 1 :=
  (loc_counts_newlines demo_tok ['\x7b', '\x22', 'x', '\x22', ':', ' ', '1'] 2).2.2.2
    (by decide)

/-! ## The scanner on the parts of a record -/

/-- The scanner over two texts in a row. -/
theorem json_run_append : ∀ (a b : List Char) (st : json_state),
    json_run st (a ++ b) = (json_run st a).bind (fun st' => json_run st' b)
  | [], b, st => by simp [json_run]
  | c :: cs, b, st => by
    simp only [List.cons_append, json_run]
    cases json_step st c with
    | none => rfl
    | some st' => exact json_run_append cs b st'

/-- A text that takes the scanner from one state to another can be skipped. -/
theorem json_run_skip (a rest : List Char) (st st' : json_state)
    (h : json_run st a = some st') : json_run st (a ++ rest) = json_run st' rest := by
  rw [json_run_append, h]; rfl

/-- The mode within a string that corresponds to the position `pend` of
`json_str_body_from`. -/
theorem json_str_body_run (k : Bool) (stack : List Bool) :
    ∀ (body : List Char) (pend : Option Nat),
      json_str_body_from pend body = true →
      json_run (stack, match pend with
        | none => json_mode.str k
        | some 0 => json_mode.esc k
        | some (n + 1) => json_mode.hex k n) body = some (stack, json_mode.str k)
  | [], none, _ => rfl
  | [], some _, h => by simp [json_str_body_from] at h
  | c :: cs, none, h => by
    simp only [json_str_body_from] at h
    by_cases hb : c = '\x5c'
    · subst hb
      simp only [beq_self_eq_true, if_true] at h
      have := json_str_body_run k stack cs (some 0) h
      simpa [json_run, json_step] using this
    · have hb2 : (c == '\x5c') = false := by simpa using hb
      simp only [hb2, Bool.false_eq_true, if_false, Bool.and_eq_true] at h
      have := json_str_body_run k stack cs none h.2
      have hq : (c == '\x22') = false := by
        have := h.1
        simp only [json_plain, Bool.and_eq_true, bne_iff_ne, ne_eq] at this
        simpa using this.1.2
      simp only [json_run, json_step, hq, hb2, h.1, Bool.false_eq_true, if_false, if_true]
      exact this
  | c :: cs, some 0, h => by
    simp only [json_str_body_from] at h
    by_cases hu : c = 'u'
    · subst hu
      simp only [beq_self_eq_true, if_true] at h
      have := json_str_body_run k stack cs (some 4) h
      simpa [json_run, json_step] using this
    · have hu2 : (c == 'u') = false := by simpa using hu
      simp only [hu2, Bool.false_eq_true, if_false, Bool.and_eq_true] at h
      have := json_str_body_run k stack cs none h.2
      simp only [json_run, json_step, hu2, h.1, Bool.false_eq_true, if_false, if_true]
      exact this
  | c :: cs, some (n + 1), h => by
    simp only [json_str_body_from, Bool.and_eq_true] at h
    cases n with
    | zero =>
      have := json_str_body_run k stack cs none (by simpa using h.2)
      simp only [json_run, json_step, h.1, if_true]
      exact this
    | succ m =>
      have := json_str_body_run k stack cs (some (m + 1)) (by simpa using h.2)
      simp only [json_run, json_step, h.1, if_true]
      exact this

/-- A string body keeps the scanner within the string. -/
theorem json_str_body_skip (k : Bool) (stack : List Bool) (body rest : List Char)
    (h : json_str_body body = true) :
    json_run (stack, json_mode.str k) (body ++ rest) = json_run (stack, json_mode.str k) rest :=
  json_run_skip body rest _ _ (json_str_body_run k stack body none h)

/-- Plain characters make a string body. -/
theorem json_plain_body : ∀ (text : List Char), text.all json_plain = true →
    json_str_body text = true
  | [], _ => rfl
  | c :: cs, h => by
    simp only [List.all_cons, Bool.and_eq_true] at h
    have hb : (c == '\x5c') = false := by
      have := h.1
      simp only [json_plain, Bool.and_eq_true, bne_iff_ne, ne_eq] at this
      simpa using this.2
    have ih := json_plain_body cs h.2
    simp only [json_str_body] at ih ⊢
    simp only [json_str_body_from, hb, Bool.false_eq_true, if_false, h.1, ih, Bool.and_self]

/-- A digit character is one of the ten. -/
theorem json_digit_cases (c : Char) (h : json_digit c = true) :
    c = '0' ∨ c = '1' ∨ c = '2' ∨ c = '3' ∨ c = '4' ∨ c = '5' ∨ c = '6' ∨ c = '7' ∨
      c = '8' ∨ c = '9' := by
  simp only [json_digit, Bool.and_eq_true, decide_eq_true_eq] at h
  have hc : c = Char.ofNat c.toNat := (Char.ofNat_toNat c).symm
  generalize c.toNat = n at h hc
  obtain ⟨h1, h2⟩ := h
  subst hc
  interval_cases n <;> simp

/-- The character of a digit below ten is a digit character, `0` only for zero. -/
theorem digitChar_digit (d : Nat) (h : d < 10) :
    json_digit (Nat.digitChar d) = true ∧ (Nat.digitChar d = '0' ↔ d = 0) := by
  interval_cases d <;> decide

/-- A digit continues a number that has digits. -/
theorem json_step_int_digit (stack : List Bool) (c : Char) (h : json_digit c = true) :
    json_step (stack, json_mode.int) c = some (stack, json_mode.int) := by
  simp [json_step, h]

/-- A digit where a value starts, or after a minus sign. -/
theorem json_step_first_digit (stack : List Bool) (m : json_mode)
    (hm : m = json_mode.value ∨ m = json_mode.minus) (c : Char) (h : json_digit c = true) :
    json_step (stack, m) c =
      some (stack, if c = '0' then json_mode.zero else json_mode.int) := by
  rcases json_digit_cases c h with h | h | h | h | h | h | h | h | h | h <;>
    rcases hm with hm | hm <;> subst h <;> subst hm <;>
    simp [json_step, json_begin, json_ws, json_digit]

/-- The digits of a number, where a value starts or after a minus sign. -/
theorem json_run_fmt_dec (stack : List Bool) (m : json_mode)
    (hm : m = json_mode.value ∨ m = json_mode.minus) (n : Nat) :
    json_run (stack, m) (fmt_dec n) =
      some (stack, if n = 0 then json_mode.zero else json_mode.int) := by
  induction n using Nat.strongRecOn with
  | _ n ih =>
    by_cases h : n < 10
    · rw [fmt_dec_lt n h]
      have hd := digitChar_digit n h
      simp only [json_run, json_step_first_digit stack m hm _ hd.1, hd.2]
    · have h10 : 10 ≤ n := by omega
      have hne : n / 10 ≠ 0 := by omega
      have hn0 : n ≠ 0 := by omega
      have hd := digitChar_digit (n % 10) (Nat.mod_lt _ (by decide))
      rw [fmt_dec_ge n h10, json_run_append, ih (n / 10) (Nat.div_lt_self (by omega) (by decide))]
      simp only [hne, if_false, Option.bind, json_run, json_step_int_digit stack _ hd.1, hn0]

/-- After a number, a comma or a closing bracket is read as after any value. -/
theorem json_step_number_end (stack : List Bool) (m : json_mode)
    (hm : m = json_mode.zero ∨ m = json_mode.int ∨ m = json_mode.frac) (c : Char)
    (hc : c = ',' ∨ c = '\x7d' ∨ c = ']') :
    json_step (stack, m) c = json_step (stack, json_mode.done) c := by
  rcases hm with hm | hm | hm <;> rcases hc with hc | hc | hc <;> subst hm <;> subst hc <;>
    simp [json_step, json_digit]

/-- A number and the character that ends it: the scanner is as after any value. -/
theorem json_run_fmt_dec_end (stack : List Bool) (n : Nat) (c : Char) (rest : List Char)
    (hc : c = ',' ∨ c = '\x7d' ∨ c = ']') :
    json_run (stack, json_mode.value) (fmt_dec n ++ c :: rest) =
      json_run (stack, json_mode.done) (c :: rest) := by
  rw [json_run_skip _ _ _ _ (json_run_fmt_dec stack _ (Or.inl rfl) n)]
  by_cases h : n = 0
  · simp only [h, if_true, json_run, json_step_number_end stack _ (Or.inl rfl) c hc]
  · simp only [h, if_false, json_run, json_step_number_end stack _ (Or.inr (Or.inl rfl)) c hc]

/-- The difference of two times in normal form is in normal form. -/
theorem timespec_sub_ok (a b : timespec) (ha : timespec_ok a = true)
    (hb : timespec_ok b = true) : timespec_ok (tlog_timespec_sub a b) = true := by
  simp only [timespec_ok, Bool.and_eq_true, decide_eq_true_eq] at ha hb ⊢
  unfold tlog_timespec_sub
  simp only []
  split <;> constructor <;> simp only [] <;> omega

/-- The `pos` field of a time in normal form and the character that ends it: the scanner
is as after any value. -/
theorem json_run_fmt_pos_end (stack : List Bool) (pos : timespec)
    (hp : timespec_ok pos = true) (c : Char) (rest : List Char)
    (hc : c = ',' ∨ c = '\x7d' ∨ c = ']') :
    json_run (stack, json_mode.value) (fmt_pos pos ++ c :: rest) =
      json_run (stack, json_mode.done) (c :: rest) := by
  simp only [timespec_ok, Bool.and_eq_true, decide_eq_true_eq] at hp
  have hms : pos.tv_nsec.toNat / 1000000 < 1000 := by omega
  have hdiv : pos.tv_nsec.tdiv 1000000 = ((pos.tv_nsec.toNat / 1000000 : Nat) : Int) := by
    rw [Int.tdiv_eq_ediv hp.1 (by decide)]
    omega
  have d2 := (digitChar_digit (pos.tv_nsec.toNat / 1000000 / 100) (by omega)).1
  have d1 := (digitChar_digit (pos.tv_nsec.toNat / 1000000 / 10 % 10) (by omega)).1
  have d0 := (digitChar_digit (pos.tv_nsec.toNat / 1000000 % 10) (by omega)).1
  have tail : ∀ m, m = json_mode.zero ∨ m = json_mode.int →
      json_run (stack, m)
        ('.' :: ([Nat.digitChar (pos.tv_nsec.toNat / 1000000 / 100),
          Nat.digitChar (pos.tv_nsec.toNat / 1000000 / 10 % 10),
          Nat.digitChar (pos.tv_nsec.toNat / 1000000 % 10)] ++ c :: rest)) =
      json_run (stack, json_mode.done) (c :: rest) := by
    intro m hm
    have e := json_step_number_end stack json_mode.frac (Or.inr (Or.inr rfl)) c hc
    have hdot : json_step (stack, m) '.' = some (stack, json_mode.dot) := by
      have hnd : json_digit '.' = false := by decide
      rcases hm with hm | hm <;> subst hm <;> simp [json_step, hnd]
    have s2 : json_step (stack, json_mode.dot)
        (Nat.digitChar (pos.tv_nsec.toNat / 1000000 / 100)) = some (stack, json_mode.frac) := by
      simp [json_step, d2]
    have s1 : json_step (stack, json_mode.frac)
        (Nat.digitChar (pos.tv_nsec.toNat / 1000000 / 10 % 10))
          = some (stack, json_mode.frac) := by
      simp [json_step, d1]
    have s0 : json_step (stack, json_mode.frac)
        (Nat.digitChar (pos.tv_nsec.toNat / 1000000 % 10)) = some (stack, json_mode.frac) := by
      simp [json_step, d0]
    simp only [json_run, List.cons_append, List.nil_append, hdot, s2, s1, s0, e]
  have sec : ∀ m, m = json_mode.value ∨ m = json_mode.minus →
      json_run (stack, m) (fmt_dec pos.tv_sec.natAbs ++
        '.' :: ([Nat.digitChar (pos.tv_nsec.toNat / 1000000 / 100),
          Nat.digitChar (pos.tv_nsec.toNat / 1000000 / 10 % 10),
          Nat.digitChar (pos.tv_nsec.toNat / 1000000 % 10)] ++ c :: rest)) =
      json_run (stack, json_mode.done) (c :: rest) := by
    intro m hm
    rw [json_run_skip _ _ _ _ (json_run_fmt_dec stack m hm _)]
    by_cases h : pos.tv_sec.natAbs = 0
    · simp only [h, if_true]; exact tail _ (Or.inl rfl)
    · simp only [h, if_false]; exact tail _ (Or.inr rfl)
  simp only [fmt_pos, fmt_ld, hdiv, fmt_03ld_small _ hms, List.append_assoc,
    List.cons_append]
  by_cases hneg : pos.tv_sec < 0
  · simp only [hneg, if_true, List.cons_append]
    have : json_step (stack, json_mode.value) '-' = some (stack, json_mode.minus) := by
      simp [json_step, json_begin, json_ws]
    simp only [json_run, this]
    exact sec _ (Or.inr rfl)
  · simp only [hneg, if_false]
    exact sec _ (Or.inl rfl)

/-- Numbers separated by commas and the closing bracket of their array: the scanner is as
after the array. -/
theorem json_run_nums (stack : List Bool) (rest : List Char) :
    ∀ (body : List Char) (m : Nat), json_nums_from m body = true →
      json_run (false :: stack, match m with
        | 0 => json_mode.value
        | 1 => json_mode.zero
        | _ + 2 => json_mode.int) (body ++ ']' :: rest) =
      json_run (stack, json_mode.done) rest
  | [], 0, h => by simp [json_nums_from] at h
  | [], 1, _ => by
    simp [json_run, json_step, json_after, json_ws, json_digit]
  | [], _ + 2, _ => by
    have hnd : json_digit ']' = false := by decide
    simp [json_run, json_step, json_after, json_ws, hnd]
  | c :: cs, 0, h => by
    simp only [json_nums_from] at h
    by_cases h0 : c = '0'
    · subst h0
      simp only [beq_self_eq_true, if_true] at h
      have ih := json_run_nums stack rest cs 1 h
      have hd : json_digit '0' = true := by decide
      simp only [List.cons_append, json_run,
        json_step_first_digit (false :: stack) _ (Or.inl rfl) '0' hd, if_true]
      exact ih
    · have h0b : (c == '0') = false := by simpa using h0
      simp only [h0b, Bool.false_eq_true, if_false, Bool.and_eq_true] at h
      have ih := json_run_nums stack rest cs 2 h.2
      simp only [List.cons_append, json_run,
        json_step_first_digit (false :: stack) _ (Or.inl rfl) c h.1, h0, if_false]
      exact ih
  | c :: cs, 1, h => by
    simp only [json_nums_from, Bool.and_eq_true, beq_iff_eq] at h
    have ih := json_run_nums stack rest cs 0 h.2
    obtain ⟨hc, _⟩ := h
    subst hc
    have : json_step (false :: stack, json_mode.zero) ','
        = some (false :: stack, json_mode.value) := by
      simp [json_step, json_after, json_ws, json_digit]
    simp only [List.cons_append, json_run, this]
    exact ih
  | c :: cs, _ + 2, h => by
    simp only [json_nums_from] at h
    by_cases hc : c = ','
    · subst hc
      simp only [beq_self_eq_true, if_true] at h
      have ih := json_run_nums stack rest cs 0 h
      have hnd : json_digit ',' = false := by decide
      have : json_step (false :: stack, json_mode.int) ','
          = some (false :: stack, json_mode.value) := by
        simp [json_step, json_after, json_ws, hnd]
      simp only [List.cons_append, json_run, this]
      exact ih
    · have hcb : (c == ',') = false := by simpa using hc
      simp only [hcb, Bool.false_eq_true, if_false, Bool.and_eq_true] at h
      have ih := json_run_nums stack rest cs 2 h.2
      simp only [List.cons_append, json_run, json_step_int_digit _ c h.1]
      exact ih

/-- The content of an array of numbers and its closing bracket, from just after the
opening bracket: the scanner is as after the array. -/
theorem json_run_num_list (stack : List Bool) (body rest : List Char)
    (h : json_num_list body = true) :
    json_run (false :: stack, json_mode.elem_or_end) (body ++ ']' :: rest) =
      json_run (stack, json_mode.done) rest := by
  cases body with
  | nil => simp [json_run, json_step, json_ws]
  | cons c cs =>
    simp only [json_num_list, List.isEmpty_cons, Bool.false_or] at h
    have h2 := json_run_nums stack rest (c :: cs) 0 h
    have hd : json_digit c = true := by
      simp only [json_nums_from] at h
      by_cases h0 : c = '0'
      · subst h0; decide
      · have h0b : (c == '0') = false := by simpa using h0
        simp only [h0b, Bool.false_eq_true, if_false, Bool.and_eq_true] at h
        exact h.1
    have hstep : json_step (false :: stack, json_mode.elem_or_end) c =
        json_step (false :: stack, json_mode.value) c := by
      rcases json_digit_cases c hd with h | h | h | h | h | h | h | h | h | h <;> subst h <;>
        simp [json_step, json_ws]
    simp only [List.cons_append, json_run, hstep] at h2 ⊢
    exact h2


/-- A number, then a text that starts with a comma or a closing bracket. -/
theorem json_run_fmt_dec_lit (stack : List Bool) (n : Nat) (lit rest : List Char)
    (st' : json_state) (c : Char) (l : List Char) (hl : lit = c :: l)
    (hc : c = ',' ∨ c = '\x7d' ∨ c = ']')
    (hlit : json_run (stack, json_mode.done) lit = some st') :
    json_run (stack, json_mode.value) (fmt_dec n ++ (lit ++ rest)) = json_run st' rest := by
  subst hl
  rw [List.cons_append, json_run_fmt_dec_end stack n c _ hc, ← List.cons_append,
    json_run_skip _ _ _ _ hlit]

/-- The `pos` field, then a text that starts with a comma or a closing bracket. -/
theorem json_run_fmt_pos_lit (stack : List Bool) (pos : timespec)
    (hp : timespec_ok pos = true) (lit rest : List Char)
    (st' : json_state) (c : Char) (l : List Char) (hl : lit = c :: l)
    (hc : c = ',' ∨ c = '\x7d' ∨ c = ']')
    (hlit : json_run (stack, json_mode.done) lit = some st') :
    json_run (stack, json_mode.value) (fmt_pos pos ++ (lit ++ rest)) = json_run st' rest := by
  subst hl
  rw [List.cons_append, json_run_fmt_pos_end stack pos hp c _ hc, ← List.cons_append,
    json_run_skip _ _ _ _ hlit]

/-- The scanner reads the window record, without its newline, as one complete value. -/
theorem window_fmt_run (hostname username : List Char) (session_id message_id : Nat)
    (pos : timespec) (width height : Nat)
    (hh : hostname.all json_plain = true) (hu : username.all json_plain = true)
    (hp : timespec_ok pos = true) :
    json_run ([], json_mode.value)
      ("\x7b\"type\":\"window\",\"host\":\"".toList ++ (fmt_s hostname ++
      ("\",\"user\":\"".toList ++ (fmt_s username ++
      ("\",\"session\":".toList ++ (fmt_u session_id ++
      (",\"id\":".toList ++ (fmt_zu message_id ++
      (",\"pos\":".toList ++ (fmt_pos pos ++
      (",\"width\":".toList ++ (fmt_hu width ++
      (",\"height\":".toList ++ (fmt_hu height ++
      ("\x7d".toList ++ []))))))))))))))) = some ([], json_mode.done) := by
  rw [fmt_s_plain hostname hh, fmt_s_plain username hu]
  rw [json_run_skip "\x7b\"type\":\"window\",\"host\":\"".toList _ _
    ([true], json_mode.str false) (by decide)]
  rw [json_str_body_skip _ _ _ _ (json_plain_body hostname hh)]
  rw [json_run_skip "\",\"user\":\"".toList _ _ ([true], json_mode.str false) (by decide)]
  rw [json_str_body_skip _ _ _ _ (json_plain_body username hu)]
  rw [json_run_skip "\",\"session\":".toList _ _ ([true], json_mode.value) (by decide)]
  rw [fmt_u, json_run_fmt_dec_lit _ _ ",\"id\":".toList _ ([true], json_mode.value) ','
    "\"id\":".toList rfl (Or.inl rfl) (by decide)]
  rw [fmt_zu, json_run_fmt_dec_lit _ _ ",\"pos\":".toList _ ([true], json_mode.value) ','
    "\"pos\":".toList rfl (Or.inl rfl) (by decide)]
  rw [json_run_fmt_pos_lit _ _ hp ",\"width\":".toList _ ([true], json_mode.value) ','
    "\"width\":".toList rfl (Or.inl rfl) (by decide)]
  rw [fmt_hu, json_run_fmt_dec_lit _ _ ",\"height\":".toList _ ([true], json_mode.value) ','
    "\"height\":".toList rfl (Or.inl rfl) (by decide)]
  rw [fmt_hu, json_run_fmt_dec_lit _ _ "\x7d".toList _ ([], json_mode.done) '\x7d'
    [] rfl (Or.inr (Or.inl rfl)) (by decide)]
  rfl


/-- The content of an array of numbers, then a text that starts with the closing
bracket. -/
theorem json_run_num_list_lit (stack : List Bool) (body lit rest : List Char)
    (st' : json_state) (l : List Char) (hl : lit = ']' :: l)
    (h : json_num_list body = true)
    (hlit : json_run (stack, json_mode.done) l = some st') :
    json_run (false :: stack, json_mode.elem_or_end) (body ++ (lit ++ rest)) =
      json_run st' rest := by
  subst hl
  rw [List.cons_append, json_run_num_list stack body _ h, json_run_skip _ _ _ _ hlit]

/-- The scanner reads the io record, without its newline, as one complete value. -/
theorem io_fmt_run {ρ : Type} (hostname username : List Char) (session_id message_id : Nat)
    (pos : timespec) (io : tlog_io ρ)
    (hh : hostname.all json_plain = true) (hu : username.all json_plain = true)
    (hp : timespec_ok pos = true)
    (h1 : json_str_body (fmt_s_prec io.timing_ptr io.timing_buf) = true)
    (h2 : json_str_body (fmt_s_prec io.input.txt_len io.input.txt_buf) = true)
    (h3 : json_num_list (fmt_s_prec io.input.bin_len io.input.bin_buf) = true)
    (h4 : json_str_body (fmt_s_prec io.output.txt_len io.output.txt_buf) = true)
    (h5 : json_num_list (fmt_s_prec io.output.bin_len io.output.bin_buf) = true) :
    json_run ([], json_mode.value)
      ("\x7b\"type\":\"io\",\"host\":\"".toList ++ (fmt_s hostname ++
      ("\",\"user\":\"".toList ++ (fmt_s username ++
      ("\",\"session\":".toList ++ (fmt_u session_id ++
      (",\"id\":".toList ++ (fmt_zu message_id ++
      (",\"pos\":".toList ++ (fmt_pos pos ++
      (",\"timing\":\"".toList ++ (fmt_s_prec io.timing_ptr io.timing_buf ++
      ("\",\"in_txt\":\"".toList ++ (fmt_s_prec io.input.txt_len io.input.txt_buf ++
      ("\",\"in_bin\":[".toList ++ (fmt_s_prec io.input.bin_len io.input.bin_buf ++
      ("],\"out_txt\":\"".toList ++ (fmt_s_prec io.output.txt_len io.output.txt_buf ++
      ("\",\"out_bin\":[".toList ++ (fmt_s_prec io.output.bin_len io.output.bin_buf ++
      ("]\x7d".toList ++ []))))))))))))))))))))) = some ([], json_mode.done) := by
  rw [fmt_s_plain hostname hh, fmt_s_plain username hu]
  rw [json_run_skip "\x7b\"type\":\"io\",\"host\":\"".toList _ _
    ([true], json_mode.str false) (by decide)]
  rw [json_str_body_skip _ _ _ _ (json_plain_body hostname hh)]
  rw [json_run_skip "\",\"user\":\"".toList _ _ ([true], json_mode.str false) (by decide)]
  rw [json_str_body_skip _ _ _ _ (json_plain_body username hu)]
  rw [json_run_skip "\",\"session\":".toList _ _ ([true], json_mode.value) (by decide)]
  rw [fmt_u, json_run_fmt_dec_lit _ _ ",\"id\":".toList _ ([true], json_mode.value) ','
    "\"id\":".toList rfl (Or.inl rfl) (by decide)]
  rw [fmt_zu, json_run_fmt_dec_lit _ _ ",\"pos\":".toList _ ([true], json_mode.value) ','
    "\"pos\":".toList rfl (Or.inl rfl) (by decide)]
  rw [json_run_fmt_pos_lit _ _ hp ",\"timing\":\"".toList _ ([true], json_mode.str false)
    ',' "\"timing\":\"".toList rfl (Or.inl rfl) (by decide)]
  rw [json_str_body_skip _ _ _ _ h1]
  rw [json_run_skip "\",\"in_txt\":\"".toList _ _ ([true], json_mode.str false) (by decide)]
  rw [json_str_body_skip _ _ _ _ h2]
  rw [json_run_skip "\",\"in_bin\":[".toList _ _ ([false, true], json_mode.elem_or_end)
    (by decide)]
  rw [json_run_num_list_lit _ _ "],\"out_txt\":\"".toList _ ([true], json_mode.str false)
    ",\"out_txt\":\"".toList rfl h3 (by decide)]
  rw [json_str_body_skip _ _ _ _ h4]
  rw [json_run_skip "\",\"out_bin\":[".toList _ _ ([false, true], json_mode.elem_or_end)
    (by decide)]
  rw [json_run_num_list_lit _ _ "]\x7d".toList _ ([], json_mode.done)
    "\x7d".toList rfl h5 (by decide)]
  rfl

/-- A text in braces that the scanner reads as one value, followed by a newline, is a
record. -/
theorem json_record_braces (mid : List Char)
    (h : json_run ([], json_mode.value) ('\x7b' :: (mid ++ ['\x7d'])) =
      some ([], json_mode.done)) :
    json_record ('\x7b' :: (mid ++ ['\x7d', '\n'])) = true := by
  have e : '\x7b' :: (mid ++ ['\x7d', '\n']) = ('\x7b' :: (mid ++ ['\x7d'])) ++ ['\n'] := by
    simp
  have e2 : ('\x7b' :: (mid ++ ['\x7d'])).getLast? = some '\x7d' := by
    rw [← List.cons_append, List.getLast?_concat]
  rw [e]
  simp only [json_record, List.getLast?_concat, List.dropLast_concat, json_object,
    List.head?_cons, e2, h, beq_self_eq_true, Bool.and_self]

/-- The window record is one JSON object and a newline, when the host and user names need
no escaping and the elapsed time is in normal form. -/
theorem window_fmt_json (hostname username : List Char) (session_id message_id : Nat)
    (pos : timespec) (width height : Nat)
    (hh : hostname.all json_plain = true) (hu : username.all json_plain = true)
    (hp : timespec_ok pos = true) :
    json_record (window_fmt hostname username session_id message_id pos width height)
      = true := by
  have e : window_fmt hostname username session_id message_id pos width height =
      '\x7b' :: (("\"type\":\"window\",\"host\":\"".toList ++ (fmt_s hostname ++
      ("\",\"user\":\"".toList ++ (fmt_s username ++
      ("\",\"session\":".toList ++ (fmt_u session_id ++
      (",\"id\":".toList ++ (fmt_zu message_id ++
      (",\"pos\":".toList ++ (fmt_pos pos ++
      (",\"width\":".toList ++ (fmt_hu width ++
      (",\"height\":".toList ++ fmt_hu height))))))))))))) ++ ['\x7d', '\n']) := by
    simp only [window_fmt, List.append_assoc]
    rfl
  rw [e]
  apply json_record_braces
  have h := window_fmt_run hostname username session_id message_id pos width height hh hu hp
  simp only [List.append_assoc, List.append_nil] at h ⊢
  exact h

/-- The io record is one JSON object and a newline, when the host and user names need no
escaping, the elapsed time is in normal form and the regions of the accumulator can stand
where the format puts them. -/
theorem io_fmt_json {ρ : Type} (hostname username : List Char) (session_id message_id : Nat)
    (pos : timespec) (io : tlog_io ρ)
    (hh : hostname.all json_plain = true) (hu : username.all json_plain = true)
    (hp : timespec_ok pos = true)
    (h1 : json_str_body (fmt_s_prec io.timing_ptr io.timing_buf) = true)
    (h2 : json_str_body (fmt_s_prec io.input.txt_len io.input.txt_buf) = true)
    (h3 : json_num_list (fmt_s_prec io.input.bin_len io.input.bin_buf) = true)
    (h4 : json_str_body (fmt_s_prec io.output.txt_len io.output.txt_buf) = true)
    (h5 : json_num_list (fmt_s_prec io.output.bin_len io.output.bin_buf) = true) :
    json_record (io_fmt hostname username session_id message_id pos io) = true := by
  have e : io_fmt hostname username session_id message_id pos io =
      '\x7b' :: (("\"type\":\"io\",\"host\":\"".toList ++ (fmt_s hostname ++ ("\",\"user\":\"".toList ++
      (fmt_s username ++ ("\",\"session\":".toList ++ (fmt_u session_id ++
      (",\"id\":".toList ++ (fmt_zu message_id ++ (",\"pos\":".toList ++ (fmt_pos pos ++
      (",\"timing\":\"".toList ++ (fmt_s_prec io.timing_ptr io.timing_buf ++
      ("\",\"in_txt\":\"".toList ++ (fmt_s_prec io.input.txt_len io.input.txt_buf ++
      ("\",\"in_bin\":[".toList ++ (fmt_s_prec io.input.bin_len io.input.bin_buf ++
      ("],\"out_txt\":\"".toList ++ (fmt_s_prec io.output.txt_len io.output.txt_buf ++
      ("\",\"out_bin\":[".toList ++ (fmt_s_prec io.output.bin_len io.output.bin_buf ++
      [']'])))))))))))))))))))) ++ ['\x7d', '\n']) := by
    simp only [io_fmt, List.append_assoc]
    rfl
  rw [e]
  apply json_record_braces
  have h := io_fmt_run hostname username session_id message_id pos io hh hu hp h1 h2 h3 h4 h5
  simp only [List.append_assoc, List.append_nil] at h ⊢
  exact h

/-! ## Every buffer handed to the writer is a record -/

theorem log_extends_json_refl {ρ ω : Type} (sink : tlog_sink ρ ω) :
    log_extends_json sink sink :=
  ⟨[], by simp, by simp⟩

theorem log_extends_json_same {ρ ω : Type} (sink1 sink2 : tlog_sink ρ ω)
    (h : sink2.writer.log = sink1.writer.log) : log_extends_json sink1 sink2 :=
  ⟨[], by simp [h], by simp⟩

theorem log_extends_json_trans {ρ ω : Type} (sink1 sink2 sink3 : tlog_sink ρ ω)
    (h12 : log_extends_json sink1 sink2) (h23 : log_extends_json sink2 sink3) :
    log_extends_json sink1 sink3 := by
  obtain ⟨n1, e1, p1⟩ := h12
  obtain ⟨n2, e2, p2⟩ := h23
  refine ⟨n1 ++ n2, by rw [e2, e1, List.append_assoc], ?_⟩
  intro e he
  rcases List.mem_append.mp he with h | h
  · exact p1 e h
  · exact p2 e h

/-- The record of a flush is one JSON object and a newline. -/
theorem io_flush_record_json {ρ ω : Type} (env : tlog_env ρ ω) (sink : tlog_sink ρ ω)
    (hok : sink_json_ok env sink)
    (hreg : ∀ io, env.io_is_valid io = true → io_regions_ok (env.io_flush io) = true) :
    json_record (io_flush_record env sink) = true := by
  obtain ⟨hh, hu, hs, hv⟩ := hok
  have hr := hreg sink.io hv
  simp only [io_regions_ok, Bool.and_eq_true] at hr
  obtain ⟨⟨⟨⟨⟨r0, r1⟩, r2⟩, r3⟩, r4⟩, r5⟩ := hr
  exact io_fmt_json _ _ _ _ _ _ hh hu (timespec_sub_ok _ _ r0 hs) r1 r2 r3 r4 r5

/-- One flush keeps what the records need and hands the writer at most one record. -/
theorem io_flush_json {ρ ω : Type} (env : tlog_env ρ ω) (sink : tlog_sink ρ ω)
    (hok : sink_json_ok env sink) (hkeep : io_keeps_valid env)
    (hreg : ∀ io, env.io_is_valid io = true → io_regions_ok (env.io_flush io) = true) :
    sink_json_ok env (tlog_sink_io_flush env sink).2 ∧
    log_extends_json sink (tlog_sink_io_flush env sink).2 := by
  have hrec := io_flush_record_json env sink hok hreg
  obtain ⟨hh, hu, hs, hv⟩ := hok
  obtain ⟨kf, ke, _, _⟩ := hkeep
  have hvf := kf sink.io hv
  have hve := ke _ hvf
  apply io_flush_elim env sink (fun r => sink_json_ok env r.2 ∧ log_extends_json sink r.2)
  · intro _; exact ⟨⟨hh, hu, hs, hv⟩, log_extends_json_refl sink⟩
  · intro _ _; exact ⟨⟨hh, hu, hs, hvf⟩, log_extends_json_same _ _ rfl⟩
  · intro _ _ _; exact ⟨⟨hh, hu, hs, hvf⟩, log_extends_json_same _ _ rfl⟩
  · intro _ _ _ _
    refine ⟨⟨hh, hu, hs, hvf⟩, ⟨[(io_flush_record env sink, _)], rfl, ?_⟩⟩
    intro e he
    simp only [List.mem_singleton] at he
    rw [he]; exact hrec
  · intro _ _ _ _
    refine ⟨⟨hh, hu, hs, hve⟩, ⟨[(io_flush_record env sink, _)], rfl, ?_⟩⟩
    intro e he
    simp only [List.mem_singleton] at he
    rw [he]; exact hrec

/-- One window write keeps what the records need and hands the writer at most two
records. -/
theorem window_write_json {ρ ω : Type} (env : tlog_env ρ ω) (sink : tlog_sink ρ ω)
    (timestamp : timespec) (width height : Nat)
    (hok : sink_json_ok env sink) (hkeep : io_keeps_valid env)
    (hreg : ∀ io, env.io_is_valid io = true → io_regions_ok (env.io_flush io) = true)
    (ht : timespec_ok timestamp = true) :
    sink_json_ok env (tlog_sink_window_write env sink timestamp width height).2 ∧
    log_extends_json sink (tlog_sink_window_write env sink timestamp width height).2 := by
  obtain ⟨hok1, hext1⟩ := io_flush_json env sink hok hkeep hreg
  obtain ⟨hh, hu, hs, hv⟩ := hok1
  have hrec : json_record
      (window_record (tlog_sink_io_flush env sink).2 timestamp width height) = true :=
    window_fmt_json _ _ _ _ _ _ _ hh hu (timespec_sub_ok _ _ ht hs)
  by_cases hl : (window_record (tlog_sink_io_flush env sink).2 timestamp width height).length
      ≤ INT_MAX
  · by_cases hr : (window_record (tlog_sink_io_flush env sink).2 timestamp width
        height).length < (tlog_sink_io_flush env sink).2.message_len
    · rw [window_write_written env sink timestamp width height hl hr]
      refine ⟨⟨hh, hu, hs, hv⟩, log_extends_json_trans _ _ _ hext1
        ⟨[(window_record (tlog_sink_io_flush env sink).2 timestamp width height, _)],
          rfl, ?_⟩⟩
      intro e he
      simp only [List.mem_singleton] at he
      rw [he]; exact hrec
    · rw [window_write_no_room env sink timestamp width height hl (Nat.le_of_not_lt hr)]
      exact ⟨⟨hh, hu, hs, hv⟩, log_extends_json_trans _ _ _ hext1
        (log_extends_json_same _ _ rfl)⟩
  · rw [window_write_overlong env sink timestamp width height (Nat.lt_of_not_le hl)]
    exact ⟨⟨hh, hu, hs, hv⟩, log_extends_json_trans _ _ _ hext1
      (log_extends_json_same _ _ rfl)⟩

/-- The loop of `tlog_sink_io_write`, however far it is followed, keeps what the records
need and hands the writer only records. -/
theorem io_write_json {ρ ω : Type} (env : tlog_env ρ ω)
    (timestamp : timespec) (output : Bool)
    (hkeep : io_keeps_valid env)
    (hreg : ∀ io, env.io_is_valid io = true → io_regions_ok (env.io_flush io) = true)
    (ht : timespec_ok timestamp = true) :
    ∀ (fuel : Nat) (sink : tlog_sink ρ ω) (buf : List UInt8), sink_json_ok env sink →
      sink_json_ok env (tlog_sink_io_write env fuel sink timestamp output buf).sink ∧
      log_extends_json sink (tlog_sink_io_write env fuel sink timestamp output buf).sink := by
  intro fuel
  induction fuel with
  | zero =>
    intro sink buf hok
    exact ⟨hok, log_extends_json_refl sink⟩
  | succ fuel ih =>
    intro sink buf hok
    have hok1 : sink_json_ok env
        { sink with io := (env.io_write sink.io timestamp output buf).1 } :=
      ⟨hok.1, hok.2.1, hok.2.2.1, hkeep.2.2.1 sink.io timestamp output buf hok.2.2.2 ht⟩
    have hsame : log_extends_json sink
        { sink with io := (env.io_write sink.io timestamp output buf).1 } :=
      log_extends_json_same _ _ rfl
    by_cases hz : (buf.drop (env.io_write sink.io timestamp output buf).2).length = 0
    · rw [io_write_step_done env fuel sink timestamp output buf hz]
      exact ⟨hok1, hsame⟩
    · obtain ⟨hok2, hext2⟩ := io_flush_json env _ hok1 hkeep hreg
      by_cases hf : (tlog_sink_io_flush env
          { sink with io := (env.io_write sink.io timestamp output buf).1 }).1 = TLOG_RC_OK
      · rw [io_write_step_more env fuel sink timestamp output buf hz hf]
        obtain ⟨hok3, hext3⟩ := ih _ (buf.drop (env.io_write sink.io timestamp output buf).2)
          hok2
        exact ⟨hok3, log_extends_json_trans _ _ _ hsame
          (log_extends_json_trans _ _ _ hext2 hext3)⟩
      · rw [io_write_step_failed env fuel sink timestamp output buf hz hf]
        exact ⟨hok2, log_extends_json_trans _ _ _ hsame hext2⟩

/-- The loop of `tlog_sink_io_cut`, however far it is followed, keeps what the records need
and hands the writer only records. -/
theorem io_cut_json {ρ ω : Type} (env : tlog_env ρ ω)
    (hkeep : io_keeps_valid env)
    (hreg : ∀ io, env.io_is_valid io = true → io_regions_ok (env.io_flush io) = true) :
    ∀ (fuel : Nat) (sink : tlog_sink ρ ω), sink_json_ok env sink →
      sink_json_ok env (tlog_sink_io_cut env fuel sink).2 ∧
      log_extends_json sink (tlog_sink_io_cut env fuel sink).2 := by
  intro fuel
  induction fuel with
  | zero =>
    intro sink hok
    exact ⟨hok, log_extends_json_refl sink⟩
  | succ fuel ih =>
    intro sink hok
    have hok1 : sink_json_ok env { sink with io := (env.io_cut sink.io).1 } :=
      ⟨hok.1, hok.2.1, hok.2.2.1, hkeep.2.2.2 sink.io hok.2.2.2⟩
    have hsame : log_extends_json sink { sink with io := (env.io_cut sink.io).1 } :=
      log_extends_json_same _ _ rfl
    obtain ⟨hok2, hext2⟩ := io_flush_json env _ hok1 hkeep hreg
    by_cases hc : (env.io_cut sink.io).2 = true
    · simp only [tlog_sink_io_cut, hc, if_true]
      exact ⟨hok1, hsame⟩
    · by_cases hf : (tlog_sink_io_flush env
          { sink with io := (env.io_cut sink.io).1 }).1 = TLOG_RC_OK
      · simp only [tlog_sink_io_cut, hc, hf, ne_eq, not_true_eq_false, if_false]
        obtain ⟨hok3, hext3⟩ := ih _ hok2
        exact ⟨hok3, log_extends_json_trans _ _ _ hsame
          (log_extends_json_trans _ _ _ hext2 hext3)⟩
      · simp only [tlog_sink_io_cut, hc, hf, ne_eq, not_false_eq_true, if_true, if_false]
        exact ⟨hok2, log_extends_json_trans _ _ _ hsame hext2⟩

/-- A sequence of operations keeps what the records need and hands the writer only
records. -/
theorem sink_run_json {ρ ω : Type} (env : tlog_env ρ ω) (fuel : Nat)
    (hkeep : io_keeps_valid env)
    (hreg : ∀ io, env.io_is_valid io = true → io_regions_ok (env.io_flush io) = true) :
    ∀ (ops : List sink_op) (sink : tlog_sink ρ ω), sink_json_ok env sink →
      (∀ op ∈ ops, sink_op_ok op = true) →
      sink_json_ok env (sink_run env fuel sink ops) ∧
      log_extends_json sink (sink_run env fuel sink ops)
  | [], sink, hok, _ => ⟨hok, log_extends_json_refl sink⟩
  | op :: ops, sink, hok, hops => by
    have hop := hops op (List.mem_cons_self _ _)
    have hrest : ∀ o ∈ ops, sink_op_ok o = true :=
      fun o ho => hops o (List.mem_cons_of_mem _ ho)
    have h1 : sink_json_ok env (sink_apply env fuel sink op) ∧
        log_extends_json sink (sink_apply env fuel sink op) := by
      cases op with
      | window_write timestamp width height =>
        exact window_write_json env sink timestamp width height hok hkeep hreg hop
      | io_write timestamp output buf =>
        exact io_write_json env timestamp output hkeep hreg hop fuel sink buf hok
      | io_cut => exact io_cut_json env hkeep hreg fuel sink hok
      | io_flush => exact io_flush_json env sink hok hkeep hreg
    obtain ⟨h2, h3⟩ := sink_run_json env fuel hkeep hreg ops _ h1.1 hrest
    exact ⟨h2, log_extends_json_trans _ _ _ h1.2 h3⟩


/-- C3, as amended: when the host and user names consist of characters that need no
escaping, the start time and the timestamps of the operations are in normal form, and the
accumulator keeps itself valid and delivers, after `tlog_io_flush`, regions that can stand
where the format puts them, then every buffer handed to the writer by a sequence of sink
operations (each loop followed for any number `fuel` of iterations) is exactly one JSON
object followed by a single newline. -/
theorem records_are_json {ρ ω : Type} (env : tlog_env ρ ω) (fuel : Nat)
    (sink : tlog_sink ρ ω) (ops : List sink_op)
    (hhost : sink.hostname.all json_plain = true)
    (huser : sink.username.all json_plain = true)
    (hstart : timespec_ok sink.start = true)
    (hvalid : tlog_sink_is_valid env sink = true)
    (hkeep : io_keeps_valid env)
    (hreg : ∀ io, env.io_is_valid io = true → io_regions_ok (env.io_flush io) = true)
    (hops : ∀ op ∈ ops, sink_op_ok op = true) :
    ∃ news, (sink_run env fuel sink ops).writer.log = sink.writer.log ++ news ∧
      ∀ e ∈ news, json_record e.1 = true :=
  (sink_run_json env fuel hkeep hreg ops sink ⟨hhost, huser, hstart, hvalid⟩ hops).2

theorem demo_env_keeps_valid (cap : Nat) : io_keeps_valid (demo_env cap) := by
  refine ⟨fun io h => ?_, fun io h => ?_, fun io t o b h ht => ?_, fun io h => ?_⟩
  · simpa [demo_env] using h
  · simpa [demo_env] using h
  · simp only [demo_env] at h ⊢
    split <;> simp_all
  · simpa [demo_env] using h

/-- As many copies of a plain character as the precision asks for make a string body. -/
theorem json_str_body_replicate (n : Nat) (c : Char) (hc : json_plain c = true) :
    json_str_body (fmt_s_prec n (List.replicate n c)) = true := by
  have hall : (List.replicate n c).all json_plain = true := by
    simp only [List.all_eq_true]
    intro x hx
    rw [List.eq_of_mem_replicate hx]; exact hc
  have ht : (List.replicate n c).take n = List.replicate n c :=
    List.take_of_length_le (by simp)
  rw [fmt_s_prec, ht, fmt_s_plain _ hall]
  exact json_plain_body _ hall

theorem demo_env_regions (cap : Nat) (io : tlog_io (Nat × Nat))
    (h : (demo_env cap).io_is_valid io = true) :
    io_regions_ok ((demo_env cap).io_flush io) = true := by
  have h0 : timespec_ok io.first = true := by simpa [demo_env] using h
  have hp : json_plain '+' = true := by decide
  have hi : json_plain 'i' = true := by decide
  have ho : json_plain 'o' = true := by decide
  have hb : json_num_list (fmt_s_prec 0 []) = true := by decide
  simp only [io_regions_ok, demo_env, h0, json_str_body_replicate _ _ hp,
    json_str_body_replicate _ _ hi, json_str_body_replicate _ _ ho, hb, Bool.and_self]

set_option maxRecDepth 8000 in
/-- The statement of `records_are_json` on the small accumulator: a write of three bytes
into a capacity of two, a window write, a cut and a flush hand the writer three records. -/
theorem records_are_json_witness :
    ((sink_run (demo_env 2) 4 (demo_sink ['h'] 1024 (demo_io 0 0) [])
      [sink_op.io_write { tv_sec := 11, tv_nsec := 0 } true [1, 2, 3],
       sink_op.window_write { tv_sec := 12, tv_nsec := 5000000 } 80 24,
       sink_op.io_cut, sink_op.io_flush]).writer.log.length = 3) ∧
    (∃ news, (sink_run (demo_env 2) 4 (demo_sink ['h'] 1024 (demo_io 0 0) [])
      [sink_op.io_write { tv_sec := 11, tv_nsec := 0 } true [1, 2, 3],
       sink_op.window_write { tv_sec := 12, tv_nsec := 5000000 } 80 24,
       sink_op.io_cut, sink_op.io_flush]).writer.log =
        (demo_sink ['h'] 1024 (demo_io 0 0) []).writer.log ++ news ∧
      ∀ e ∈ news, json_record e.1 = true) :=
  ⟨by decide,
   records_are_json (demo_env 2) 4 (demo_sink ['h'] 1024 (demo_io 0 0) [])
     [sink_op.io_write { tv_sec := 11, tv_nsec := 0 } true [1, 2, 3],
      sink_op.window_write { tv_sec := 12, tv_nsec := 5000000 } 80 24,
      sink_op.io_cut, sink_op.io_flush]
     (by decide) (by decide) (by decide) (by decide)
     (demo_env_keeps_valid 2) (demo_env_regions 2) (by decide)⟩

set_option maxRecDepth 8000 in
/-- C3 as stated fails: with a host name that is one double quote, the buffer that
`tlog_sink_window_write` hands to the writer has `"host":"""` and is not a JSON object. -/
theorem records_not_json_counterexample :
    (tlog_sink_window_write (demo_env 4) (demo_sink ['\x22'] 1024 (demo_io 0 0) [])
        { tv_sec := 12, tv_nsec := 5000000 } 80 24).2.writer.log =
      [(("\x7b\"type\":\"window\",\"host\":\"\"\",\"user\":\"u\",\"session\":1,\"id\":0," ++
          "\"pos\":2.005,\"width\":80,\"height\":24\x7d\n").toList, TLOG_RC_OK)] ∧
    json_record
      ("\x7b\"type\":\"window\",\"host\":\"\"\",\"user\":\"u\",\"session\":1,\"id\":0," ++
        "\"pos\":2.005,\"width\":80,\"height\":24\x7d\n").toList = false := by
  decide

/-! ## The scenarios of `lib/fd_reader_test.c` -/

set_option maxRecDepth 8000 in
/-- The tests of `lib/fd_reader_test.c`, replayed on the reader: for each input, the code
of each read, whether it returned an object, and the location after it. -/
theorem fd_reader_test_replay :
    (reader_trace demo_tok 2 (tlog_fd_reader_create "".toList)).map
        (fun x => (x.1, x.2.1.isSome, x.2.2))
      = [(reader_rc.ok, false, 1), (reader_rc.ok, false, 1)] ∧
    (reader_trace demo_tok 2 (tlog_fd_reader_create " ".toList)).map
        (fun x => (x.1, x.2.1.isSome, x.2.2))
      = [(reader_rc.ok, false, 1), (reader_rc.ok, false, 1)] ∧
    (reader_trace demo_tok 1 (tlog_fd_reader_create "\n".toList)).map
        (fun x => (x.1, x.2.1.isSome, x.2.2))
      = [(reader_rc.ok, false, 2)] ∧
    (reader_trace demo_tok 1 (tlog_fd_reader_create " \n".toList)).map
        (fun x => (x.1, x.2.1.isSome, x.2.2))
      = [(reader_rc.ok, false, 2)] ∧
    (reader_trace demo_tok 1 (tlog_fd_reader_create " \n \n".toList)).map
        (fun x => (x.1, x.2.1.isSome, x.2.2))
      = [(reader_rc.ok, false, 3)] ∧
    (reader_trace demo_tok 3 (tlog_fd_reader_create "\x7b\x7d".toList)).map
        (fun x => (x.1, x.2.1.isSome, x.2.2))
      = [(reader_rc.ok, true, 1), (reader_rc.ok, false, 1), (reader_rc.ok, false, 1)] ∧
    (reader_trace demo_tok 1 (tlog_fd_reader_create " \x7b\x7d ".toList)).map
        (fun x => (x.1, x.2.1.isSome, x.2.2))
      = [(reader_rc.ok, true, 1)] ∧
    (reader_trace demo_tok 1 (tlog_fd_reader_create "\n\x7b\x7d".toList)).map
        (fun x => (x.1, x.2.1.isSome, x.2.2))
      = [(reader_rc.ok, true, 2)] ∧
    (reader_trace demo_tok 1 (tlog_fd_reader_create "\x7b\x7d\n".toList)).map
        (fun x => (x.1, x.2.1.isSome, x.2.2))
      = [(reader_rc.ok, true, 2)] ∧
    (reader_trace demo_tok 1 (tlog_fd_reader_create "\n\x7b\x7d\n".toList)).map
        (fun x => (x.1, x.2.1.isSome, x.2.2))
      = [(reader_rc.ok, true, 3)] ∧
    (reader_trace demo_tok 3 (tlog_fd_reader_create "\x7b\x7d\n\x7b\x7d".toList)).map
        (fun x => (x.1, x.2.1.isSome, x.2.2))
      = [(reader_rc.ok, true, 2), (reader_rc.ok, true, 2), (reader_rc.ok, false, 2)] ∧
    (reader_trace demo_tok 3 (tlog_fd_reader_create "\x7b\x7d\n\x7b\x7d\n".toList)).map
        (fun x => (x.1, x.2.1.isSome, x.2.2))
      = [(reader_rc.ok, true, 2), (reader_rc.ok, true, 3), (reader_rc.ok, false, 3)] ∧
    (reader_trace demo_tok 3 (tlog_fd_reader_create "\x7b\x7d\n  \n\x7b\x7d\n".toList)).map
        (fun x => (x.1, x.2.1.isSome, x.2.2))
      = [(reader_rc.ok, true, 2), (reader_rc.ok, true, 4), (reader_rc.ok, false, 4)] ∧
    (reader_trace demo_tok 2 (tlog_fd_reader_create "\x7b\"x\": 1\x7d".toList)).map
        (fun x => (x.1, x.2.1.isSome, x.2.2))
      = [(reader_rc.ok, true, 1), (reader_rc.ok, false, 1)] ∧
    (reader_trace demo_tok 1 (tlog_fd_reader_create "[\x7b\"x\": 1\x7d]".toList)).map
        (fun x => (x.1, x.2.1.isSome, x.2.2))
      = [(reader_rc.parser json_tokener_error_depth, false, 1)] ∧
    (reader_trace demo_tok 3
        (tlog_fd_reader_create "[\x7b\"x\": 1\x7d]\n\x7b\x7d".toList)).map
        (fun x => (x.1, x.2.1.isSome, x.2.2))
      = [(reader_rc.parser json_tokener_error_depth, false, 2), (reader_rc.ok, true, 2),
          (reader_rc.ok, false, 2)] ∧
    (reader_trace demo_tok 1 (tlog_fd_reader_create "\x7b\"x\": 1".toList)).map
        (fun x => (x.1, x.2.1.isSome, x.2.2))
      = [(reader_rc.incomplete_line, false, 1)] ∧
    (reader_trace demo_tok 1 (tlog_fd_reader_create "\x7b\"x\": 1\n".toList)).map
        (fun x => (x.1, x.2.1.isSome, x.2.2))
      = [(reader_rc.incomplete_line, false, 2)] ∧
    (reader_trace demo_tok 2 (tlog_fd_reader_create
        ("\x7b\"abc\": 123, \"def\": 456, \"ghi\": 789, " ++
          "\"bool\": true, \"string\": \"wool\"\x7d").toList)).map
        (fun x => (x.1, x.2.1.isSome, x.2.2))
      = [(reader_rc.ok, true, 1), (reader_rc.ok, false, 1)] := by
  and_intros <;> decide

/-! ## The reader: an error stays on its line -/

/-- Skipping whitespace goes through a prefix of whitespace and counts its newlines. -/
theorem reader_skip_space_prefix : ∀ (ws m : List Char) (line : Nat),
    ws.all reader_space = true →
    reader_skip_space (ws ++ m) line = reader_skip_space m (line + ws.count '\n')
  | [], m, line, _ => by simp
  | c :: cs, m, line, h => by
    simp only [List.all_cons, Bool.and_eq_true] at h
    by_cases hc : c = '\n'
    · subst hc
      have ih := reader_skip_space_prefix cs m (line + 1) h.2
      have e : line + 1 + cs.count '\n' = line + (cs.count '\n' + 1) := by omega
      rw [e] at ih
      rw [List.cons_append, List.count_cons_self]
      simp only [reader_skip_space, beq_self_eq_true, if_true]
      exact ih
    · have ih := reader_skip_space_prefix cs m line h.2
      rw [List.cons_append, List.count_cons_of_ne (Ne.symm hc)]
      simp only [reader_skip_space, beq_iff_eq, hc, if_false, h.1, if_true]
      exact ih

/-- A character that is not whitespace is not the newline. -/
theorem not_space_ne_newline (c : Char) (hc : reader_space c = false) : c ≠ '\n' := by
  intro h
  subst h
  exact absurd hc (by decide)

/-- Skipping whitespace stops at a character that is not whitespace. -/
theorem reader_skip_space_stop (c : Char) (m : List Char) (line : Nat)
    (hc : reader_space c = false) : reader_skip_space (c :: m) line = (c :: m, line) := by
  have hn := not_space_ne_newline c hc
  simp only [reader_skip_space, beq_iff_eq, hn, if_false, hc, Bool.false_eq_true]

/-- A text without newline, followed by a newline: the text of the line and what follows. -/
theorem line_split : ∀ (a m : List Char), '\n' ∉ a →
    (a ++ '\n' :: m).takeWhile (fun c => c != '\n') = a ∧
    (a ++ '\n' :: m).dropWhile (fun c => c != '\n') = '\n' :: m
  | [], m, _ => by simp [List.takeWhile, List.dropWhile]
  | c :: cs, m, h => by
    have hc : c ≠ '\n' := fun e => h (by simp [e])
    have hcs : '\n' ∉ cs := fun e => h (List.mem_cons_of_mem _ e)
    have hb : (c != '\n') = true := by simpa using hc
    obtain ⟨h1, h2⟩ := line_split cs m hcs
    simp only [List.cons_append, List.takeWhile_cons, List.dropWhile_cons, hb, if_true, h1, h2,
      and_self]

/-- A text without newline at the end of the source: the text of the line, and nothing
follows. -/
theorem line_split_last : ∀ (a : List Char), '\n' ∉ a →
    a.takeWhile (fun c => c != '\n') = a ∧ a.dropWhile (fun c => c != '\n') = []
  | [], _ => by simp
  | c :: cs, h => by
    have hc : c ≠ '\n' := fun e => h (by simp [e])
    have hcs : '\n' ∉ cs := fun e => h (List.mem_cons_of_mem _ e)
    have hb : (c != '\n') = true := by simpa using hc
    obtain ⟨h1, h2⟩ := line_split_last cs hcs
    simp only [List.takeWhile_cons, List.dropWhile_cons, hb, if_true, h1, h2, and_self]

/-- The read of a line that a newline ends: the answer to its text, and the reader at the
start of the next line with no recovery pending. -/
theorem reader_read_line {κ : Type} (tok : List Char → tok_result κ) (ws : List Char)
    (c : Char) (t m : List Char) (line : Nat)
    (hws : ws.all reader_space = true) (hc : reader_space c = false) (ht : '\n' ∉ t) :
    tlog_fd_reader_read tok { src := ws ++ (c :: t ++ '\n' :: m), line := line, skip := false }
      = ((reader_answer (tok (c :: t))).1, (reader_answer (tok (c :: t))).2,
          { src := m, line := line + ws.count '\n' + 1, skip := false }) := by
  have hn := not_space_ne_newline c hc
  have hct : '\n' ∉ c :: t := by
    intro h
    rcases List.mem_cons.mp h with h | h
    · exact hn h.symm
    · exact ht h
  have hseek : reader_seek { src := ws ++ (c :: t ++ '\n' :: m), line := line, skip := false }
      = (c :: t ++ '\n' :: m, line + ws.count '\n') := by
    simp only [reader_seek, Bool.false_eq_true, if_false, reader_skip_space_prefix _ _ _ hws]
    exact reader_skip_space_stop c _ _ hc
  obtain ⟨h1, h2⟩ := line_split (c :: t) m hct
  unfold tlog_fd_reader_read
  simp only [hseek, h1, h2]
  cases tok (c :: t) <;> simp [reader_answer]

/-- The read of a line that the end of the source ends: the answer to its text, and the
reader at the end of the source. -/
theorem reader_read_last_line {κ : Type} (tok : List Char → tok_result κ) (ws : List Char)
    (c : Char) (t : List Char) (line : Nat)
    (hws : ws.all reader_space = true) (hc : reader_space c = false) (ht : '\n' ∉ t) :
    (tlog_fd_reader_read tok { src := ws ++ (c :: t), line := line, skip := false }).1
      = (reader_answer (tok (c :: t))).1 ∧
    (tlog_fd_reader_read tok { src := ws ++ (c :: t), line := line, skip := false }).2.1
      = (reader_answer (tok (c :: t))).2 ∧
    (tlog_fd_reader_read tok { src := ws ++ (c :: t), line := line, skip := false }).2.2.src
      = [] := by
  have hn := not_space_ne_newline c hc
  have hct : '\n' ∉ c :: t := by
    intro h
    rcases List.mem_cons.mp h with h | h
    · exact hn h.symm
    · exact ht h
  have hseek : reader_seek { src := ws ++ (c :: t), line := line, skip := false }
      = (c :: t, line + ws.count '\n') := by
    simp only [reader_seek, Bool.false_eq_true, if_false, reader_skip_space_prefix _ _ _ hws]
    exact reader_skip_space_stop c _ _ hc
  obtain ⟨h1, h2⟩ := line_split_last (c :: t) hct
  unfold tlog_fd_reader_read
  simp only [hseek, h1, h2]
  cases tok (c :: t) <;> simp [reader_answer]

/-- What step 1 leaves of the source does not depend on the line counter. -/
theorem reader_discard_line_src : ∀ (src : List Char) (l l' : Nat),
    (reader_discard_line src l).1 = (reader_discard_line src l').1
  | [], _, _ => rfl
  | c :: cs, l, l' => by
    by_cases hc : c = '\n'
    · simp [reader_discard_line, hc]
    · simp only [reader_discard_line, beq_iff_eq, hc, if_false]
      exact reader_discard_line_src cs l l'

/-- What step 2 leaves of the source does not depend on the line counter. -/
theorem reader_skip_space_src : ∀ (src : List Char) (l l' : Nat),
    (reader_skip_space src l).1 = (reader_skip_space src l').1
  | [], _, _ => rfl
  | c :: cs, l, l' => by
    by_cases hc : c = '\n'
    · simp only [reader_skip_space, hc, beq_self_eq_true, if_true]
      exact reader_skip_space_src cs (l + 1) (l' + 1)
    · by_cases hs : reader_space c = true
      · simp only [reader_skip_space, beq_iff_eq, hc, if_false, hs, if_true]
        exact reader_skip_space_src cs l l'
      · simp [reader_skip_space, hc, hs]

/-- Where steps 1 and 2 arrive in the source depends on the source and on the recovery
flag only. -/
theorem reader_seek_src (r r' : tlog_fd_reader) (hsrc : r.src = r'.src)
    (hskip : r.skip = r'.skip) : (reader_seek r).1 = (reader_seek r').1 := by
  unfold reader_seek
  simp only [hsrc, hskip]
  by_cases hs : r'.skip = true
  · simp only [hs, if_true]
    rw [reader_discard_line_src r'.src r.line r'.line]
    exact reader_skip_space_src _ _ _
  · simp only [hs]
    exact reader_skip_space_src _ _ _

/-- Two readers that steps 1 and 2 bring to the same place in the source: the read returns
the same code and object, and leaves the same source and the same recovery flag. -/
theorem reader_read_of_seek {κ : Type} (tok : List Char → tok_result κ)
    (r r' : tlog_fd_reader) (h : (reader_seek r).1 = (reader_seek r').1) :
    (tlog_fd_reader_read tok r).1 = (tlog_fd_reader_read tok r').1 ∧
    (tlog_fd_reader_read tok r).2.1 = (tlog_fd_reader_read tok r').2.1 ∧
    (tlog_fd_reader_read tok r).2.2.src = (tlog_fd_reader_read tok r').2.2.src ∧
    (tlog_fd_reader_read tok r).2.2.skip = (tlog_fd_reader_read tok r').2.2.skip := by
  unfold tlog_fd_reader_read
  simp only [h]
  by_cases hz : (reader_seek r').1.isEmpty = true
  · simp only [hz, if_true, and_self]
  · simp only [hz]
    cases tok ((reader_seek r').1.takeWhile (fun c => c != '\n')) <;> simp

/-- The codes and values of one more read. -/
theorem reader_results_succ {κ : Type} (tok : List Char → tok_result κ) (n : Nat)
    (r : tlog_fd_reader) :
    reader_results tok (n + 1) r =
      ((tlog_fd_reader_read tok r).1, (tlog_fd_reader_read tok r).2.1) ::
        reader_results tok n (tlog_fd_reader_read tok r).2.2 := by
  simp [reader_results, reader_trace]

/-- Two readers that steps 1 and 2 bring to the same place in the source return the same
codes and values from there on. -/
theorem reader_results_of_seek {κ : Type} (tok : List Char → tok_result κ) :
    ∀ (n : Nat) (r r' : tlog_fd_reader), (reader_seek r).1 = (reader_seek r').1 →
      reader_results tok n r = reader_results tok n r'
  | 0, _, _, _ => rfl
  | n + 1, r, r', h => by
    obtain ⟨h1, h2, h3, h4⟩ := reader_read_of_seek tok r r' h
    rw [reader_results_succ, reader_results_succ, h1, h2,
      reader_results_of_seek tok n _ _ (reader_seek_src _ _ h3 h4)]

/-- A line that is not all whitespace: whitespace, then a character that is not. -/
theorem line_content_split : ∀ (l : List Char), l.all reader_space = false →
    ∃ sp c t, l = sp ++ c :: t ∧ sp.all reader_space = true ∧ reader_space c = false
  | [], h => by simp at h
  | a :: as, h => by
    by_cases ha : reader_space a = true
    · have h2 : as.all reader_space = false := by
        simp only [List.all_cons, ha, Bool.true_and] at h
        exact h
      obtain ⟨sp, c, t, e, hsp, hc⟩ := line_content_split as h2
      exact ⟨a :: sp, c, t, by rw [e]; rfl, by simp [ha, hsp], hc⟩
    · exact ⟨[], a, as, rfl, rfl, by simpa using ha⟩

/-- The reads over the lines that come first do not depend on what follows them: on two
inputs that start with the same lines, the reader makes the same reads, as many as those
lines have content, and stands then, in both, before what follows (behind whitespace of
the lines read, with the same line counter and no recovery pending). -/
theorem reader_lines_prefix {κ : Type} (tok : List Char → tok_result κ) :
    ∀ (lines : List (List Char)), (∀ l ∈ lines, '\n' ∉ l) →
    ∀ (ws : List Char), ws.all reader_space = true →
    ∀ (x y : List Char) (line : Nat),
      ∃ ws' L, ws'.all reader_space = true ∧
        reader_trace tok (content_lines lines)
            { src := ws ++ (text_of_lines lines ++ x), line := line, skip := false } =
          reader_trace tok (content_lines lines)
            { src := ws ++ (text_of_lines lines ++ y), line := line, skip := false } ∧
        reader_after tok (content_lines lines)
            { src := ws ++ (text_of_lines lines ++ x), line := line, skip := false } =
          { src := ws' ++ x, line := L, skip := false } ∧
        reader_after tok (content_lines lines)
            { src := ws ++ (text_of_lines lines ++ y), line := line, skip := false } =
          { src := ws' ++ y, line := L, skip := false }
  | [], _, ws, hws, x, y, line => ⟨ws, line, hws, rfl, rfl, rfl⟩
  | l :: ls, hl, ws, hws, x, y, line => by
    have hls : ∀ l' ∈ ls, '\n' ∉ l' := fun l' h => hl l' (List.mem_cons_of_mem _ h)
    have hln : '\n' ∉ l := hl l (List.mem_cons_self _ _)
    by_cases hb : l.all reader_space = true
    · have hk : content_lines (l :: ls) = content_lines ls := by
        simp [content_lines, List.filter_cons, hb]
      have hws2 : (ws ++ l ++ ['\n']).all reader_space = true := by
        have : reader_space '\n' = true := by decide
        simp only [List.all_append, hws, hb, List.all_cons, this, List.all_nil, Bool.and_self]
      obtain ⟨ws', L, h1, h2, h3, h4⟩ :=
        reader_lines_prefix tok ls hls (ws ++ l ++ ['\n']) hws2 x y line
      have e : ∀ z : List Char, ws ++ (text_of_lines (l :: ls) ++ z) =
          ws ++ l ++ ['\n'] ++ (text_of_lines ls ++ z) := by
        intro z; simp [text_of_lines]
      rw [hk, e x, e y]
      exact ⟨ws', L, h1, h2, h3, h4⟩
    · have hb2 : l.all reader_space = false := by simpa using hb
      obtain ⟨sp, c, t, e, hsp, hc⟩ := line_content_split l hb2
      have ht : '\n' ∉ t := fun h => hln (by rw [e]; simp [h])
      have hk : content_lines (l :: ls) = content_lines ls + 1 := by
        simp [content_lines, List.filter_cons, hb2]
      have hws2 : (ws ++ sp).all reader_space = true := by
        simp only [List.all_append, hws, hsp, Bool.and_self]
      have e2 : ∀ z : List Char, ws ++ (text_of_lines (l :: ls) ++ z) =
          (ws ++ sp) ++ (c :: t ++ '\n' :: (text_of_lines ls ++ z)) := by
        intro z; simp [text_of_lines, e]
      obtain ⟨ws', L, h1, h2, h3, h4⟩ :=
        reader_lines_prefix tok ls hls [] rfl x y (line + (ws ++ sp).count '\n' + 1)
      simp only [List.nil_append] at h2 h3 h4
      rw [hk, e2 x, e2 y]
      refine ⟨ws', L, h1, ?_, ?_, ?_⟩
      · simp only [reader_trace, reader_read_line tok _ c t _ line hws2 hc ht, h2,
          tlog_fd_reader_loc_get]
      · simp only [reader_after, reader_read_line tok _ c t _ line hws2 hc ht, h3]
      · simp only [reader_after, reader_read_line tok _ c t _ line hws2 hc ht, h4]

/-- At the end of the source, steps 1 and 2 stay at the end of the source. -/
theorem reader_seek_nil (r : tlog_fd_reader) (h : r.src = []) : (reader_seek r).1 = [] := by
  unfold reader_seek
  by_cases hs : r.skip = true
  · simp [hs, h, reader_discard_line, reader_skip_space]
  · simp [hs, h, reader_skip_space]

/-- Behind whitespace, steps 1 and 2 arrive where they arrive without it. -/
theorem reader_seek_behind_space (ws m : List Char) (l l' : Nat)
    (hws : ws.all reader_space = true) :
    (reader_seek { src := ws ++ m, line := l, skip := false }).1 =
      (reader_seek { src := m, line := l', skip := false }).1 := by
  simp only [reader_seek, Bool.false_eq_true, if_false, reader_skip_space_prefix _ _ _ hws]
  exact reader_skip_space_src _ _ _

/-- C11: an error on line N stays on line N. The input is the lines before line N (each
ended by its newline), then line N: whitespace `sp` and a text `c :: t` that starts with a
character other than whitespace, holds no newline, and that the parser rejects with a
structural error or finds incomplete; line N is ended by a newline and followed by `rest`,
or it is the end of the input. Then, `k` being the number of lines before line N that have
content: the first `k` reads are those of the input without line N; read `k + 1` returns
no object, with the parser's own code for a structural error and the incomplete-line code
for an incomplete value; and the reads after it return, in codes and values, exactly what
the reads after the first `k` return on the input without line N. -/
theorem error_is_line_local {κ : Type} (tok : List Char → tok_result κ)
    (lines : List (List Char)) (sp : List Char) (c : Char) (t term rest : List Char)
    (hlines : ∀ l ∈ lines, '\n' ∉ l)
    (hsp : sp.all reader_space = true)
    (hc : reader_space c = false) (ht : '\n' ∉ t)
    (hterm : term = ['\n'] ∨ (term = [] ∧ rest = []))
    (herr : tok (c :: t) = tok_result.incomplete ∨
      ∃ code, tok (c :: t) = tok_result.error code) :
    reader_trace tok (content_lines lines)
        (tlog_fd_reader_create (text_of_lines lines ++ (sp ++ (c :: t ++ (term ++ rest))))) =
      reader_trace tok (content_lines lines)
        (tlog_fd_reader_create (text_of_lines lines ++ rest)) ∧
    (∀ code, tok (c :: t) = tok_result.error code →
      (tlog_fd_reader_read tok (reader_after tok (content_lines lines)
        (tlog_fd_reader_create
          (text_of_lines lines ++ (sp ++ (c :: t ++ (term ++ rest))))))).1
        = reader_rc.parser code) ∧
    (tok (c :: t) = tok_result.incomplete →
      (tlog_fd_reader_read tok (reader_after tok (content_lines lines)
        (tlog_fd_reader_create
          (text_of_lines lines ++ (sp ++ (c :: t ++ (term ++ rest))))))).1
        = reader_rc.incomplete_line) ∧
    (tlog_fd_reader_read tok (reader_after tok (content_lines lines)
      (tlog_fd_reader_create
        (text_of_lines lines ++ (sp ++ (c :: t ++ (term ++ rest))))))).2.1 = none ∧
    ∀ n : Nat,
      reader_results tok n (reader_after tok (content_lines lines + 1)
        (tlog_fd_reader_create
          (text_of_lines lines ++ (sp ++ (c :: t ++ (term ++ rest)))))) =
      reader_results tok n (reader_after tok (content_lines lines)
        (tlog_fd_reader_create (text_of_lines lines ++ rest))) := by
  obtain ⟨ws, L, hws, h2, h3, h4⟩ := reader_lines_prefix tok lines hlines [] rfl
    (sp ++ (c :: t ++ (term ++ rest))) rest 1
  simp only [List.nil_append] at h2 h3 h4
  have hws2 : (ws ++ sp).all reader_space = true := by
    simp only [List.all_append, hws, hsp, Bool.and_self]
  have hans : (reader_answer (tok (c :: t))).2 = none ∧
      (∀ code, tok (c :: t) = tok_result.error code →
        (reader_answer (tok (c :: t))).1 = reader_rc.parser code) ∧
      (tok (c :: t) = tok_result.incomplete →
        (reader_answer (tok (c :: t))).1 = reader_rc.incomplete_line) := by
    rcases herr with h | ⟨code, h⟩
    · rw [h]
      refine ⟨rfl, ?_, fun _ => rfl⟩
      intro code' hh
      cases hh
    · rw [h]
      refine ⟨rfl, ?_, ?_⟩
      · intro code' hh
        cases hh
        rfl
      · intro hh
        cases hh
  simp only [tlog_fd_reader_create]
  rw [reader_after_succ, h3, h4]
  refine ⟨h2, ?_⟩
  rcases hterm with hterm | ⟨hterm, hrest⟩
  · subst hterm
    have e : ws ++ (sp ++ (c :: t ++ (['\n'] ++ rest))) =
        (ws ++ sp) ++ (c :: t ++ '\n' :: rest) := by simp
    rw [e, reader_read_line tok _ c t rest L hws2 hc ht]
    refine ⟨fun code h => hans.2.1 code h, fun h => hans.2.2 h, hans.1, fun n => ?_⟩
    exact reader_results_of_seek tok n _ _
      (reader_seek_behind_space ws rest L _ hws).symm
  · subst hterm hrest
    have e : ws ++ (sp ++ (c :: t ++ ([] ++ []))) = (ws ++ sp) ++ (c :: t) := by simp
    rw [e]
    obtain ⟨r1, r2, r3⟩ := reader_read_last_line tok (ws ++ sp) c t L hws2 hc ht
    refine ⟨?_, ?_, ?_, fun n => ?_⟩
    · intro code h
      rw [r1]
      exact hans.2.1 code h
    · intro h
      rw [r1]
      exact hans.2.2 h
    · rw [r2]
      exact hans.1
    apply reader_results_of_seek tok n
    rw [reader_seek_nil _ r3]
    have := reader_seek_behind_space ws [] L L hws
    rw [this]
    exact (reader_seek_nil _ rfl).symm

set_option maxRecDepth 8000 in
/-- The statement of `error_is_line_local` on the input of the test `object_after_err`
behind a first line: `{}`, then `[{"x": 1}]` (too deep), then `{}` without newline. The
second read returns the parser's code, and the reads after it are those of the input
`{}`, `{}`. -/
theorem error_is_line_local_witness :
    (reader_results demo_tok 4 (tlog_fd_reader_create
        (text_of_lines [['\x7b', '\x7d']] ++
          ([] ++ ('[' :: ['\x7b', '\x22', 'x', '\x22', ':', ' ', '1', '\x7d', ']'] ++
            (['\n'] ++ ['\x7b', '\x7d']))))) =
      [(reader_rc.ok, some ['\x7b', '\x7d']),
       (reader_rc.parser json_tokener_error_depth, none),
       (reader_rc.ok, some ['\x7b', '\x7d']), (reader_rc.ok, none)]) ∧
    (reader_trace demo_tok (content_lines [['\x7b', '\x7d']])
        (tlog_fd_reader_create (text_of_lines [['\x7b', '\x7d']] ++
          ([] ++ ('[' :: ['\x7b', '\x22', 'x', '\x22', ':', ' ', '1', '\x7d', ']'] ++
            (['\n'] ++ ['\x7b', '\x7d']))))) =
      reader_trace demo_tok (content_lines [['\x7b', '\x7d']])
        (tlog_fd_reader_create (text_of_lines [['\x7b', '\x7d']] ++ ['\x7b', '\x7d'])) ∧
    (∀ code, demo_tok ('[' :: ['\x7b', '\x22', 'x', '\x22', ':', ' ', '1', '\x7d', ']'])
        = tok_result.error code →
      (tlog_fd_reader_read demo_tok (reader_after demo_tok (content_lines [['\x7b', '\x7d']])
        (tlog_fd_reader_create (text_of_lines [['\x7b', '\x7d']] ++
          ([] ++ ('[' :: ['\x7b', '\x22', 'x', '\x22', ':', ' ', '1', '\x7d', ']'] ++
            (['\n'] ++ ['\x7b', '\x7d']))))))).1 = reader_rc.parser code) ∧
    (demo_tok ('[' :: ['\x7b', '\x22', 'x', '\x22', ':', ' ', '1', '\x7d', ']'])
        = tok_result.incomplete →
      (tlog_fd_reader_read demo_tok (reader_after demo_tok (content_lines [['\x7b', '\x7d']])
        (tlog_fd_reader_create (text_of_lines [['\x7b', '\x7d']] ++
          ([] ++ ('[' :: ['\x7b', '\x22', 'x', '\x22', ':', ' ', '1', '\x7d', ']'] ++
            (['\n'] ++ ['\x7b', '\x7d']))))))).1 = reader_rc.incomplete_line) ∧
    (tlog_fd_reader_read demo_tok (reader_after demo_tok (content_lines [['\x7b', '\x7d']])
      (tlog_fd_reader_create (text_of_lines [['\x7b', '\x7d']] ++
        ([] ++ ('[' :: ['\x7b', '\x22', 'x', '\x22', ':', ' ', '1', '\x7d', ']'] ++
          (['\n'] ++ ['\x7b', '\x7d']))))))).2.1 = none ∧
    ∀ n : Nat,
      reader_results demo_tok n (reader_after demo_tok (content_lines [['\x7b', '\x7d']] + 1)
        (tlog_fd_reader_create (text_of_lines [['\x7b', '\x7d']] ++
          ([] ++ ('[' :: ['\x7b', '\x22', 'x', '\x22', ':', ' ', '1', '\x7d', ']'] ++
            (['\n'] ++ ['\x7b', '\x7d'])))))) =
      reader_results demo_tok n (reader_after demo_tok (content_lines [['\x7b', '\x7d']])
        (tlog_fd_reader_create (text_of_lines [['\x7b', '\x7d']] ++ ['\x7b', '\x7d'])))) :=
  ⟨by decide,
   error_is_line_local demo_tok [['\x7b', '\x7d']] [] '['
     ['\x7b', '\x22', 'x', '\x22', ':', ' ', '1', '\x7d', ']'] ['\n'] ['\x7b', '\x7d']
     (by decide) (by decide) (by decide) (by decide) (Or.inl rfl)
     (Or.inr ⟨json_tokener_error_depth, by decide⟩)⟩

end Tlog
